import Mathlib

/-!
# Blacksmith destination modules: outcome protocol

A shallow embedding of the `Load` functions of the destination modules
(amplitude, mailchimp, segment, blob, docstore, topic, sqlike) and of the
status tables they use, followed by theorems about the outcomes they emit.

Conventions of the embedding.

* A Go `[]byte` is a `List UInt8`, a Go `int` status code is an `Int`.
* The channel `then chan<- destination.Then` is the list `Run.thens` of the
  values sent on it, in sending order.
* An external collaborator (HTTP client, SQL driver, bucket, collection, topic)
  is an oracle: a function from the calls made so far and the current call to
  the result of the current call. Every deterministic behaviour of a stateful
  collaborator is such a function, and every run of a non-deterministic one is
  the run of one such function.
* `encoding/json`, `crypto/md5`, `encoding/hex`, `encoding/base64` and
  `net/url` are parameters (`Json`, `Std`).
* A Go run-time panic stops the function: `Run.panicked` records it, and
  nothing is appended to a run after it.
-/

set_option linter.dupNamespace false

namespace Blacksmith

/-! ## Data model -/

/-- A Go byte slice. -/
abbrev Bytes := List UInt8

/-- The `[]byte(s)` conversion of a Go string. -/
def stringBytes (s : String) : Bytes := s.toUTF8.toList

/-- The `string(b)` conversion of a Go byte slice. The slices converted here
are outputs of `json.Marshal`, which are valid UTF-8. -/
def bytesString (b : Bytes) : String :=
  match String.fromUTF8? ⟨b.toArray⟩ with
  | some s => s
  | none => ""

/-- A Go `float64`, kept as its bit pattern: the code only copies such values. -/
structure Float64 where
  bits : Nat := 0
deriving DecidableEq, Repr

/-- A Go `time.Time`, as seconds and nanoseconds since the Unix epoch. -/
structure Time where
  sec : Int := 0
  nsec : Nat := 0
deriving DecidableEq, Repr

/-- The method `time.Time.Unix`. -/
def Time.Unix (t : Time) : Int := t.sec

/-- A Go `interface{}` holding a decoded JSON value. -/
inductive JSON where
  | null : JSON
  | bool (b : Bool) : JSON
  | num (text : String) : JSON
  | str (s : String) : JSON
  | arr (items : List JSON) : JSON
  | obj (fields : List (String × JSON)) : JSON

/-- The type `errors.Validation` of the framework package `helper/errors`. -/
structure Validation where
  Message : String := ""
  Path : List String := []
deriving DecidableEq, Repr

/-- The type `errors.Error` of the framework package `helper/errors`. -/
structure Error where
  StatusCode : Int := 0
  Message : String := ""
  Validations : List Validation := []
deriving DecidableEq, Repr

/-- A Go `error` value: a framework `*errors.Error`, or any other error, of
which only the text is kept. -/
inductive GoError where
  | blacksmith (e : Error) : GoError
  | other (text : String) : GoError
deriving DecidableEq, Repr

/-- The type `analytics.AppInfo` (fields read by the destinations). -/
structure AppInfo where
  Name : String := ""
  Version : String := ""
  Build : String := ""
  Namespace : String := ""
deriving DecidableEq, Repr

/-- The type `analytics.DeviceInfo`. -/
structure DeviceInfo where
  Id : String := ""
  Manufacturer : String := ""
  Model : String := ""
  Name : String := ""
  Type_ : String := ""
  Version : String := ""
  AdvertisingID : String := ""
deriving DecidableEq, Repr

/-- The type `analytics.LocationInfo`. -/
structure LocationInfo where
  City : String := ""
  Country : String := ""
  Region : String := ""
  Latitude : Float64 := {}
  Longitude : Float64 := {}
  Speed : Float64 := {}
deriving DecidableEq, Repr

/-- The type `analytics.NetworkInfo`. -/
structure NetworkInfo where
  Bluetooth : Bool := false
  Cellular : Bool := false
  WIFI : Bool := false
  Carrier : String := ""
deriving DecidableEq, Repr

/-- The type `analytics.OSInfo`. -/
structure OSInfo where
  Name : String := ""
  Version : String := ""
deriving DecidableEq, Repr

/-- The type `analytics.Context`, restricted to the parts the destinations
read (`App`, `Device`, `Location`, `Network`, `OS`, `IP`). -/
structure Context where
  App : AppInfo := {}
  Device : DeviceInfo := {}
  Location : LocationInfo := {}
  Network : NetworkInfo := {}
  OS : OSInfo := {}
  IP : Bytes := []
deriving DecidableEq, Repr

namespace Store

/-- The type `store.Job`: identifier, payload bytes, context bytes, version. -/
structure Job where
  ID : String := ""
  Version : String := ""
  Context : Bytes := []
  Data : Bytes := []
deriving DecidableEq, Repr

/-- The type `store.Event`: the jobs of one source event and its reception
time. -/
structure Event where
  ID : String := ""
  Jobs : List Job := []
  ReceivedAt : Time := {}
deriving DecidableEq, Repr

/-- The type `store.Queue`: the batch handed to `Load`. -/
structure Queue where
  Events : List Event := []
deriving DecidableEq, Repr

/-- The `(event, job)` pairs of a batch in the order the nested `range` loops
of every `Load` visit them. -/
def Queue.pairs (q : Queue) : List (Event × Job) :=
  q.Events.flatMap (fun ev => ev.Jobs.map (fun job => (ev, job)))

end Store

/-- The `encoding/json` functions at one Go type. `Unmarshal data` is the value
left in a zero-initialised target together with the returned error. -/
structure Json (α : Type) where
  Marshal : α → Except GoError Bytes
  Unmarshal : Bytes → α × Option GoError

/-- The bytes `b` of `b, _ := json.Marshal(v)`: `nil` when marshalling fails. -/
def Json.marshalBytes {α : Type} (j : Json α) (v : α) : Bytes :=
  match j.Marshal v with
  | .ok b => b
  | .error _ => []

/-- The standard-library functions the destinations call. `urlParse u` tells
whether `net/url.Parse` accepts `u`, which is when `http.NewRequest` returns a
request rather than `nil` and an error. -/
structure Std where
  md5Sum : Bytes → Bytes
  hexEncodeToString : Bytes → String
  base64StdEncodeToString : Bytes → String
  urlParse : String → Bool

/-! ## HTTP -/

/-- A call on the `*http.Client`: `Do` of a request built by `http.NewRequest`
and `Header.Set`, or `PostForm` of `url.Values`. -/
inductive HttpCall where
  | Do (method url : String) (header : List (String × String)) (body : Bytes) : HttpCall
  | PostForm (url : String) (data : List (String × List String)) : HttpCall
deriving DecidableEq, Repr

/-- What the code reads of an `*http.Response`: the status code and the body
as `buf.ReadFrom(res.Body)` collects it. -/
structure Response where
  StatusCode : Int
  Body : String := ""
deriving DecidableEq, Repr

/-- The HTTP client as an oracle: earlier calls, current call, result. The
error case carries `err.Error()`. -/
abbrev Client := List HttpCall → HttpCall → Except String Response

/-- The value of the Go map index expression `m[k]` for a `map[int]bool`
literal `m`: the stored value, or `false` when `k` is not a key. -/
def mapIndex (m : List (Int × Bool)) (k : Int) : Bool :=
  match m.lookup k with
  | some v => v
  | none => false

/-! ## Amplitude: objects -/

namespace Amplitude

/-- The amplitude `Options` (options.go). -/
structure Options where
  Realtime : Bool := false
  Interval : String := ""
  MaxRetries : Nat := 0
  APIKey : String := ""
deriving DecidableEq, Repr

/-- The amplitude `Event` (objects.go). -/
structure Event where
  Event : String := ""
  InsertId : String := ""
  UserId : String := ""
  DeviceId : String := ""
  Time : Int := 0
  Traits : List (String × JSON) := []
  Context : Option Context := none
  AppVersion : String := ""
  Platform : String := ""
  OSName : String := ""
  OSVersion : String := ""
  DeviceBrand : String := ""
  DeviceManufacturer : String := ""
  DeviceModel : String := ""
  Carrier : String := ""
  Country : String := ""
  Region : String := ""
  City : String := ""
  Latitude : Float64 := {}
  Longitude : Float64 := {}
  DMA : String := ""
  Language : String := ""
  Paying : String := ""
  StartVersion : String := ""
  IP : Bytes := []
  ProductId : String := ""
  Quantity : Float64 := {}
  Price : Float64 := {}
  Revenue : Float64 := {}

/-- The amplitude `Identification` (objects.go). -/
structure Identification where
  UserId : String := ""
  GroupType : String := ""
  GroupValue : String := ""
  GroupProperties : List (String × JSON) := []

/-- The exported fields of the amplitude action `Page` (action_page.go). -/
structure Page where
  APIKey : String := ""
  Events : List Event := []

/-- The exported fields of the amplitude action `Group` (action_group.go). -/
structure Group where
  APIKey : String := ""
  Identification : List Identification := []

/-- Modelled from the spec: the amplitude action `Track`, whose declaring file
is not part of the sources. `Group.Load` builds it as `Track{Events: ...}`, so
it has a field `Events []Event`; the `api_key` field is taken to be as in
`Page`, the sibling "single-call network action" over the same event API. -/
structure Track where
  APIKey : String := ""
  Events : List Event := []

/-- The table `statusForceDiscards` of amplitude (destination.go). -/
def statusForceDiscards : List (Int × Bool) :=
  [(400, true), (413, true), (422, true), (429, false),
   (500, false), (502, false), (503, false), (504, false)]

/-- The `encoding/json` functions at the types amplitude uses. -/
structure Codec where
  context : Json Context
  page : Json Page
  group : Json Group
  identification : Json (List Identification)

end Amplitude

/-! ## Outcomes -/

/-- The `destination.Action` values a `Load` attaches to an outcome. -/
inductive Action where
  | amplitudeTrack (a : Amplitude.Track) : Action

/-- The type `destination.Then`: the outcome sent on the channel. -/
structure Then where
  Jobs : List String := []
  Error : Option GoError := none
  ForceDiscard : Bool := false
  OnSucceeded : List Action := []

/-- What a `Load` did: the outcomes sent on the channel, the calls made on the
external collaborator (of type `κ`), and whether it stopped on a run-time
panic. -/
structure Run (κ : Type) where
  thens : List Then := []
  calls : List κ := []
  panicked : Bool := false

/-- The statement `then <- v`. -/
def Run.send {κ : Type} (t : Run κ) (v : Then) : Run κ :=
  { t with thens := t.thens ++ [v] }

/-- Records a call on the external collaborator. -/
def Run.call {κ : Type} (t : Run κ) (c : κ) : Run κ :=
  { t with calls := t.calls ++ [c] }

/-- A run-time panic. -/
def Run.panic {κ : Type} (t : Run κ) : Run κ :=
  { t with panicked := true }

/-- What a `Load` over HTTP did. -/
abbrev Trace := Run HttpCall

/-- The nested loops `for _, event := range queue.Events { for _, job := range
event.Jobs { body } }` of the per-job `Load` functions. A panic in `body` ends
the function, so `body` is not entered again after it. -/
def forEachJob {κ : Type} (body : Store.Event → Store.Job → Run κ → Run κ)
    (queue : Store.Queue) (t : Run κ) : Run κ :=
  queue.Events.foldl
    (fun t event => event.Jobs.foldl
      (fun t job => if t.panicked then t else body event job t) t) t

/-! ## Amplitude: `Page.Load` and `Group.Load` -/

namespace Amplitude

/-- The request `Page.Load` builds for a job (action_page.go, lines 93-120).
`http.NewRequest` is called on a literal, well-formed URL and cannot fail. -/
def Page.request (env : Options) (codec : Codec) (job : Store.Job) : HttpCall :=
  let c := (codec.context.Unmarshal job.Context).1
  let d := (codec.page.Unmarshal job.Data).1
  let d : Page := { d with Events := d.Events.map (fun e => { e with Context := some c }) }
  let body : Page := { d with APIKey := env.APIKey }
  let b := codec.page.marshalBytes body
  HttpCall.Do "POST" "https://api2.amplitude.com/2/httpapi"
    [("Accept", "*/*"), ("Content-Type", "application/json")] b

/-- The body of the job loop of `Page.Load` (action_page.go, lines 91-159). -/
def Page.loadJob (env : Options) (codec : Codec) (client : Client)
    (_event : Store.Event) (job : Store.Job) (t : Trace) : Trace :=
  let req := Page.request env codec job
  match client t.calls req with
  | .error err =>
    (t.call req).send
      { Jobs := [job.ID], ForceDiscard := true,
        Error := some (.blacksmith { StatusCode := 500, Message := err }) }
  | .ok res =>
    if res.StatusCode ≥ 300 then
      (t.call req).send
        { Jobs := [job.ID], ForceDiscard := mapIndex statusForceDiscards res.StatusCode,
          Error := some (.blacksmith { StatusCode := res.StatusCode, Message := res.Body }) }
    else
      (t.call req).send { Jobs := [job.ID], Error := none }

/-- The function `Page.Load` (action_page.go). -/
def Page.Load (env : Options) (codec : Codec) (client : Client) (queue : Store.Queue) : Trace :=
  forEachJob (Page.loadJob env codec client) queue {}

/-- The form `Group.Load` posts for a job (action_group.go, lines 93-101). -/
def Group.request (env : Options) (codec : Codec) (job : Store.Job) : HttpCall :=
  let d := (codec.group.Unmarshal job.Data).1
  let b := codec.identification.marshalBytes d.Identification
  HttpCall.PostForm "https://api.amplitude.com/groupidentify"
    [("api_key", [env.APIKey]), ("identification", [bytesString b])]

/-- The `Track` action `Group.Load` attaches to a success (action_group.go,
lines 143-167), given the first identification. -/
def Group.cascade (event : Store.Event) (c : Context) (first : Amplitude.Identification) : Action :=
  Action.amplitudeTrack
    { Events := [
        { Event := "Group",
          UserId := first.UserId,
          DeviceId := c.Device.Id,
          Time := event.ReceivedAt.Unix,
          Context := some c,
          AppVersion := c.App.Version,
          OSName := c.OS.Name,
          OSVersion := c.OS.Version,
          DeviceBrand := c.Device.Name,
          DeviceManufacturer := c.Device.Manufacturer,
          DeviceModel := c.Device.Model,
          Carrier := c.Network.Carrier,
          Country := c.Location.Country,
          Region := c.Location.Region,
          City := c.Location.City,
          Latitude := c.Location.Latitude,
          Longitude := c.Location.Longitude,
          IP := c.IP } ] }

/-- The body of the job loop of `Group.Load` (action_group.go, lines 84-170).
On a success the outcome is built from `d.Identification[0]`, which panics
with an index out of range when the decoded list is empty: nothing is sent. -/
def Group.loadJob (env : Options) (codec : Codec) (client : Client)
    (event : Store.Event) (job : Store.Job) (t : Trace) : Trace :=
  let c := (codec.context.Unmarshal job.Context).1
  let d := (codec.group.Unmarshal job.Data).1
  let req := Group.request env codec job
  match client t.calls req with
  | .error err =>
    (t.call req).send
      { Jobs := [job.ID], ForceDiscard := true,
        Error := some (.blacksmith { StatusCode := 500, Message := err }) }
  | .ok res =>
    if res.StatusCode ≥ 300 then
      (t.call req).send
        { Jobs := [job.ID], ForceDiscard := mapIndex statusForceDiscards res.StatusCode,
          Error := some (.blacksmith { StatusCode := res.StatusCode, Message := res.Body }) }
    else
      match d.Identification with
      | [] => (t.call req).panic
      | first :: _ =>
        (t.call req).send
          { Jobs := [job.ID], Error := none, OnSucceeded := [Group.cascade event c first] }

/-- The function `Group.Load` (action_group.go). -/
def Group.Load (env : Options) (codec : Codec) (client : Client) (queue : Store.Queue) : Trace :=
  forEachJob (Group.loadJob env codec client) queue {}

end Amplitude

/-! ## Mailchimp: `Identify.Load` -/

namespace Mailchimp

/-- The mailchimp `Options` (options.go). -/
structure Options where
  Realtime : Bool := false
  Interval : String := ""
  MaxRetries : Nat := 0
  APIKey : String := ""
  DatacenterID : String := ""
  AudienceID : String := ""
  EnableDoubleOptIn : Bool := false
deriving DecidableEq, Repr

/-- The mailchimp `Signup` (objects.go), the exported part of `Identify`. -/
structure Signup where
  StatusIfNew : String := ""
  Email : String := ""
  FirstName : String := ""
  LastName : String := ""
  IPSignup : Bytes := []
  TimestampSignup : Time := {}
  Location : Option LocationInfo := none
deriving DecidableEq, Repr

/-- The table `statusForceDiscards` of mailchimp (destination.go). -/
def statusForceDiscards : List (Int × Bool) :=
  [(400, true), (401, false), (403, false), (404, false), (405, true),
   (414, true), (422, true), (429, false), (500, false), (503, false)]

/-- The `encoding/json` functions at the types mailchimp uses. -/
structure Codec where
  context : Json Context
  identify : Json Signup

/-- The URL of the member `Identify.Load` writes (action_identify.go, lines
121-126). -/
def Identify.url (env : Options) (std : Std) (d : Signup) : String :=
  let h := std.md5Sum (stringBytes d.Email)
  let s := std.hexEncodeToString h
  "https://" ++ env.DatacenterID ++ ".api.mailchimp.com/3.0/lists/" ++ env.AudienceID
    ++ "/members/" ++ s

/-- The request `Identify.Load` builds for a job (action_identify.go, lines
98-128), when `http.NewRequest` returns one. -/
def Identify.request (env : Options) (std : Std) (codec : Codec) (job : Store.Job) : HttpCall :=
  let d := (codec.identify.Unmarshal job.Data).1
  let status := if env.EnableDoubleOptIn = true then "pending" else "subscribed"
  let body : Signup := { d with StatusIfNew := status }
  let b := codec.identify.marshalBytes body
  HttpCall.Do "PUT" (Identify.url env std d)
    [("Authorization",
        "Basic " ++ std.base64StdEncodeToString (stringBytes ("anystring:" ++ env.APIKey))),
     ("Content-Type", "application/json")] b

/-- The body of the job loop of `Identify.Load` (action_identify.go, lines
95-167). The URL holds two configured strings, and the error of
`http.NewRequest` is dropped: when the URL does not parse, `req` is `nil` and
`req.Header.Set` panics. -/
def Identify.loadJob (env : Options) (std : Std) (codec : Codec) (client : Client)
    (_event : Store.Event) (job : Store.Job) (t : Trace) : Trace :=
  let d := (codec.identify.Unmarshal job.Data).1
  if std.urlParse (Identify.url env std d) = false then t.panic
  else
    let req := Identify.request env std codec job
    match client t.calls req with
    | .error err =>
      (t.call req).send
        { Jobs := [job.ID], ForceDiscard := true,
          Error := some (.blacksmith { StatusCode := 500, Message := err }) }
    | .ok res =>
      if res.StatusCode ≥ 300 then
        (t.call req).send
          { Jobs := [job.ID], ForceDiscard := mapIndex statusForceDiscards res.StatusCode,
            Error := some (.blacksmith { StatusCode := res.StatusCode, Message := res.Body }) }
      else
        (t.call req).send { Jobs := [job.ID], Error := none }

/-- The function `Identify.Load` (action_identify.go). -/
def Identify.Load (env : Options) (std : Std) (codec : Codec) (client : Client)
    (queue : Store.Queue) : Trace :=
  forEachJob (Identify.loadJob env std codec client) queue {}

end Mailchimp

/-! ## Segment: `Alias.Load` -/

namespace Segment

/-- The segment `Options` (options.go). -/
structure Options where
  Realtime : Bool := false
  Interval : String := ""
  MaxRetries : Nat := 0
  WriteKey : String := ""
deriving DecidableEq, Repr

/-- The type `analytics.Alias`, the exported part of the action `Alias`. -/
structure Alias where
  Type_ : String := ""
  MessageId : String := ""
  PreviousId : String := ""
  UserId : String := ""
  Timestamp : Time := {}
  Context : Option Context := none
  Integrations : List (String × JSON) := []

/-- The `encoding/json` functions at the types segment uses. -/
structure Codec where
  context : Json Context
  aliasJson : Json Alias

/-- The request `Alias.Load` builds for a job (action_alias.go, lines 85-107).
`http.NewRequest` is called on a literal, well-formed URL and cannot fail. -/
def Alias.request (env : Options) (std : Std) (codec : Codec) (job : Store.Job) : HttpCall :=
  let c := (codec.context.Unmarshal job.Context).1
  let d := (codec.aliasJson.Unmarshal job.Data).1
  let body : Alias := { d with Context := some c }
  let b := codec.aliasJson.marshalBytes body
  HttpCall.Do "POST" "https://api.segment.io/v1/alias"
    [("Authorization", "Basic " ++ std.base64StdEncodeToString (stringBytes env.WriteKey)),
     ("Content-Type", "application/json")] b

/-- The body of the job loop of `Alias.Load` (action_alias.go, lines 83-144). -/
def Alias.loadJob (env : Options) (std : Std) (codec : Codec) (client : Client)
    (_event : Store.Event) (job : Store.Job) (t : Trace) : Trace :=
  let req := Alias.request env std codec job
  match client t.calls req with
  | .error err =>
    (t.call req).send
      { Jobs := [job.ID],
        Error := some (.blacksmith { StatusCode := 500, Message := err }) }
  | .ok res =>
    if res.StatusCode ≥ 300 then
      (t.call req).send
        { Jobs := [job.ID], ForceDiscard := decide (res.StatusCode = 400),
          Error := some (.blacksmith { StatusCode := res.StatusCode, Message := res.Body }) }
    else
      (t.call req).send { Jobs := [job.ID], Error := none }

/-- The function `Alias.Load` (action_alias.go). -/
def Alias.Load (env : Options) (std : Std) (codec : Codec) (client : Client)
    (queue : Store.Queue) : Trace :=
  forEachJob (Alias.loadJob env std codec client) queue {}

end Segment

/-! ## Blob: `Write.Load` -/

namespace Blob

/-- The exported fields of the blob action `Write` (action_write.go). -/
structure Write where
  Filename : String := ""
  Content : Bytes := []
deriving DecidableEq, Repr

/-- A call on the `*blob.Bucket` or on the `*blob.Writer` it returned. -/
inductive Call where
  | NewWriter (filename : String) : Call
  | Write (content : Bytes) : Call
  | Close : Call
deriving DecidableEq, Repr

/-- The bucket as an oracle: earlier calls, current call, returned error. -/
abbrev Bucket := List Call → Call → Option GoError

/-- The body of the job loop of `Write.Load` (action_write.go, lines 81-116).
The result of `writer.Write` is not read. -/
def Write.loadJob (json : Json Write) (bucket : Bucket)
    (_event : Store.Event) (job : Store.Job) (t : Run Call) : Run Call :=
  let payload := (json.Unmarshal job.Data).1
  match (json.Unmarshal job.Data).2 with
  | some err => t.send { Jobs := [job.ID], Error := some err, ForceDiscard := true }
  | none =>
    match bucket t.calls (.NewWriter payload.Filename) with
    | some err => (t.call (.NewWriter payload.Filename)).send { Jobs := [job.ID], Error := some err }
    | none =>
      let t1 := (t.call (.NewWriter payload.Filename)).call (.Write payload.Content)
      let err := bucket t1.calls .Close
      (t1.call .Close).send { Jobs := [job.ID], Error := err }

/-- The function `Write.Load` (action_write.go). -/
def Write.Load (json : Json Write) (bucket : Bucket) (queue : Store.Queue) : Run Call :=
  forEachJob (Write.loadJob json bucket) queue {}

end Blob

/-! ## Docstore: `Put.Load` -/

namespace Docstore

/-- The exported field of the docstore action `Put` (action_put.go). -/
structure Put where
  Document : List (String × JSON) := []

/-- A call on the `*docstore.Collection`. -/
inductive Call where
  | Put (document : List (String × JSON)) : Call

/-- The collection as an oracle: earlier calls, current call, returned error. -/
abbrev Collection := List Call → Call → Option GoError

/-- The body of the job loop of `Put.Load` (action_put.go, lines 81-101). -/
def Put.loadJob (json : Json Put) (collection : Collection)
    (_event : Store.Event) (job : Store.Job) (t : Run Call) : Run Call :=
  let put := (json.Unmarshal job.Data).1
  match (json.Unmarshal job.Data).2 with
  | some err => t.send { Jobs := [job.ID], Error := some err, ForceDiscard := true }
  | none =>
    let err := collection t.calls (.Put put.Document)
    (t.call (.Put put.Document)).send { Jobs := [job.ID], Error := err }

/-- The function `Put.Load` (action_put.go). -/
def Put.Load (json : Json Put) (collection : Collection) (queue : Store.Queue) : Run Call :=
  forEachJob (Put.loadJob json collection) queue {}

end Docstore

/-! ## Topic: `Publish.Load` -/

namespace Topic

/-- The topic `Message` (objects.go). -/
structure Message where
  Body : Bytes := []
  Metadata : List (String × String) := []
deriving DecidableEq, Repr

/-- The exported field of the topic action `Publish` (action_publish.go). -/
structure Publish where
  Message : Message := {}
deriving DecidableEq, Repr

/-- A call on the `*pubsub.Topic`: `Send` of a `pubsub.Message` with the given
body and metadata. -/
inductive Call where
  | Send (body : Bytes) (metadata : List (String × String)) : Call
deriving DecidableEq, Repr

/-- The topic as an oracle: earlier calls, current call, returned error. -/
abbrev Broker := List Call → Call → Option GoError

/-- The body of the job loop of `Publish.Load` (action_publish.go, lines
80-105). -/
def Publish.loadJob (json : Json Publish) (topic : Broker)
    (_event : Store.Event) (job : Store.Job) (t : Run Call) : Run Call :=
  let pub := (json.Unmarshal job.Data).1
  match (json.Unmarshal job.Data).2 with
  | some err => t.send { Jobs := [job.ID], Error := some err, ForceDiscard := true }
  | none =>
    let msg := Call.Send pub.Message.Body pub.Message.Metadata
    let err := topic t.calls msg
    (t.call msg).send { Jobs := [job.ID], Error := err }

/-- The function `Publish.Load` (action_publish.go). -/
def Publish.Load (json : Json Publish) (topic : Broker) (queue : Store.Queue) : Run Call :=
  forEachJob (Publish.loadJob json topic) queue {}

end Topic

/-! ## Sqlike: `RunOperation.Load` and `RunStatements.Load` -/

namespace Sqlike

/-- The exported fields of the sqlike action `RunOperation`
(action_operation.go). -/
structure RunOperation where
  Filename : String := ""
  Data : List (String × JSON) := []

/-- A call on the `*warehouse.Warehouse`; a compiled operation is kept as its
text. -/
inductive WhCall where
  | Compile (filename : String) (data : List (String × JSON)) : WhCall
  | Exec (operation : String) : WhCall

/-- The warehouse as an oracle: `Compile` returns an operation or an error,
`Exec` an error or `nil`, both given the earlier calls. -/
structure Warehouse where
  Compile : List WhCall → String → List (String × JSON) → Except GoError String
  Exec : List WhCall → String → Option GoError

/-- The body of the job loop of `RunOperation.Load` (action_operation.go,
lines 72-100). -/
def RunOperation.loadJob (json : Json RunOperation) (wh : Warehouse)
    (_event : Store.Event) (job : Store.Job) (t : Run WhCall) : Run WhCall :=
  let run := (json.Unmarshal job.Data).1
  match (json.Unmarshal job.Data).2 with
  | some err => t.send { Jobs := [job.ID], Error := some err, ForceDiscard := true }
  | none =>
    match wh.Compile t.calls run.Filename run.Data with
    | .error err =>
      (t.call (.Compile run.Filename run.Data)).send { Jobs := [job.ID], Error := some err }
    | .ok operation =>
      let t1 := t.call (.Compile run.Filename run.Data)
      let err := wh.Exec t1.calls operation
      (t1.call (.Exec operation)).send { Jobs := [job.ID], Error := err }

/-- The function `RunOperation.Load` (action_operation.go). -/
def RunOperation.Load (json : Json RunOperation) (wh : Warehouse) (queue : Store.Queue) :
    Run WhCall :=
  forEachJob (RunOperation.loadJob json wh) queue {}

/-- The sqlike `Statement` (objects.go). -/
structure Statement where
  Query : String := ""
  Values : List (List JSON) := []

/-- The exported field of the sqlike action `RunStatements`
(action_statements.go). -/
structure RunStatements where
  Statements : List Statement := []

/-- A call on the `*sql.DB`, on the `*sql.Tx` it opened, or on a `*sql.Stmt`
prepared in it, the statement being named by its query. -/
inductive DBCall where
  | Begin : DBCall
  | Prepare (query : String) : DBCall
  | Exec (query : String) (row : List JSON) : DBCall
  | Close (query : String) : DBCall
  | Commit : DBCall
  | Rollback : DBCall

/-- The database as an oracle: earlier calls, current call, returned error. -/
abbrev DB := List DBCall → DBCall → Option GoError

/-- The local variables `err`, `discard` and `stop` of `RunStatements.Load`,
the calls made so far, and the queries of the statements whose `Close` has
been deferred, in the order of the `defer` statements. -/
structure St where
  err : Option GoError := none
  discard : Bool := false
  stop : Bool := false
  calls : List DBCall := []
  deferred : List String := []

/-- The loop `for _, row := range exec.Values` (action_statements.go, lines
132-138). -/
def RunStatements.execRows (db : DB) (query : String) : List (List JSON) → St → St
  | [], st => st
  | row :: rows, st =>
    let err := db st.calls (.Exec query row)
    let st1 : St := { st with err := err, calls := st.calls ++ [.Exec query row] }
    match err with
    | some _ => { st1 with stop := true }
    | none => RunStatements.execRows db query rows st1

/-- The loop `for _, exec := range run.Statements` (action_statements.go,
lines 117-139). -/
def RunStatements.execStatements (db : DB) : List Statement → St → St
  | [], st => st
  | exec :: rest, st =>
    if st.stop then st
    else
      let err := db st.calls (.Prepare exec.Query)
      let st1 : St := { st with err := err, calls := st.calls ++ [.Prepare exec.Query] }
      match err with
      | some _ => { st1 with stop := true }
      | none =>
        let st2 : St := { st1 with deferred := st1.deferred ++ [exec.Query] }
        RunStatements.execStatements db rest (RunStatements.execRows db exec.Query exec.Values st2)

/-- The loop `for _, job := range event.Jobs` (action_statements.go, lines
101-140). -/
def RunStatements.runJobs (json : Json RunStatements) (db : DB) : List Store.Job → St → St
  | [], st => st
  | job :: rest, st =>
    if st.stop then st
    else
      let run := (json.Unmarshal job.Data).1
      let err := (json.Unmarshal job.Data).2
      let st1 : St := { st with err := err }
      match err with
      | some _ => { st1 with discard := true, stop := true }
      | none => RunStatements.runJobs json db rest (RunStatements.execStatements db run.Statements st1)

/-- The loop `for _, event := range queue.Events` (action_statements.go, lines
96-141). -/
def RunStatements.runEvents (json : Json RunStatements) (db : DB) : List Store.Event → St → St
  | [], st => st
  | event :: rest, st =>
    if st.stop then st
    else RunStatements.runEvents json db rest (RunStatements.runJobs json db event.Jobs st)

/-- The function `RunStatements.Load` (action_statements.go). On return the
deferred calls run last-registered first: `stmt.Close()` of each prepared
statement, `tx.Rollback()`, and the function sending the outcome. -/
def RunStatements.Load (json : Json RunStatements) (db : DB) (queue : Store.Queue) :
    Run DBCall :=
  match db [] .Begin with
  | some err =>
    { thens := [{ Error := some err, ForceDiscard := false }], calls := [.Begin] }
  | none =>
    let st := RunStatements.runEvents json db queue.Events { calls := [.Begin] }
    let st1 : St :=
      match st.err with
      | some _ => st
      | none => { st with err := db st.calls .Commit, calls := st.calls ++ [.Commit] }
    { thens := [{ Error := st1.err, ForceDiscard := st1.discard }],
      calls := st1.calls ++ st1.deferred.reverse.map DBCall.Close ++ [.Rollback] }

end Sqlike

/-! ## Fixtures for closed instances -/

/-- A codec that decodes every payload to the value `zero` without error (as
`encoding/json` does on the payload `{}` when `zero` is the zero value) and
encodes every value as the empty byte slice. -/
def Json.blank {α : Type} (zero : α) : Json α :=
  { Marshal := fun _ => .ok [], Unmarshal := fun _ => (zero, none) }

/-- Standard-library stand-ins: no hashing or encoding, every URL accepted. -/
def Std.blank : Std :=
  { md5Sum := fun b => b, hexEncodeToString := fun _ => "", base64StdEncodeToString := fun _ => "",
    urlParse := fun _ => true }

/-- Standard-library stand-ins for configured identifiers that do not form a
URL: as `Std.blank`, with every URL rejected. -/
def Std.rejecting : Std :=
  { Std.blank with urlParse := fun _ => false }

/-- A client that answers every request with status `s` and body `body`. -/
def Client.always (s : Int) (body : String) : Client :=
  fun _ _ => .ok { StatusCode := s, Body := body }

/-- A batch of one event holding one job, of identifier `id`. -/
def Store.Queue.single (id : String) : Store.Queue :=
  { Events := [{ Jobs := [{ ID := id }] }] }

/-- The amplitude codec decoding every payload to the zero value. -/
def Amplitude.Codec.blank : Amplitude.Codec :=
  { context := Json.blank {}, page := Json.blank {}, group := Json.blank {},
    identification := Json.blank [] }

/-- The mailchimp codec decoding every payload to the zero value. -/
def Mailchimp.Codec.blank : Mailchimp.Codec :=
  { context := Json.blank {}, identify := Json.blank {} }

/-- The segment codec decoding every payload to the zero value. -/
def Segment.Codec.blank : Segment.Codec :=
  { context := Json.blank {}, aliasJson := Json.blank {} }

/-- A batch of two events, the first with jobs `a` and `b`, the second with
job `c`. -/
def Store.Queue.three : Store.Queue :=
  { Events := [{ Jobs := [{ ID := "a" }, { ID := "b" }] }, { Jobs := [{ ID := "c" }] }] }

/-- An amplitude codec decoding every `Group` payload to one identification of
user `u1` in group `g1`, and every context to one with device, location and
network fields set. -/
def Amplitude.Codec.member : Amplitude.Codec :=
  { context := Json.blank
      { Device := { Id := "d1", Name := "phone", Manufacturer := "acme", Model := "m1" },
        Location := { City := "Paris", Country := "FR", Region := "IDF",
                      Latitude := { bits := 1 }, Longitude := { bits := 2 } },
        Network := { Carrier := "telco" },
        IP := [127, 0, 0, 1] },
    page := Json.blank {},
    group := Json.blank { Identification := [{ UserId := "u1", GroupValue := "g1" }] },
    identification := Json.blank [] }

/-- A codec decoding every `RunStatements` payload to the three statements
`q1`, `q2`, `q3`, each with one empty row of values. -/
def Sqlike.threeStatements : Json Sqlike.RunStatements :=
  Json.blank
    { Statements := [{ Query := "q1", Values := [[]] }, { Query := "q2", Values := [[]] },
                     { Query := "q3", Values := [[]] }] }

/-- A database on which every call succeeds except the execution of the
statement with the given query. -/
def Sqlike.DB.failExec (query : String) : Sqlike.DB :=
  fun _ c =>
    match c with
    | .Exec q _ => if q = query then some (.other ("exec " ++ q)) else none
    | _ => none

/-! ## Specification of a per-job loop -/

/-- The relation between the jobs of a batch, the calls made and the outcomes
sent by a loop that, for each job in turn, makes one call and sends one
outcome, the three being related by `R` (with the calls made before). -/
inductive Steps (R : Store.Event → Store.Job → List HttpCall → HttpCall → Then → Prop) :
    List HttpCall → List (Store.Event × Store.Job) → List HttpCall → List Then → Prop where
  | nil (h : List HttpCall) : Steps R h [] [] []
  | cons {h : List HttpCall} {ev : Store.Event} {job : Store.Job} {call : HttpCall} {th : Then}
      {ps : List (Store.Event × Store.Job)} {cs : List HttpCall} {ths : List Then} :
      R ev job h call th → Steps R (h ++ [call]) ps cs ths →
      Steps R h ((ev, job) :: ps) (call :: cs) (th :: ths)

/-- The contract of one job of an HTTP `Load`, in the words of the outcome
protocol: the call is the job's request, the outcome names the job and has no
cascade, a transport error is reported with status 500 and the destination's
transport policy, a response with status `≥ 300` is reported with its status,
its body and the classification of the status, and a response with status
`< 300` is a success. -/
def HttpOutcome (client : Client) (request : Store.Job → HttpCall) (transportDiscard : Bool)
    (classify : Int → Bool) :
    Store.Event → Store.Job → List HttpCall → HttpCall → Then → Prop :=
  fun _ job h call th =>
    call = request job ∧ th.Jobs = [job.ID] ∧ th.OnSucceeded = [] ∧
    (∀ err, client h call = .error err →
      th.Error = some (.blacksmith { StatusCode := 500, Message := err })
        ∧ th.ForceDiscard = transportDiscard) ∧
    (∀ res, client h call = .ok res → res.StatusCode ≥ 300 →
      th.Error = some (.blacksmith { StatusCode := res.StatusCode, Message := res.Body })
        ∧ th.ForceDiscard = classify res.StatusCode) ∧
    (∀ res, client h call = .ok res → res.StatusCode < 300 →
      th.Error = none ∧ th.ForceDiscard = false)

/-- The contract of one job of amplitude `Group.Load` for which an outcome is
sent: as `HttpOutcome` with the amplitude table and a terminal transport
policy, except that a success carries the cascade built from the job's first
identification and decoded context. -/
def Amplitude.GroupOutcome (env : Amplitude.Options) (codec : Amplitude.Codec) (client : Client) :
    Store.Event → Store.Job → List HttpCall → HttpCall → Then → Prop :=
  fun ev job h call th =>
    call = Amplitude.Group.request env codec job ∧ th.Jobs = [job.ID] ∧
    (∀ err, client h call = .error err →
      th.Error = some (.blacksmith { StatusCode := 500, Message := err })
        ∧ th.ForceDiscard = true ∧ th.OnSucceeded = []) ∧
    (∀ res, client h call = .ok res → res.StatusCode ≥ 300 →
      th.Error = some (.blacksmith { StatusCode := res.StatusCode, Message := res.Body })
        ∧ th.ForceDiscard = mapIndex Amplitude.statusForceDiscards res.StatusCode
        ∧ th.OnSucceeded = []) ∧
    (∀ res, client h call = .ok res → res.StatusCode < 300 →
      th.Error = none ∧ th.ForceDiscard = false
        ∧ ∃ first rest, (codec.group.Unmarshal job.Data).1.Identification = first :: rest
          ∧ th.OnSucceeded
              = [Amplitude.Group.cascade ev (codec.context.Unmarshal job.Context).1 first])

/-! ## Specification of the transactional load -/

namespace Sqlike

/-- One step of a transactional batch: decoding a job, preparing a statement,
executing a prepared statement on one row of values. -/
inductive Step where
  | decode (job : Store.Job) : Step
  | prepare (query : String) : Step
  | exec (query : String) (row : List JSON) : Step

/-- Whether a step is the decoding of a job. -/
def Step.isDecode : Step → Bool
  | .decode _ => true
  | _ => false

/-- The database call a step makes, if any. -/
def Step.call : Step → Option DBCall
  | .decode _ => none
  | .prepare query => some (.Prepare query)
  | .exec query row => some (.Exec query row)

/-- The query a step prepares, if it is a preparation. -/
def Step.prepared : Step → Option String
  | .prepare query => some query
  | _ => none

/-- The database calls of a list of steps, in order. -/
def dbCalls (steps : List Step) : List DBCall := steps.filterMap Step.call

/-- The queries prepared by a list of steps, in order. -/
def preparedQueries (steps : List Step) : List String := steps.filterMap Step.prepared

/-- The steps of a statement: its preparation, then one execution per row. -/
def Statement.steps (s : Statement) : List Step :=
  .prepare s.Query :: s.Values.map (fun row => .exec s.Query row)

/-- The steps of a job: its decoding, then, when the payload decodes, the
steps of its statements in order. -/
def jobSteps (json : Json RunStatements) (job : Store.Job) : List Step :=
  .decode job ::
    (match (json.Unmarshal job.Data).2 with
     | some _ => []
     | none => (json.Unmarshal job.Data).1.Statements.flatMap Statement.steps)

/-- The steps of a batch in batch order: events, then jobs, then statements,
then rows. -/
def plan (json : Json RunStatements) (queue : Store.Queue) : List Step :=
  queue.Events.flatMap (fun event => event.Jobs.flatMap (jobSteps json))

/-- The result of step `s` when the steps `done` have been run before it in a
transaction that `Begin` opened: `none` is success. -/
def stepResult (json : Json RunStatements) (db : DB) (done : List Step) (s : Step) :
    Option GoError :=
  match s with
  | .decode job => (json.Unmarshal job.Data).2
  | .prepare query => db (.Begin :: dbCalls done) (.Prepare query)
  | .exec query row => db (.Begin :: dbCalls done) (.Exec query row)

/-- The four loops of `RunStatements.Load` as one loop over the steps of the
batch, on the same local state. -/
def runSteps (json : Json RunStatements) (db : DB) : List Step → St → St
  | [], st => st
  | s :: rest, st =>
    if st.stop then st
    else
      match s with
      | .decode job =>
        match (json.Unmarshal job.Data).2 with
        | some e => { st with err := some e, discard := true, stop := true }
        | none => runSteps json db rest { st with err := none }
      | .prepare query =>
        match db st.calls (.Prepare query) with
        | some e => { st with err := some e, calls := st.calls ++ [.Prepare query], stop := true }
        | none =>
          runSteps json db rest
            { st with err := none, calls := st.calls ++ [.Prepare query],
                      deferred := st.deferred ++ [query] }
      | .exec query row =>
        match db st.calls (.Exec query row) with
        | some e => { st with err := some e, calls := st.calls ++ [.Exec query row], stop := true }
        | none =>
          runSteps json db rest { st with err := none, calls := st.calls ++ [.Exec query row] }

end Sqlike

/-! ## Further fixtures -/

/-- A client on which every request fails in transport with the text `msg`. -/
def Client.failing (msg : String) : Client :=
  fun _ _ => .error msg

/-- An amplitude codec decoding every payload to a value whose `api_key` is
`"stored"`, with one event (for `Page`) or one identification (for `Group`). -/
def Amplitude.Codec.storedKey : Amplitude.Codec :=
  { context := Json.blank {},
    page := Json.blank { APIKey := "stored", Events := [{ Event := "home" }] },
    group := Json.blank { APIKey := "stored", Identification := [{ UserId := "u1" }] },
    identification := Json.blank [] }

/-- A codec on which decoding always fails with the error text `msg`, leaving
the value `zero` in the target. -/
def Json.failing {α : Type} (zero : α) (msg : String) : Json α :=
  { Marshal := fun _ => .ok [], Unmarshal := fun _ => (zero, some (.other msg)) }

/-! ## Specification of a per-job loop with any number of calls per job -/

/-- The relation between the jobs of a batch, the calls made for each job and
the outcomes sent by a loop that, for each job in turn, makes the calls `seg`
and sends one outcome, related by `R` (with the calls made before). -/
inductive JobSteps {κ : Type}
    (R : Store.Event → Store.Job → List κ → List κ → Then → Prop) :
    List κ → List (Store.Event × Store.Job) → List (List κ) → List Then → Prop where
  | nil (h : List κ) : JobSteps R h [] [] []
  | cons {h : List κ} {ev : Store.Event} {job : Store.Job} {seg : List κ} {th : Then}
      {ps : List (Store.Event × Store.Job)} {segs : List (List κ)} {ths : List Then} :
      R ev job h seg th → JobSteps R (h ++ seg) ps segs ths →
      JobSteps R h ((ev, job) :: ps) (seg :: segs) (th :: ths)

/-- The contract of one job of blob `Write.Load`: the calls `seg` made for the
job after the calls `h`, and the outcome `th`. -/
def Blob.WriteOutcome (json : Json Blob.Write) (bucket : Blob.Bucket) :
    Store.Event → Store.Job → List Blob.Call → List Blob.Call → Then → Prop :=
  fun _ job h seg th =>
    th.Jobs = [job.ID] ∧ th.OnSucceeded = [] ∧
    (∀ e, (json.Unmarshal job.Data).2 = some e →
      seg = [] ∧ th.Error = some e ∧ th.ForceDiscard = true) ∧
    ((json.Unmarshal job.Data).2 = none →
      th.ForceDiscard = false ∧
      (∀ e, bucket h (.NewWriter (json.Unmarshal job.Data).1.Filename) = some e →
        seg = [.NewWriter (json.Unmarshal job.Data).1.Filename] ∧ th.Error = some e) ∧
      (bucket h (.NewWriter (json.Unmarshal job.Data).1.Filename) = none →
        seg = [.NewWriter (json.Unmarshal job.Data).1.Filename,
               .Write (json.Unmarshal job.Data).1.Content, .Close]
        ∧ th.Error = bucket (h ++ [.NewWriter (json.Unmarshal job.Data).1.Filename,
                                   .Write (json.Unmarshal job.Data).1.Content]) .Close))

/-- The contract of one job of docstore `Put.Load`. -/
def Docstore.PutOutcome (json : Json Docstore.Put) (collection : Docstore.Collection) :
    Store.Event → Store.Job → List Docstore.Call → List Docstore.Call → Then → Prop :=
  fun _ job h seg th =>
    th.Jobs = [job.ID] ∧ th.OnSucceeded = [] ∧
    (∀ e, (json.Unmarshal job.Data).2 = some e →
      seg = [] ∧ th.Error = some e ∧ th.ForceDiscard = true) ∧
    ((json.Unmarshal job.Data).2 = none →
      th.ForceDiscard = false
      ∧ seg = [.Put (json.Unmarshal job.Data).1.Document]
      ∧ th.Error = collection h (.Put (json.Unmarshal job.Data).1.Document))

/-- The contract of one job of topic `Publish.Load`. -/
def Topic.PublishOutcome (json : Json Topic.Publish) (topic : Topic.Broker) :
    Store.Event → Store.Job → List Topic.Call → List Topic.Call → Then → Prop :=
  fun _ job h seg th =>
    th.Jobs = [job.ID] ∧ th.OnSucceeded = [] ∧
    (∀ e, (json.Unmarshal job.Data).2 = some e →
      seg = [] ∧ th.Error = some e ∧ th.ForceDiscard = true) ∧
    ((json.Unmarshal job.Data).2 = none →
      th.ForceDiscard = false
      ∧ seg = [.Send (json.Unmarshal job.Data).1.Message.Body
                 (json.Unmarshal job.Data).1.Message.Metadata]
      ∧ th.Error = topic h (.Send (json.Unmarshal job.Data).1.Message.Body
                              (json.Unmarshal job.Data).1.Message.Metadata))

/-- The contract of one job of sqlike `RunOperation.Load`. -/
def Sqlike.RunOperationOutcome (json : Json Sqlike.RunOperation) (wh : Sqlike.Warehouse) :
    Store.Event → Store.Job → List Sqlike.WhCall → List Sqlike.WhCall → Then → Prop :=
  fun _ job h seg th =>
    th.Jobs = [job.ID] ∧ th.OnSucceeded = [] ∧
    (∀ e, (json.Unmarshal job.Data).2 = some e →
      seg = [] ∧ th.Error = some e ∧ th.ForceDiscard = true) ∧
    ((json.Unmarshal job.Data).2 = none →
      th.ForceDiscard = false ∧
      (∀ e, wh.Compile h (json.Unmarshal job.Data).1.Filename (json.Unmarshal job.Data).1.Data
          = .error e →
        seg = [.Compile (json.Unmarshal job.Data).1.Filename (json.Unmarshal job.Data).1.Data]
          ∧ th.Error = some e) ∧
      (∀ op, wh.Compile h (json.Unmarshal job.Data).1.Filename (json.Unmarshal job.Data).1.Data
          = .ok op →
        seg = [.Compile (json.Unmarshal job.Data).1.Filename (json.Unmarshal job.Data).1.Data,
               .Exec op]
          ∧ th.Error = wh.Exec
              (h ++ [.Compile (json.Unmarshal job.Data).1.Filename
                      (json.Unmarshal job.Data).1.Data]) op))

/-- An amplitude codec on which decoding a `Page` or `Group` payload fails. -/
def Amplitude.Codec.undecodable : Amplitude.Codec :=
  { context := Json.blank {},
    page := Json.failing {} "invalid character",
    group := Json.failing {} "invalid character",
    identification := Json.blank [] }

/-- A mailchimp codec on which decoding the payload fails. -/
def Mailchimp.Codec.undecodable : Mailchimp.Codec :=
  { context := Json.blank {}, identify := Json.failing {} "invalid character" }

/-- A segment codec on which decoding the payload fails. -/
def Segment.Codec.undecodable : Segment.Codec :=
  { context := Json.blank {}, aliasJson := Json.failing {} "invalid character" }

/-! ## Batches one after the other -/

/-- The batch holding the events of `b1` followed by those of `b2`. -/
def Store.Queue.append (b1 b2 : Store.Queue) : Store.Queue :=
  { Events := b1.Events ++ b2.Events }

/-- The run `t` followed by the run `r`. -/
def Run.append {κ : Type} (t r : Run κ) : Run κ :=
  { thens := t.thens ++ r.thens, calls := t.calls ++ r.calls, panicked := r.panicked }

/-- The collaborator `c` as it answers once the calls `h` have been made. -/
def oracleAfter {κ ρ : Type} (c : List κ → κ → ρ) (h : List κ) : List κ → κ → ρ :=
  fun h' x => c (h ++ h') x

/-! ## Marshal -/

/-- The type `destination.Job`: what `Marshal` returns. -/
structure Destination.Job where
  Version : String := ""
  Context : Bytes := []
  Data : Bytes := []
  SentAt : Option Time := none
deriving DecidableEq, Repr

/-- The error every `Marshal` returns when `json.Marshal` fails. -/
def badRequest : Error := { StatusCode := 400, Message := "Bad Request" }

/-- The end of every `Marshal`: `data, err := json.Marshal(&a)`, the error
`400 Bad Request` when `err != nil`, otherwise the job built from `data`. -/
def marshalJob {α : Type} (json : Json α) (a : α) (job : Bytes → Destination.Job) :
    Except Error Destination.Job :=
  match json.Marshal a with
  | .error _ => .error badRequest
  | .ok data => .ok (job data)

namespace Amplitude

/-- An assignment `events[i].field = ...`, as the update `f` of the element
at index `i`. -/
def assignAt (events : List Event) (i : Nat) (f : Event → Event) : List Event :=
  match events[i]? with
  | none => events
  | some e => events.set i (f e)

/-- The body of the loop of `Page.Marshal` at index `i` (action_page.go, lines
54-55): `a.Events[i].InsertId = insertId`, then
`a.Events[i].Event = "Viewed page '" + a.Events[i].Event + "'"`. -/
def Page.rewriteAt (insertId : String) (events : List Event) (i : Nat) : List Event :=
  let events := assignAt events i (fun e => { e with InsertId := insertId })
  assignAt events i (fun e => { e with Event := "Viewed page '" ++ e.Event ++ "'" })

/-- The loop `for i := range a.Events` of `Page.Marshal` (action_page.go, lines
53-56). -/
def Page.rewriteEvents (insertId : String) (events : List Event) : List Event :=
  (List.range events.length).foldl (Page.rewriteAt insertId) events

/-- The value `Page.Marshal` hands to `json.Marshal`, `insertId` being the
result of `ksuid.New().String()` in this call. -/
def Page.payload (insertId : String) (a : Page) : Page :=
  { a with Events := Page.rewriteEvents insertId a.Events }

/-- The function `Page.Marshal` (action_page.go), `insertId` being the result
of `ksuid.New().String()` in this call. -/
def Page.Marshal (json : Json Page) (insertId : String) (a : Page) :
    Except Error Destination.Job :=
  marshalJob json (Page.payload insertId a) (fun data => { Version := "v2.0", Data := data })

/-- The function `Group.Marshal` (action_group.go). -/
def Group.Marshal (json : Json Group) (a : Group) : Except Error Destination.Job :=
  marshalJob json a (fun data => { Version := "v2.0", Data := data })

end Amplitude

namespace Mailchimp

/-- The functions of `strings` and `time` that `Identify.Marshal` calls:
`strings.ToLower`, and `time.Parse(time.RFC3339, t.Format(time.RFC3339))` with
its error dropped. -/
structure Strings where
  ToLower : String → String
  FormatParseRFC3339 : Time → Time

/-- The value `Identify.Marshal` hands to `json.Marshal` (action_identify.go,
lines 53-60). -/
def Identify.payload (lib : Strings) (a : Signup) : Signup :=
  { a with Email := lib.ToLower a.Email,
           TimestampSignup := lib.FormatParseRFC3339 a.TimestampSignup }

/-- The function `Identify.Marshal` (action_identify.go). -/
def Identify.Marshal (json : Json Signup) (lib : Strings) (a : Signup) :
    Except Error Destination.Job :=
  marshalJob json (Identify.payload lib a) (fun data => { Version := "v3.0", Data := data })

end Mailchimp

/-- The function `Alias.Marshal` of segment (action_alias.go). -/
def Segment.Alias.Marshal (json : Json Segment.Alias) (a : Segment.Alias) :
    Except Error Destination.Job :=
  marshalJob json a
    (fun data => { Version := "v1.0", Data := data, SentAt := some a.Timestamp })

/-- The function `Write.Marshal` of blob (action_write.go). -/
def Blob.Write.Marshal (json : Json Blob.Write) (a : Blob.Write) :
    Except Error Destination.Job :=
  marshalJob json a (fun data => { Data := data })

/-- The function `Put.Marshal` of docstore (action_put.go). -/
def Docstore.Put.Marshal (json : Json Docstore.Put) (a : Docstore.Put) :
    Except Error Destination.Job :=
  marshalJob json a (fun data => { Data := data })

/-- The function `Publish.Marshal` of topic (action_publish.go). -/
def Topic.Publish.Marshal (json : Json Topic.Publish) (a : Topic.Publish) :
    Except Error Destination.Job :=
  marshalJob json a (fun data => { Data := data })

/-- The function `RunStatements.Marshal` of sqlike (action_statements.go). -/
def Sqlike.RunStatements.Marshal (json : Json Sqlike.RunStatements) (a : Sqlike.RunStatements) :
    Except Error Destination.Job :=
  marshalJob json a (fun data => { Data := data })

/-- The function `RunOperation.Marshal` of sqlike (action_operation.go). -/
def Sqlike.RunOperation.Marshal (json : Json Sqlike.RunOperation) (a : Sqlike.RunOperation) :
    Except Error Destination.Job :=
  marshalJob json a (fun data => { Data := data })

/-- A codec for `Page` that keeps the `api_key` field only, one byte per
character: like `encoding/json`, decoding what it encoded gives the key back. -/
def Amplitude.pageKeyCodec : Json Amplitude.Page :=
  { Marshal := fun p => .ok (p.APIKey.toList.map (fun c => c.toNat.toUInt8)),
    Unmarshal := fun b => ({ APIKey := String.mk (b.map (fun x => Char.ofNat x.toNat)) }, none) }

/-- A codec for `Group` that keeps the `api_key` field only, one byte per
character. -/
def Amplitude.groupKeyCodec : Json Amplitude.Group :=
  { Marshal := fun p => .ok (p.APIKey.toList.map (fun c => c.toNat.toUInt8)),
    Unmarshal := fun b => ({ APIKey := String.mk (b.map (fun x => Char.ofNat x.toNat)) }, none) }

/-! ## Options and `New` of the key-based destinations -/

/-- The type `destination.Schedule`. -/
structure Destination.Schedule where
  Realtime : Bool := false
  Interval : String := ""
  MaxRetries : Nat := 0
deriving DecidableEq, Repr

/-- The zero value `time.Time{}`: January 1, year 1, 00:00:00 UTC. -/
def Time.zero : Time := { sec := -62135596800, nsec := 0 }

/-- The type `destination.Options`. A destination that sets no version has
`DefaultVersion = ""` and no `Versions`. -/
structure Destination.Options where
  DefaultSchedule : Destination.Schedule := {}
  DefaultVersion : String := ""
  Versions : List (String × Time) := []
deriving DecidableEq, Repr

/-- The result of a `New`: the error handed to `logger.Default.Fatal`, if any,
and the destination returned (`nil` is `none`). -/
structure NewResult (δ : Type) where
  fatal : Option Error := none
  destination : Option δ := none

namespace Amplitude

/-- The method `Options.validate` of amplitude (options.go). The receiver is a
pointer (`none` is `nil`); the result is the options as the call leaves them
and the returned error. `defaults` is `destination.Defaults.DefaultSchedule`
of the framework. -/
def Options.validate (defaults : Destination.Schedule) (env : Option Options) :
    Option Options × Option Error :=
  let interval := defaults.Interval
  let maxRetries := defaults.MaxRetries
  let fail : Error := { Message := "destination/amplitude: Failed to load", Validations := [] }
  match env with
  | none =>
    (none, some { fail with Validations := fail.Validations ++
      [{ Message := "Options must not be nil",
         Path := ["Options", "Destinations", "amplitude"] }] })
  | some env =>
    let env : Options := if env.Interval = "" then { env with Interval := interval } else env
    let env : Options :=
      if env.MaxRetries = 0 then { env with MaxRetries := maxRetries } else env
    let fail : Error :=
      if env.APIKey = "" then
        { fail with Validations := fail.Validations ++
          [{ Message := "Amplitude API key must be set",
             Path := ["Options", "Destinations", "amplitude", "APIKey"] }] }
      else fail
    if fail.Validations.length > 0 then (some env, some fail) else (some env, none)

/-- The exported content of the struct `Amplitude` (destination.go); the
client is `http.DefaultClient`. -/
structure Destination where
  options : Blacksmith.Destination.Options
  env : Options
deriving DecidableEq, Repr

/-- The function `New` of amplitude (destination.go). -/
def New (defaults : Blacksmith.Destination.Schedule) (env : Option Options) :
    NewResult Destination :=
  match Options.validate defaults env with
  | (_, some err) => { fatal := some err, destination := none }
  | (none, none) => { destination := none }
  | (some env, none) =>
    { destination := some
        { options :=
            { DefaultSchedule :=
                { Realtime := env.Realtime, Interval := env.Interval,
                  MaxRetries := env.MaxRetries },
              DefaultVersion := "v2.0",
              Versions := [("v2.0", Time.zero)] },
          env := env } }

end Amplitude

namespace Mailchimp

/-- The method `Options.validate` of mailchimp (options.go). -/
def Options.validate (defaults : Destination.Schedule) (env : Option Options) :
    Option Options × Option Error :=
  let interval := defaults.Interval
  let maxRetries := defaults.MaxRetries
  let fail : Error := { Message := "destination/mailchimp: Failed to load", Validations := [] }
  match env with
  | none =>
    (none, some { fail with Validations := fail.Validations ++
      [{ Message := "Options must not be nil",
         Path := ["Options", "Destinations", "mailchimp"] }] })
  | some env =>
    let env : Options := if env.Interval = "" then { env with Interval := interval } else env
    let env : Options :=
      if env.MaxRetries = 0 then { env with MaxRetries := maxRetries } else env
    let fail : Error :=
      if env.APIKey = "" then
        { fail with Validations := fail.Validations ++
          [{ Message := "Mailchimp API key must be set",
             Path := ["Options", "Destinations", "mailchimp", "APIKey"] }] }
      else fail
    let fail : Error :=
      if env.DatacenterID = "" then
        { fail with Validations := fail.Validations ++
          [{ Message := "Mailchimp datacenter must be set",
             Path := ["Options", "Destinations", "mailchimp", "DatacenterID"] }] }
      else fail
    let fail : Error :=
      if env.AudienceID = "" then
        { fail with Validations := fail.Validations ++
          [{ Message := "Mailchimp audience must be set",
             Path := ["Options", "Destinations", "mailchimp", "AudienceID"] }] }
      else fail
    if fail.Validations.length > 0 then (some env, some fail) else (some env, none)

/-- The exported content of the struct `Mailchimp` (destination.go). -/
structure Destination where
  options : Blacksmith.Destination.Options
  env : Options
deriving DecidableEq, Repr

/-- The function `New` of mailchimp (destination.go). -/
def New (defaults : Blacksmith.Destination.Schedule) (env : Option Options) :
    NewResult Destination :=
  match Options.validate defaults env with
  | (_, some err) => { fatal := some err, destination := none }
  | (none, none) => { destination := none }
  | (some env, none) =>
    { destination := some
        { options :=
            { DefaultSchedule :=
                { Realtime := env.Realtime, Interval := env.Interval,
                  MaxRetries := env.MaxRetries },
              DefaultVersion := "v3.0",
              Versions := [("v3.0", Time.zero)] },
          env := env } }

end Mailchimp

namespace Segment

/-- The method `Options.validate` of segment (options.go). -/
def Options.validate (defaults : Destination.Schedule) (env : Option Options) :
    Option Options × Option Error :=
  let interval := defaults.Interval
  let maxRetries := defaults.MaxRetries
  let fail : Error := { Message := "destination/segment: Failed to load", Validations := [] }
  match env with
  | none =>
    (none, some { fail with Validations := fail.Validations ++
      [{ Message := "Options must not be nil",
         Path := ["Options", "Destinations", "segment"] }] })
  | some env =>
    let env : Options := if env.Interval = "" then { env with Interval := interval } else env
    let env : Options :=
      if env.MaxRetries = 0 then { env with MaxRetries := maxRetries } else env
    let fail : Error :=
      if env.WriteKey = "" then
        { fail with Validations := fail.Validations ++
          [{ Message := "Segment WriteKey must be set",
             Path := ["Options", "Destinations", "segment", "WriteKey"] }] }
      else fail
    if fail.Validations.length > 0 then (some env, some fail) else (some env, none)

/-- The exported content of the struct `Segment` (destination.go). -/
structure Destination where
  options : Blacksmith.Destination.Options
  env : Options
deriving DecidableEq, Repr

/-- The function `New` of segment (destination.go). -/
def New (defaults : Blacksmith.Destination.Schedule) (env : Option Options) :
    NewResult Destination :=
  match Options.validate defaults env with
  | (_, some err) => { fatal := some err, destination := none }
  | (none, none) => { destination := none }
  | (some env, none) =>
    { destination := some
        { options :=
            { DefaultSchedule :=
                { Realtime := env.Realtime, Interval := env.Interval,
                  MaxRetries := env.MaxRetries },
              DefaultVersion := "v1.0",
              Versions := [("v1.0", Time.zero)] },
          env := env } }

end Segment

/-! ## Marshal: the caller's action, and further fixtures -/

/-- The caller's action after a call of `Page.Marshal` (action_page.go, lines
48-76). The receiver `a Page` is a copy of the caller's value, but its field
`Events` is a slice header copied from the caller's and shares its backing
array, so that the assignments `a.Events[i].InsertId = ...` and
`a.Events[i].Event = ...` of the loop are made on the caller's events. No
other field is assigned. -/
def Amplitude.Page.afterMarshal (insertId : String) (a : Amplitude.Page) : Amplitude.Page :=
  { a with Events := Amplitude.Page.rewriteEvents insertId a.Events }

/-- A codec for `Signup` that keeps the `email_address` field only, one byte
per character: like `encoding/json`, decoding what it encoded gives an ASCII
address back. Every decoded payload has `status_if_new = "unsubscribed"`. -/
def Mailchimp.emailCodec : Json Mailchimp.Signup :=
  { Marshal := fun p => .ok (p.Email.toList.map (fun c => c.toNat.toUInt8)),
    Unmarshal := fun b =>
      ({ StatusIfNew := "unsubscribed",
         Email := String.mk (b.map (fun x => Char.ofNat x.toNat)) }, none) }

/-- The mailchimp codec whose payload codec is `Mailchimp.emailCodec`. -/
def Mailchimp.Codec.email : Mailchimp.Codec :=
  { context := Json.blank {}, identify := Mailchimp.emailCodec }

/-- Stand-ins for `strings.ToLower` (character by character) and for the
RFC 3339 round trip of a time (which drops the nanoseconds). -/
def Mailchimp.Strings.ascii : Mailchimp.Strings :=
  { ToLower := fun s => String.mk (s.toList.map Char.toLower),
    FormatParseRFC3339 := fun t => { t with nsec := 0 } }

/-! ## Options and `New` of the driver-based destinations -/

/-- The value of `destination.Defaults.DefaultSchedule` of the framework, as
the doc comments of the fields `Interval` and `MaxRetries` of every `Options`
give it: "Defaults to "@every 1h"", "Defaults to 72". -/
def Destination.Defaults : Destination.Schedule :=
  { Realtime := false, Interval := "@every 1h", MaxRetries := 72 }

/-- The bytes of a Go string, its UTF-8 encoding, computed character by
character. -/
def utf8Bytes (s : String) : Bytes := s.toList.flatMap String.utf8EncodeChar

/-- The order `<` of byte slices: lexicographic, byte by byte. -/
def bytesLess : Bytes → Bytes → Bool
  | _, [] => false
  | [], _ :: _ => true
  | x :: xs, y :: ys =>
    if x.toNat < y.toNat then true else if y.toNat < x.toNat then false else bytesLess xs ys

/-- The order `a <= b` of Go strings, which compares them byte by byte. -/
def stringsLessEq (a b : String) : Prop := bytesLess (utf8Bytes b) (utf8Bytes a) = false

instance (a b : String) : Decidable (stringsLessEq a b) :=
  inferInstanceAs (Decidable (bytesLess (utf8Bytes b) (utf8Bytes a) = false))

/-- The type `url.Values`, a `map[string][]string`, as the list of its
entries: the entry of a key is the first one listed under it, and the `nil`
map is `[]`. -/
abbrev Values := List (String × List String)

/-- The method `url.Values.Get`: the first value stored under the key, `""`
when the key is absent or its list of values is empty. -/
def Values.Get (v : Values) (key : String) : String :=
  match v.lookup key with
  | some (x :: _) => x
  | _ => ""

/-- The method `url.Values.Encode`: the pairs `key=value`, keys in sorted
order, joined by `&`, keys and values escaped by `url.QueryEscape`. -/
def Values.Encode (queryEscape : String → String) (v : Values) : String :=
  let keys := ((v.map Prod.fst).dedup).insertionSort stringsLessEq
  "&".intercalate
    (keys.flatMap (fun k =>
      ((v.lookup k).getD []).map (fun x => queryEscape k ++ "=" ++ queryEscape x)))

/-- The pieces of a list of characters between the occurrences of `sep`. -/
def splitChars (sep : Char) : List Char → List (List Char)
  | [] => [[]]
  | c :: cs =>
    if c = sep then [] :: splitChars sep cs
    else
      match splitChars sep cs with
      | [] => [[c]]
      | piece :: pieces => (c :: piece) :: pieces

/-- The function `strings.Split(s, sep)` for a separator of one character. -/
def stringsSplit (s : String) (sep : Char) : List String :=
  (splitChars sep s.toList).map String.mk

/-- The function `strings.HasPrefix`. -/
def stringsHasPrefix (s pre : String) : Bool :=
  pre.toList.isPrefixOf s.toList

/-- The statement `if c { validations = append(validations, v) }`. -/
def appendIf (c : Prop) [Decidable c] (validations : List Validation) (v : Validation) :
    List Validation :=
  if c then validations ++ [v] else validations

namespace Blob

/-- The blob `Options` (options.go); `Driver` is a string type. -/
structure Options where
  Realtime : Bool := false
  Interval : String := ""
  MaxRetries : Nat := 0
  Name : String := ""
  Driver : String := ""
  Connection : String := ""
  Params : Values := []
deriving DecidableEq, Repr

/-- The driver `DriverAWSS3`. -/
def DriverAWSS3 : String := "aws/s3"

/-- The driver `DriverAzureBlob`. -/
def DriverAzureBlob : String := "azure/blob"

/-- The driver `DriverGoogleStorage`. -/
def DriverGoogleStorage : String := "google/storage"

/-- The method `Options.validateDriverAWSS3` (options.go); `getenv` is
`os.Getenv`. -/
def Options.validateDriverAWSS3 (getenv : String → String) (env : Options) (name : String) :
    List Validation :=
  let validations : List Validation := []
  if env.Params.Get "endpoint" ≠ "" then validations
  else
    let validations := appendIf (getenv "AWS_ACCESS_KEY_ID" = "") validations
      { Message := "Environment variable 'AWS_ACCESS_KEY_ID' not set",
        Path := ["Options", "Destinations", name] }
    let validations := appendIf (getenv "AWS_SECRET_ACCESS_KEY" = "") validations
      { Message := "Environment variable 'AWS_SECRET_ACCESS_KEY' not set",
        Path := ["Options", "Destinations", name] }
    let region := getenv "AWS_REGION"
    let region := if region = "" then env.Params.Get "region" else region
    let validations := appendIf (region = "") validations
      { Message := "Environment variable 'AWS_REGION' not set",
        Path := ["Options", "Destinations", name] }
    validations

/-- The method `Options.validateDriverAzureBlob` (options.go). -/
def Options.validateDriverAzureBlob (getenv : String → String) (_env : Options) (name : String) :
    List Validation :=
  let validations : List Validation := []
  let validations := appendIf (getenv "AZURE_STORAGE_ACCOUNT" = "") validations
    { Message := "Environment variable 'AZURE_STORAGE_ACCOUNT' not set",
      Path := ["Options", "Destinations", name] }
  let validations :=
    appendIf (getenv "AZURE_STORAGE_KEY" = "" ∧ getenv "AZURE_STORAGE_SAS_TOKEN" = "") validations
      { Message := "Environment variable 'AZURE_STORAGE_KEY' or 'AZURE_STORAGE_SAS_TOKEN' not set",
        Path := ["Options", "Destinations", name] }
  validations

/-- The method `Options.validateDriverGoogleStorage` (options.go). -/
def Options.validateDriverGoogleStorage (getenv : String → String) (_env : Options)
    (name : String) : List Validation :=
  let validations : List Validation := []
  let validations := appendIf (getenv "GOOGLE_APPLICATION_CREDENTIALS" = "") validations
    { Message := "Environment variable 'GOOGLE_APPLICATION_CREDENTIALS' not set",
      Path := ["Options", "Destinations", name] }
  validations

/-- The method `Options.validate` of blob (options.go). The receiver is a
pointer (`none` is `nil`); the result is the options as the call leaves them
and the returned error. -/
def Options.validate (defaults : Blacksmith.Destination.Schedule) (getenv : String → String)
    (env : Option Options) : Option Options × Option Error :=
  let interval := defaults.Interval
  let maxRetries := defaults.MaxRetries
  let fail : Error := { Message := "blob: Failed to load", Validations := [] }
  match env with
  | none =>
    (none, some { fail with Validations := fail.Validations ++
      [{ Message := "Options must not be nil", Path := ["Options", "Destinations", "blob"] }] })
  | some env =>
    let env : Options := if env.Interval = "" then { env with Interval := interval } else env
    let env : Options :=
      if env.MaxRetries = 0 then { env with MaxRetries := maxRetries } else env
    let validations := appendIf (env.Name = "") fail.Validations
      { Message := "Bucket name must be set",
        Path := ["Options", "Destinations", "blob", "Name"] }
    let name := "blob(" ++ env.Name ++ ")"
    let validations := appendIf (env.Driver = "") validations
      { Message := "Bucket driver must be set",
        Path := ["Options", "Destinations", name, "Driver"] }
    let validations := appendIf (env.Connection = "") validations
      { Message := "Bucket connection must be set",
        Path := ["Options", "Destinations", name, "Connection"] }
    let validations :=
      if env.Driver = DriverAWSS3 then validations ++ env.validateDriverAWSS3 getenv name
      else if env.Driver = DriverAzureBlob then
        validations ++ env.validateDriverAzureBlob getenv name
      else if env.Driver = DriverGoogleStorage then
        validations ++ env.validateDriverGoogleStorage getenv name
      else validations
    if validations.length > 0 then (some env, some { fail with Validations := validations })
    else (some env, none)

/-- The exported content of the struct `Blob` (destination.go). -/
structure Destination where
  options : Blacksmith.Destination.Options
  env : Options
deriving DecidableEq, Repr

/-- The function `New` of blob (destination.go). -/
def New (defaults : Blacksmith.Destination.Schedule) (getenv : String → String)
    (env : Option Options) : NewResult Destination :=
  match Options.validate defaults getenv env with
  | (_, some err) => { fatal := some err, destination := none }
  | (none, none) => { destination := none }
  | (some env, none) =>
    { destination := some
        { options :=
            { DefaultSchedule :=
                { Realtime := env.Realtime, Interval := env.Interval,
                  MaxRetries := env.MaxRetries } },
          env := env } }

end Blob

namespace Docstore

/-- The docstore `Options` (options.go); `Driver` is a string type. -/
structure Options where
  Realtime : Bool := false
  Interval : String := ""
  MaxRetries : Nat := 0
  Name : String := ""
  Driver : String := ""
  Connection : String := ""
  Params : Values := []
deriving DecidableEq, Repr

/-- The driver `DriverAWSDynamoDB`. -/
def DriverAWSDynamoDB : String := "aws/dynamodb"

/-- The driver `DriverAzureCosmosDB`. -/
def DriverAzureCosmosDB : String := "azure/cosmosdb"

/-- The driver `DriverMongoDB`. -/
def DriverMongoDB : String := "mongodb"

/-- The driver `DriverGoogleFirestore`. -/
def DriverGoogleFirestore : String := "google/firestore"

/-- The method `Options.validateDriverAWSDynamoDB` (options.go); `getenv` is
`os.Getenv`. -/
def Options.validateDriverAWSDynamoDB (getenv : String → String) (env : Options)
    (name : String) : List Validation :=
  let validations : List Validation := []
  let validations := appendIf (getenv "AWS_ACCESS_KEY_ID" = "") validations
    { Message := "Environment variable 'AWS_ACCESS_KEY_ID' not set",
      Path := ["Options", "Destinations", name] }
  let validations := appendIf (getenv "AWS_SECRET_ACCESS_KEY" = "") validations
    { Message := "Environment variable 'AWS_SECRET_ACCESS_KEY' not set",
      Path := ["Options", "Destinations", name] }
  let validations := appendIf (getenv "AWS_REGION" = "") validations
    { Message := "Environment variable 'AWS_REGION' not set",
      Path := ["Options", "Destinations", name] }
  let validations := appendIf (env.Params.Get "partition_key" = "") validations
    { Message := "'partition_key' must be set",
      Path := ["Options", "Destinations", name, "Params"] }
  validations

/-- The method `Options.validateDriverMongoDB` (options.go). -/
def Options.validateDriverMongoDB (getenv : String → String) (env : Options) (name : String) :
    List Validation :=
  let validations : List Validation := []
  let validations :=
    if getenv "MONGO_SERVER_URL" = "" then
      validations ++
        [{ Message := "Environment variable 'MONGO_SERVER_URL' not set",
           Path := ["Options", "Destinations", name] }]
    else if stringsHasPrefix (getenv "MONGO_SERVER_URL") "mongodb://" = false then
      validations ++
        [{ Message := "Environment variable 'MONGO_SERVER_URL' not valid",
           Path := ["Options", "Destinations", name] }]
    else validations
  let validations := appendIf ((stringsSplit env.Connection '/').length ≠ 2) validations
    { Message := "Connection string not valid",
      Path := ["Options", "Destinations", name, "Connection"] }
  validations

/-- The method `Options.validateDriverAzureCosmosDB` (options.go). -/
def Options.validateDriverAzureCosmosDB (getenv : String → String) (env : Options)
    (name : String) : List Validation :=
  env.validateDriverMongoDB getenv name

/-- The method `Options.validateDriverGoogleFirestore` (options.go). -/
def Options.validateDriverGoogleFirestore (getenv : String → String) (env : Options)
    (name : String) : List Validation :=
  let validations : List Validation := []
  let validations := appendIf (getenv "GOOGLE_APPLICATION_CREDENTIALS" = "") validations
    { Message := "Environment variable 'GOOGLE_APPLICATION_CREDENTIALS' not set",
      Path := ["Options", "Destinations", name] }
  let validations := appendIf (env.Params.Get "name_field" = "") validations
    { Message := "'name_field' must be set",
      Path := ["Options", "Destinations", name, "Params"] }
  validations

/-- The method `Options.validate` of docstore (options.go). -/
def Options.validate (defaults : Blacksmith.Destination.Schedule) (getenv : String → String)
    (env : Option Options) : Option Options × Option Error :=
  let interval := defaults.Interval
  let maxRetries := defaults.MaxRetries
  let fail : Error := { Message := "docstore: Failed to load", Validations := [] }
  match env with
  | none =>
    (none, some { fail with Validations := fail.Validations ++
      [{ Message := "Options must not be nil",
         Path := ["Options", "Destinations", "docstore"] }] })
  | some env =>
    let env : Options := if env.Interval = "" then { env with Interval := interval } else env
    let env : Options :=
      if env.MaxRetries = 0 then { env with MaxRetries := maxRetries } else env
    let validations := appendIf (env.Name = "") fail.Validations
      { Message := "Collection name must be set",
        Path := ["Options", "Destinations", "docstore", "Name"] }
    let name := "docstore(" ++ env.Name ++ ")"
    let validations := appendIf (env.Driver = "") validations
      { Message := "Collection driver must be set",
        Path := ["Options", "Destinations", name, "Driver"] }
    let validations := appendIf (env.Connection = "") validations
      { Message := "Collection connection must be set",
        Path := ["Options", "Destinations", name, "Connection"] }
    let validations :=
      if env.Driver = DriverAWSDynamoDB then
        validations ++ env.validateDriverAWSDynamoDB getenv name
      else if env.Driver = DriverAzureCosmosDB then
        validations ++ env.validateDriverAzureCosmosDB getenv name
      else if env.Driver = DriverGoogleFirestore then
        validations ++ env.validateDriverGoogleFirestore getenv name
      else if env.Driver = DriverMongoDB then
        validations ++ env.validateDriverMongoDB getenv name
      else validations
    if validations.length > 0 then (some env, some { fail with Validations := validations })
    else (some env, none)

/-- The exported content of the struct `Docstore` (destination.go). -/
structure Destination where
  options : Blacksmith.Destination.Options
  env : Options
deriving DecidableEq, Repr

/-- The function `New` of docstore (destination.go). -/
def New (defaults : Blacksmith.Destination.Schedule) (getenv : String → String)
    (env : Option Options) : NewResult Destination :=
  match Options.validate defaults getenv env with
  | (_, some err) => { fatal := some err, destination := none }
  | (none, none) => { destination := none }
  | (some env, none) =>
    { destination := some
        { options :=
            { DefaultSchedule :=
                { Realtime := env.Realtime, Interval := env.Interval,
                  MaxRetries := env.MaxRetries } },
          env := env } }

end Docstore

namespace Topic

/-- The topic `Options` (options.go); `Driver` is a string type. -/
structure Options where
  Realtime : Bool := false
  Interval : String := ""
  MaxRetries : Nat := 0
  Name : String := ""
  Driver : String := ""
  Connection : String := ""
  Params : Values := []
deriving DecidableEq, Repr

/-- The driver `DriverAWSSNS`. -/
def DriverAWSSNS : String := "aws/sns"

/-- The driver `DriverAWSSQS`. -/
def DriverAWSSQS : String := "aws/sqs"

/-- The driver `DriverAzureServiceBus`. -/
def DriverAzureServiceBus : String := "azure/servicebus"

/-- The driver `DriverGooglePubSub`. -/
def DriverGooglePubSub : String := "google/pubsub"

/-- The driver `DriverKafka`. -/
def DriverKafka : String := "kafka"

/-- The driver `DriverNATS`. -/
def DriverNATS : String := "nats"

/-- The driver `DriverRabbitMQ`. -/
def DriverRabbitMQ : String := "rabbitmq"

/-- The method `Options.validateDriverAWSSNSSQS` (options.go); `getenv` is
`os.Getenv`. -/
def Options.validateDriverAWSSNSSQS (getenv : String → String) (env : Options) (name : String) :
    List Validation :=
  let validations : List Validation := []
  let validations := appendIf (getenv "AWS_ACCESS_KEY_ID" = "") validations
    { Message := "Environment variable 'AWS_ACCESS_KEY_ID' not set",
      Path := ["Options", "Destinations", name] }
  let validations := appendIf (getenv "AWS_SECRET_ACCESS_KEY" = "") validations
    { Message := "Environment variable 'AWS_SECRET_ACCESS_KEY' not set",
      Path := ["Options", "Destinations", name] }
  let region := getenv "AWS_REGION"
  let region := if region = "" then env.Params.Get "region" else region
  let validations := appendIf (region = "") validations
    { Message := "Environment variable 'AWS_REGION' not set",
      Path := ["Options", "Destinations", name] }
  validations

/-- The methods `Options.validateDriverAzureServiceBus`, `...GooglePubSub`,
`...Kafka`, `...NATS` and `...RabbitMQ` (options.go), which differ in the
environment variable they require only. -/
def Options.validateDriverEnv (getenv : String → String) (key : String) (name : String) :
    List Validation :=
  let validations : List Validation := []
  let validations := appendIf (getenv key = "") validations
    { Message := "Environment variable '" ++ key ++ "' not set",
      Path := ["Options", "Destinations", name] }
  validations

/-- The method `Options.validate` of topic (options.go). -/
def Options.validate (defaults : Blacksmith.Destination.Schedule) (getenv : String → String)
    (env : Option Options) : Option Options × Option Error :=
  let interval := defaults.Interval
  let maxRetries := defaults.MaxRetries
  let fail : Error := { Message := "topic: Failed to load", Validations := [] }
  match env with
  | none =>
    (none, some { fail with Validations := fail.Validations ++
      [{ Message := "Options must not be nil", Path := ["Options", "Destinations", "topic"] }] })
  | some env =>
    let env : Options := if env.Interval = "" then { env with Interval := interval } else env
    let env : Options :=
      if env.MaxRetries = 0 then { env with MaxRetries := maxRetries } else env
    let validations := appendIf (env.Name = "") fail.Validations
      { Message := "Topic name must be set",
        Path := ["Options", "Destinations", "topic", "Name"] }
    let name := "topic(" ++ env.Name ++ ")"
    let validations := appendIf (env.Driver = "") validations
      { Message := "Topic driver must be set",
        Path := ["Options", "Destinations", name, "Driver"] }
    let validations := appendIf (env.Connection = "") validations
      { Message := "Topic connection must be set",
        Path := ["Options", "Destinations", name, "Connection"] }
    let validations :=
      if env.Driver = DriverAWSSNS ∨ env.Driver = DriverAWSSQS then
        validations ++ env.validateDriverAWSSNSSQS getenv name
      else if env.Driver = DriverAzureServiceBus then
        validations ++ Options.validateDriverEnv getenv "SERVICEBUS_CONNECTION_STRING" name
      else if env.Driver = DriverGooglePubSub then
        validations ++ Options.validateDriverEnv getenv "GOOGLE_APPLICATION_CREDENTIALS" name
      else if env.Driver = DriverKafka then
        validations ++ Options.validateDriverEnv getenv "KAFKA_BROKERS" name
      else if env.Driver = DriverNATS then
        validations ++ Options.validateDriverEnv getenv "NATS_SERVER_URL" name
      else if env.Driver = DriverRabbitMQ then
        validations ++ Options.validateDriverEnv getenv "RABBIT_SERVER_URL" name
      else validations
    if validations.length > 0 then (some env, some { fail with Validations := validations })
    else (some env, none)

/-- The exported content of the struct `Topic` (destination.go). -/
structure Destination where
  options : Blacksmith.Destination.Options
  env : Options
deriving DecidableEq, Repr

/-- The function `New` of topic (destination.go). -/
def New (defaults : Blacksmith.Destination.Schedule) (getenv : String → String)
    (env : Option Options) : NewResult Destination :=
  match Options.validate defaults getenv env with
  | (_, some err) => { fatal := some err, destination := none }
  | (none, none) => { destination := none }
  | (some env, none) =>
    { destination := some
        { options :=
            { DefaultSchedule :=
                { Realtime := env.Realtime, Interval := env.Interval,
                  MaxRetries := env.MaxRetries } },
          env := env } }

/-- A run of `Topic.Init`: the URLs handed to `pubsub.OpenTopic`, the error
returned, and whether the run ended in a run-time panic. -/
structure InitRun where
  opened : List String := []
  result : Option Error := none
  panicked : Bool := false
deriving DecidableEq, Repr

/-- The end of `Topic.Init` after `topic, err = pubsub.OpenTopic(d.ctx, u)`;
`openTopic u` is the text of `err`, if any. -/
def Init.open (openTopic : String → Option String) (env : Options) (u : String) : InitRun :=
  match openTopic u with
  | some err => { opened := [u], result := some { Message := "topic(" ++ env.Name ++ "): " ++ err } }
  | none => { opened := [u] }

/-- The method `Topic.Init` (destination.go, lines 67-102). An index
expression `splitted[i]` with `i` not below the length of `splitted` is a
run-time panic. -/
def Init (queryEscape : String → String) (openTopic : String → Option String) (env : Options) :
    InitRun :=
  let url := env.Connection ++ "?" ++ env.Params.Encode queryEscape
  if env.Driver = DriverAWSSNS then Init.open openTopic env ("awssns:///" ++ url)
  else if env.Driver = DriverAWSSQS then
    let splitted := stringsSplit url ':'
    match splitted[2]?, splitted[3]?, splitted[4]?, splitted[5]? with
    | some s2, some s3, some s4, some s5 =>
      let transformed := s2 ++ "." ++ s3 ++ ".amazonaws.com/" ++ s4 ++ "/" ++ s5
      Init.open openTopic env ("awssqs://" ++ transformed)
    | _, _, _, _ => { panicked := true }
  else if env.Driver = DriverAzureServiceBus then Init.open openTopic env ("azuresb://" ++ url)
  else if env.Driver = DriverGooglePubSub then Init.open openTopic env ("gcppubsub://" ++ url)
  else if env.Driver = DriverKafka then Init.open openTopic env ("kafka://" ++ url)
  else if env.Driver = DriverNATS then Init.open openTopic env ("nats://" ++ url)
  else if env.Driver = DriverRabbitMQ then Init.open openTopic env ("rabbit://" ++ url)
  else { result := some { Message := "topic(" ++ env.Name ++ "): Driver not supported" } }

end Topic

namespace Sqlike

/-- The sqlike `Options` (options.go). `DB` is a pointer to the connection
pool, of which `validate` reads only whether it is `nil`. -/
structure Options where
  Realtime : Bool := false
  Interval : String := ""
  MaxRetries : Nat := 0
  Name : String := ""
  DB : Option Unit := none
  Migrations : List String := []
deriving DecidableEq, Repr

/-- The method `Options.validate` of sqlike (options.go). -/
def Options.validate (defaults : Blacksmith.Destination.Schedule) (env : Option Options) :
    Option Options × Option Error :=
  let interval := defaults.Interval
  let maxRetries := defaults.MaxRetries
  let fail : Error := { Message := "sqlike: Failed to load", Validations := [] }
  match env with
  | none =>
    (none, some { fail with Validations := fail.Validations ++
      [{ Message := "Options must not be nil", Path := ["Options", "Destinations", "sqlike"] }] })
  | some env =>
    let env : Options := if env.Interval = "" then { env with Interval := interval } else env
    let env : Options :=
      if env.MaxRetries = 0 then { env with MaxRetries := maxRetries } else env
    let validations := appendIf (env.Name = "") fail.Validations
      { Message := "Database name must be set",
        Path := ["Options", "Destinations", "sqlike", "Name"] }
    let name := "sqlike(" ++ env.Name ++ ")"
    let validations := appendIf (env.DB = none) validations
      { Message := "Database client connection must be set",
        Path := ["Options", "Destinations", name, "DB"] }
    if validations.length > 0 then (some env, some { fail with Validations := validations })
    else (some env, none)

/-- The exported content of the struct `SQLike` (destination.go). -/
structure Destination where
  options : Blacksmith.Destination.Options
  env : Options
deriving DecidableEq, Repr

/-- The function `New` of sqlike (destination.go). -/
def New (defaults : Blacksmith.Destination.Schedule) (env : Option Options) :
    NewResult Destination :=
  match Options.validate defaults env with
  | (_, some err) => { fatal := some err, destination := none }
  | (none, none) => { destination := none }
  | (some env, none) =>
    { destination := some
        { options :=
            { DefaultSchedule :=
                { Realtime := env.Realtime, Interval := env.Interval,
                  MaxRetries := env.MaxRetries } },
          env := env } }

/-- The fields of `wanderer.Migration` that `LoadMigrations` sets. -/
structure Migration where
  ID : String := ""
  Version : Time := {}
  Name : String := ""
deriving DecidableEq, Repr

/-- The collaborators of `LoadMigrations`: `os.Getwd` (the directory or the
text of the error), `os.Open` on the path joined from the given elements (the
text of the error, if any), `Readdir` on the opened directory (the names of
its files, or the text of the error), `time.Parse` with the layout
`20060102150405` on the string of the given bytes, and the successive results
of `ksuid.New().String()`. -/
structure Files where
  Getwd : Except String String
  Open : List String → Option String
  Readdir : Except String (List String)
  timeParse : Bytes → Option Time
  ksuidNew : Nat → String

/-- What a call of `LoadMigrations` ends in: a list of migrations with a `nil`
error, a `nil` list with an error, or a run-time panic. -/
inductive LoadResult where
  | migrations (ms : List Migration) : LoadResult
  | error (e : Error) : LoadResult
  | panic : LoadResult
deriving DecidableEq, Repr

/-- What one turn of the loop over the files ends in: the next turn, with the
migrations registered so far, or the end of the call. -/
inductive FileResult where
  | next (registered : List (Bytes × Migration)) : FileResult
  | stop (r : LoadResult) : FileResult

/-- One turn of the loop `for _, file := range list` of `LoadMigrations`
(migration.go, lines 76-143), `fail.Validations` being empty when it starts.
Lengths and slices of Go strings count bytes; the slice expression
`file.Name()[0:14]` is a run-time panic when the name has fewer than 14 bytes.
`registered` is the map of that name, as the list of its entries in the order
they were added. -/
def LoadMigrations.file (fs : Files) (wd directory : String)
    (registered : List (Bytes × Migration)) (name : String) : FileResult :=
  let path := stringsSplit directory '/' ++ [name]
  match stringsSplit name '.' with
  | [f0, f1, f2, f3] =>
    let validations : List Validation :=
      if (utf8Bytes f0).length ≠ 14 then
        [{ Message := "Version number must be formatted like YYYYMMDDHHMISS", Path := path }]
      else if f2 ≠ "up" ∧ f2 ≠ "down" then
        [{ Message := "Migration must either be 'up' or 'down'", Path := path }]
      else if f3 ≠ "sql" then
        [{ Message := "File extension not supported (must be '.sql')", Path := path }]
      else []
    let validations :=
      match fs.Open [wd, directory, name] with
      | some err => validations ++ [{ Message := err, Path := path }]
      | none => validations
    if (utf8Bytes name).length < 14 then .stop .panic
    else
      let number := (utf8Bytes name).take 14
      let validations := appendIf (number.length ≠ 14) validations
        { Message := "Failed to parse version name", Path := path }
      let parsed := fs.timeParse number
      let numbert : Time := parsed.getD Time.zero
      let validations := appendIf (parsed = none) validations
        { Message := "Failed to parse version name", Path := path }
      if validations.length > 0 then
        .stop (.error { Message := "sqlike: Failed to load migration files",
                        Validations := validations })
      else if (registered.lookup number).isNone then
        .next (registered ++
          [(number, { ID := fs.ksuidNew registered.length, Version := numbert, Name := f1 })])
      else .next registered
  | _ => .next registered

/-- The loop over the sorted files of `LoadMigrations` and the return that
follows it. The result lists the registered migrations in the order they were
registered; the source ranges over a map, whose order Go leaves unspecified. -/
def LoadMigrations.files (fs : Files) (wd directory : String) :
    List String → List (Bytes × Migration) → LoadResult
  | [], registered => .migrations (registered.map Prod.snd)
  | name :: rest, registered =>
    match LoadMigrations.file fs wd directory registered name with
    | .next registered => LoadMigrations.files fs wd directory rest registered
    | .stop r => r

/-- The function `LoadMigrations` (migration.go). -/
def LoadMigrations (fs : Files) (directory : String) : LoadResult :=
  let fail : Error := { Message := "sqlike: Failed to load migration files", Validations := [] }
  match fs.Getwd with
  | .error err =>
    .error { fail with Validations := fail.Validations ++ [{ Message := err }] }
  | .ok wd =>
    match fs.Open [wd, directory] with
    | some err =>
      .error { fail with Validations := fail.Validations ++
        [{ Message := err, Path := stringsSplit directory '/' }] }
    | none =>
      match fs.Readdir with
      | .error err =>
        .error { fail with Validations := fail.Validations ++
          [{ Message := err, Path := stringsSplit directory '/' }] }
      | .ok list =>
        let list := list.insertionSort stringsLessEq
        LoadMigrations.files fs wd directory list []

/-- A directory holding files of the given names, all of which can be opened,
with a stand-in for `time.Parse` that accepts exactly the strings of 14
decimal digits. -/
def Files.listing (names : List String) : Files :=
  { Getwd := .ok "/app",
    Open := fun _ => none,
    Readdir := .ok names,
    timeParse := fun b =>
      if b.length = 14 ∧ b.all (fun x => decide (48 ≤ x.toNat ∧ x.toNat ≤ 57)) = true
      then some { sec := 0 } else none,
    ksuidNew := fun n => String.mk ('k' :: List.replicate n '+') }

end Sqlike

/-- An environment in which `AWS_ACCESS_KEY_ID` and `AWS_SECRET_ACCESS_KEY`
are set and every other variable, `AWS_REGION` included, is not. -/
def awsKeysOnly : String → String :=
  fun key =>
    if key = "AWS_ACCESS_KEY_ID" then "AKIAEXAMPLE"
    else if key = "AWS_SECRET_ACCESS_KEY" then "secret"
    else ""

/-! ## Segment flows: `Transform` -/

/-- The method `JSON == true` of a Go `interface{}` value compared with the
constant `true`: the value holds the boolean `true`. A value of any other
dynamic type compares unequal. -/
def JSON.isTrue : JSON → Bool
  | .bool true => true
  | _ => false

/-- The type assertion `v.(string)` with its `ok` result; a key that is absent
from the map leaves the Go variable at `""`, as a failed assertion does. -/
def JSON.asString : Option JSON → String
  | some (.str s) => s
  | _ => ""

/-- The type assertion `v.(float64)` with its `ok` result, `float64Of` giving
the number a decoded JSON number of this text holds. -/
def JSON.asFloat64 (float64Of : String → Float64) : Option JSON → Float64
  | some (.num text) => float64Of text
  | _ => {}

/-- The amplitude `UserMap` (objects.go). -/
structure Amplitude.UserMap where
  UserId : String := ""
  GlobalUserId : String := ""
deriving DecidableEq, Repr

namespace Segmentflow

/-- The type `analytics.Integrations`, a `map[string]interface{}`, as the list
of its entries: the entry of a key is the first one listed under it, and the
`nil` map is `[]`. -/
abbrev Integrations := List (String × JSON)

/-- The condition `!exists || m[name] == true` that follows
`_, exists = m[name]` in every `Transform`. Indexing a `nil` map gives the
zero value and `exists = false`. -/
def Integrations.enabled (m : Integrations) (name : String) : Bool :=
  let exists_ := (m.lookup name).isSome
  !exists_ || ((m.lookup name).getD JSON.null).isTrue

/-- The type `analytics.Identify` embedded in the flow `Identify`. -/
structure Identify where
  Type_ : String := ""
  MessageId : String := ""
  AnonymousId : String := ""
  UserId : String := ""
  Traits : List (String × JSON) := []
  Timestamp : Time := {}
  Context : Option Context := none
  Integrations : Integrations := []

/-- The type `analytics.Track` embedded in the flow `Track`. -/
structure Track where
  Type_ : String := ""
  MessageId : String := ""
  AnonymousId : String := ""
  UserId : String := ""
  Event : String := ""
  Properties : List (String × JSON) := []
  Timestamp : Time := {}
  Context : Option Context := none
  Integrations : Integrations := []

/-- The type `analytics.Group` embedded in the flow `Group`. -/
structure Group where
  Type_ : String := ""
  MessageId : String := ""
  AnonymousId : String := ""
  UserId : String := ""
  GroupId : String := ""
  Traits : List (String × JSON) := []
  Timestamp : Time := {}
  Context : Option Context := none
  Integrations : Integrations := []

/-- The type `analytics.Page` embedded in the flow `Page`. -/
structure Page where
  Type_ : String := ""
  MessageId : String := ""
  AnonymousId : String := ""
  UserId : String := ""
  Name : String := ""
  Properties : List (String × JSON) := []
  Timestamp : Time := {}
  Context : Option Context := none
  Integrations : Integrations := []

/-- The type `analytics.Screen` embedded in the flow `Screen`. -/
structure Screen where
  Type_ : String := ""
  MessageId : String := ""
  AnonymousId : String := ""
  UserId : String := ""
  Name : String := ""
  Properties : List (String × JSON) := []
  Timestamp : Time := {}
  Context : Option Context := none
  Integrations : Integrations := []

/-- The actions the flows hand to the destinations, each with the fields its
composite literal sets in `Transform`: `amplitudedestination.Identify{Events}`,
`Track{Events}`, `Group{Identification}`, `Alias{Mapping}`, `Page{Events}`,
`Screen{Events}`, `mailchimpdestination.Identify{Signup}`, and the
`segmentdestination` actions, which embed the message. -/
inductive Action where
  | amplitudeIdentify (events : List Amplitude.Event) : Action
  | amplitudeTrack (events : List Amplitude.Event) : Action
  | amplitudeGroup (a : Amplitude.Group) : Action
  | amplitudeAlias (mapping : List Amplitude.UserMap) : Action
  | amplitudePage (a : Amplitude.Page) : Action
  | amplitudeScreen (events : List Amplitude.Event) : Action
  | mailchimpIdentify (signup : Mailchimp.Signup) : Action
  | segmentIdentify (m : Identify) : Action
  | segmentTrack (m : Track) : Action
  | segmentGroup (m : Group) : Action
  | segmentAlias (m : Segment.Alias) : Action
  | segmentPage (m : Page) : Action
  | segmentScreen (m : Screen) : Action

/-- The type `destination.Actions`, a `map[string][]destination.Action`, as the
list of its entries in the order `Transform` assigns them. -/
abbrev Actions := List (String × List Action)

/-- The statement `if !exists || m[name] == true { integrations[key] = actions }`. -/
def assignIf (m : Integrations) (name : String) (integrations : Actions) (key : String)
    (actions : List Action) : Actions :=
  if m.enabled name = true then integrations ++ [(key, actions)] else integrations

/-- The method `Identify.Transform` (identify.go). A `nil` context is replaced
by an empty one before any field of it is read, and the message the segment
action embeds is the message with that context. -/
def Identify.Transform (f : Identify) : Actions :=
  let integrations : Actions := []
  let ctx : Blacksmith.Context := f.Context.getD {}
  let f : Identify := { f with Context := some ctx }
  let email := JSON.asString (f.Traits.lookup "email")
  let firstName := JSON.asString (f.Traits.lookup "firstName")
  let lastName := JSON.asString (f.Traits.lookup "lastName")
  let integrations := assignIf f.Integrations "Amplitude" integrations "amplitude"
    [.amplitudeIdentify
        [{ UserId := f.UserId,
            DeviceId := ctx.Device.Id,
            Time := f.Timestamp.Unix,
            Traits := f.Traits,
            Context := some ctx,
            AppVersion := ctx.App.Version,
            OSName := ctx.OS.Name,
            OSVersion := ctx.OS.Version,
            DeviceBrand := ctx.Device.Name,
            DeviceManufacturer := ctx.Device.Manufacturer,
            DeviceModel := ctx.Device.Model,
            Carrier := ctx.Network.Carrier,
            Country := ctx.Location.Country,
            Region := ctx.Location.Region,
            City := ctx.Location.City,
            Latitude := ctx.Location.Latitude,
            Longitude := ctx.Location.Longitude,
            IP := ctx.IP }]]
  let integrations := assignIf f.Integrations "Mailchimp" integrations "mailchimp"
    [.mailchimpIdentify
        { Email := email,
          FirstName := firstName,
          LastName := lastName,
          IPSignup := ctx.IP,
          TimestampSignup := f.Timestamp,
          Location := some { Latitude := ctx.Location.Latitude,
                             Longitude := ctx.Location.Longitude } }]
  let integrations := assignIf f.Integrations "Segment" integrations "segment"
    [.segmentIdentify f]
  integrations

/-- The method `Track.Transform` (track.go); `float64Of` gives the number a
decoded JSON number holds. -/
def Track.Transform (float64Of : String → Float64) (f : Track) : Actions :=
  let integrations : Actions := []
  let ctx : Blacksmith.Context := f.Context.getD {}
  let f : Track := { f with Context := some ctx }
  let productId := JSON.asString (f.Properties.lookup "productId")
  let quantity := JSON.asFloat64 float64Of (f.Properties.lookup "quantity")
  let price := JSON.asFloat64 float64Of (f.Properties.lookup "price")
  let revenue := JSON.asFloat64 float64Of (f.Properties.lookup "revenue")
  let integrations := assignIf f.Integrations "Amplitude" integrations "amplitude"
    [.amplitudeTrack
        [{ Event := f.Event,
            UserId := f.UserId,
            DeviceId := ctx.Device.Id,
            Time := f.Timestamp.Unix,
            Context := some ctx,
            AppVersion := ctx.App.Version,
            OSName := ctx.OS.Name,
            OSVersion := ctx.OS.Version,
            DeviceBrand := ctx.Device.Name,
            DeviceManufacturer := ctx.Device.Manufacturer,
            DeviceModel := ctx.Device.Model,
            Carrier := ctx.Network.Carrier,
            Country := ctx.Location.Country,
            Region := ctx.Location.Region,
            City := ctx.Location.City,
            Latitude := ctx.Location.Latitude,
            Longitude := ctx.Location.Longitude,
            IP := ctx.IP,
            ProductId := productId,
            Quantity := quantity,
            Price := price,
            Revenue := revenue }]]
  let integrations := assignIf f.Integrations "Segment" integrations "segment"
    [.segmentTrack f]
  integrations

/-- The method `Group.Transform` (group.go). -/
def Group.Transform (f : Group) : Actions :=
  let integrations : Actions := []
  let ctx : Blacksmith.Context := f.Context.getD {}
  let f : Group := { f with Context := some ctx }
  let groupType := JSON.asString (f.Traits.lookup "industry")
  let integrations := assignIf f.Integrations "Amplitude" integrations "amplitude"
    [.amplitudeGroup
        { Identification :=
            [{ UserId := f.UserId,
               GroupType := groupType,
               GroupValue := f.GroupId,
               GroupProperties := f.Traits }] }]
  let integrations := assignIf f.Integrations "Segment" integrations "segment"
    [.segmentGroup f]
  integrations

/-- The method `Alias.Transform` (alias.go). -/
def Alias.Transform (f : Segment.Alias) : Actions :=
  let integrations : Actions := []
  let ctx : Blacksmith.Context := f.Context.getD {}
  let f : Segment.Alias := { f with Context := some ctx }
  let integrations := assignIf f.Integrations "Amplitude" integrations "amplitude"
    [.amplitudeAlias [{ UserId := f.PreviousId, GlobalUserId := f.UserId }]]
  let integrations := assignIf f.Integrations "Segment" integrations "segment"
    [.segmentAlias f]
  integrations

/-- The method `Page.Transform` (page.go). -/
def Page.Transform (f : Page) : Actions :=
  let integrations : Actions := []
  let ctx : Blacksmith.Context := f.Context.getD {}
  let f : Page := { f with Context := some ctx }
  let integrations := assignIf f.Integrations "Amplitude" integrations "amplitude"
    [.amplitudePage
        { Events := [
          { Event := f.Name,
            UserId := f.UserId,
            DeviceId := ctx.Device.Id,
            Time := f.Timestamp.Unix,
            Context := some ctx,
            AppVersion := ctx.App.Version,
            OSName := ctx.OS.Name,
            OSVersion := ctx.OS.Version,
            DeviceBrand := ctx.Device.Name,
            DeviceManufacturer := ctx.Device.Manufacturer,
            DeviceModel := ctx.Device.Model,
            Carrier := ctx.Network.Carrier,
            Country := ctx.Location.Country,
            Region := ctx.Location.Region,
            City := ctx.Location.City,
            Latitude := ctx.Location.Latitude,
            Longitude := ctx.Location.Longitude,
            IP := ctx.IP }] }]
  let integrations := assignIf f.Integrations "Segment" integrations "segment"
    [.segmentPage f]
  integrations

/-- The method `Screen.Transform` (screen.go). -/
def Screen.Transform (f : Screen) : Actions :=
  let integrations : Actions := []
  let ctx : Blacksmith.Context := f.Context.getD {}
  let f : Screen := { f with Context := some ctx }
  let integrations := assignIf f.Integrations "Amplitude" integrations "amplitude"
    [.amplitudeScreen
        [{ Event := f.Name,
            UserId := f.UserId,
            DeviceId := ctx.Device.Id,
            Time := f.Timestamp.Unix,
            Context := some ctx,
            AppVersion := ctx.App.Version,
            OSName := ctx.OS.Name,
            OSVersion := ctx.OS.Version,
            DeviceBrand := ctx.Device.Name,
            DeviceManufacturer := ctx.Device.Manufacturer,
            DeviceModel := ctx.Device.Model,
            Carrier := ctx.Network.Carrier,
            Country := ctx.Location.Country,
            Region := ctx.Location.Region,
            City := ctx.Location.City,
            Latitude := ctx.Location.Latitude,
            Longitude := ctx.Location.Longitude,
            IP := ctx.IP }]]
  let integrations := assignIf f.Integrations "Segment" integrations "segment"
    [.segmentScreen f]
  integrations

end Segmentflow

/-! ## Theorems -/

theorem forEachJob_eq_foldl {κ : Type} (body : Store.Event → Store.Job → Run κ → Run κ)
    (q : Store.Queue) (t : Run κ) :
    forEachJob body q t =
      q.pairs.foldl (fun t p => if t.panicked then t else body p.1 p.2 t) t := by
  unfold forEachJob Store.Queue.pairs
  generalize q.Events = evs
  induction evs generalizing t with
  | nil => rfl
  | cons ev evs ih =>
    simp only [List.foldl_cons, List.flatMap_cons, List.foldl_append, List.foldl_map]
    exact ih _

theorem Store.Queue.pairs_length (q : Store.Queue) :
    q.pairs.length = (q.Events.map (fun ev => ev.Jobs.length)).sum := by
  unfold Store.Queue.pairs
  generalize q.Events = evs
  induction evs with
  | nil => rfl
  | cons ev evs ih => simp [List.flatMap_cons, ih]

theorem foldl_steps {R : Store.Event → Store.Job → List HttpCall → HttpCall → Then → Prop}
    {body : Store.Event → Store.Job → Trace → Trace}
    (ps : List (Store.Event × Store.Job))
    (hbody : ∀ p ∈ ps, ∀ t : Trace, t.panicked = false → ∃ call th,
      body p.1 p.2 t = { thens := t.thens ++ [th], calls := t.calls ++ [call], panicked := false }
        ∧ R p.1 p.2 t.calls call th)
    (t : Trace) (ht : t.panicked = false) :
    ∃ cs ths, ps.foldl (fun t p => if t.panicked then t else body p.1 p.2 t) t
        = { thens := t.thens ++ ths, calls := t.calls ++ cs, panicked := false }
      ∧ Steps R t.calls ps cs ths := by
  induction ps generalizing t with
  | nil =>
    refine ⟨[], [], ?_, Steps.nil _⟩
    cases t; simp_all
  | cons p ps ih =>
    obtain ⟨call, th, hb, hR⟩ := hbody p (List.mem_cons_self _ _) t ht
    obtain ⟨cs, ths, hfold, hsteps⟩ :=
      ih (fun p' hp' => hbody p' (List.mem_cons_of_mem _ hp')) (body p.1 p.2 t) (by rw [hb])
    refine ⟨call :: cs, th :: ths, ?_, ?_⟩
    · simp only [List.foldl_cons, ht, Bool.false_eq_true, if_false]
      rw [hfold, hb]; simp
    · obtain ⟨ev, job⟩ := p
      rw [hb] at hsteps
      exact Steps.cons hR hsteps

theorem Steps.lengths {R : Store.Event → Store.Job → List HttpCall → HttpCall → Then → Prop}
    {h : List HttpCall} {ps : List (Store.Event × Store.Job)} {cs : List HttpCall}
    {ths : List Then} (hs : Steps R h ps cs ths) :
    cs.length = ps.length ∧ ths.length = ps.length := by
  induction hs with
  | nil h => exact ⟨rfl, rfl⟩
  | cons _ _ ih => simp [ih.1, ih.2]

theorem Steps.at {R : Store.Event → Store.Job → List HttpCall → HttpCall → Then → Prop}
    {h : List HttpCall} {ps : List (Store.Event × Store.Job)} {cs : List HttpCall}
    {ths : List Then} (hs : Steps R h ps cs ths) (k : Nat) (hk : k < ps.length) :
    ∃ call th, cs[k]? = some call ∧ ths[k]? = some th
      ∧ R (ps[k]).1 (ps[k]).2 (h ++ cs.take k) call th := by
  induction hs generalizing k with
  | nil h => simp at hk
  | @cons h ev job call th ps cs ths hR _ ih =>
    cases k with
    | zero => exact ⟨call, th, by simp, by simp, by simpa using hR⟩
    | succ k =>
      obtain ⟨call', th', h1, h2, h3⟩ := ih k (by simpa using hk)
      refine ⟨call', th', by simpa using h1, by simpa using h2, ?_⟩
      simpa [List.append_assoc] using h3

theorem forEachJob_steps {R : Store.Event → Store.Job → List HttpCall → HttpCall → Then → Prop}
    {body : Store.Event → Store.Job → Trace → Trace} (q : Store.Queue)
    (hbody : ∀ p ∈ q.pairs, ∀ t : Trace, t.panicked = false → ∃ call th,
      body p.1 p.2 t = { thens := t.thens ++ [th], calls := t.calls ++ [call], panicked := false }
        ∧ R p.1 p.2 t.calls call th) :
    (forEachJob body q {}).panicked = false
      ∧ Steps R [] q.pairs (forEachJob body q {}).calls (forEachJob body q {}).thens := by
  obtain ⟨cs, ths, hfold, hsteps⟩ := foldl_steps q.pairs hbody {} rfl
  rw [forEachJob_eq_foldl, hfold]
  exact ⟨rfl, by simpa using hsteps⟩

theorem Amplitude.Page.loadJob_page_spec (env : Amplitude.Options) (codec : Amplitude.Codec)
    (client : Client) (ev : Store.Event) (job : Store.Job) (t : Trace)
    (ht : t.panicked = false) :
    ∃ call th, Amplitude.Page.loadJob env codec client ev job t
        = { thens := t.thens ++ [th], calls := t.calls ++ [call], panicked := false }
      ∧ HttpOutcome client (Amplitude.Page.request env codec) true
          (mapIndex Amplitude.statusForceDiscards) ev job t.calls call th := by
  cases hc : client t.calls (Amplitude.Page.request env codec job) with
  | error err =>
    refine ⟨Amplitude.Page.request env codec job,
      { Jobs := [job.ID], ForceDiscard := true,
        Error := some (.blacksmith { StatusCode := 500, Message := err }) }, ?_, ?_⟩
    · simp only [Amplitude.Page.loadJob, hc, Run.send, Run.call, ht]
    · simp [HttpOutcome, hc]
  | ok res =>
    by_cases hs : res.StatusCode ≥ 300
    · refine ⟨Amplitude.Page.request env codec job,
        { Jobs := [job.ID],
          ForceDiscard := mapIndex Amplitude.statusForceDiscards res.StatusCode,
          Error := some (.blacksmith { StatusCode := res.StatusCode, Message := res.Body }) },
        ?_, ?_⟩
      · simp only [Amplitude.Page.loadJob, hc, hs, if_true, Run.send, Run.call, ht]
      · refine ⟨rfl, rfl, rfl, ?_, ?_, ?_⟩
        · intro e he; rw [hc] at he; cases he
        · intro r hr _; rw [hc] at hr; cases hr; exact ⟨rfl, rfl⟩
        · intro r hr hlt; rw [hc] at hr; cases hr; omega
    · refine ⟨Amplitude.Page.request env codec job, { Jobs := [job.ID], Error := none }, ?_, ?_⟩
      · simp only [Amplitude.Page.loadJob, hc, hs, if_false, Run.send, Run.call, ht]
      · refine ⟨rfl, rfl, rfl, ?_, ?_, ?_⟩
        · intro e he; rw [hc] at he; cases he
        · intro r hr hge; rw [hc] at hr; cases hr; omega
        · intro r hr _; exact ⟨rfl, rfl⟩

theorem Amplitude.Page.Load_page_steps (env : Amplitude.Options) (codec : Amplitude.Codec)
    (client : Client) (q : Store.Queue) :
    (Amplitude.Page.Load env codec client q).panicked = false
      ∧ Steps (HttpOutcome client (Amplitude.Page.request env codec) true
          (mapIndex Amplitude.statusForceDiscards)) [] q.pairs
          (Amplitude.Page.Load env codec client q).calls
          (Amplitude.Page.Load env codec client q).thens :=
  forEachJob_steps q
    (fun p _ t ht => Amplitude.Page.loadJob_page_spec env codec client p.1 p.2 t ht)

theorem Mailchimp.Identify.loadJob_identify_spec (env : Mailchimp.Options) (std : Std)
    (codec : Mailchimp.Codec) (client : Client) (ev : Store.Event) (job : Store.Job)
    (hurl : std.urlParse
      (Mailchimp.Identify.url env std (codec.identify.Unmarshal job.Data).1) = true)
    (t : Trace) (ht : t.panicked = false) :
    ∃ call th, Mailchimp.Identify.loadJob env std codec client ev job t
        = { thens := t.thens ++ [th], calls := t.calls ++ [call], panicked := false }
      ∧ HttpOutcome client (Mailchimp.Identify.request env std codec) true
          (mapIndex Mailchimp.statusForceDiscards) ev job t.calls call th := by
  cases hc : client t.calls (Mailchimp.Identify.request env std codec job) with
  | error err =>
    refine ⟨Mailchimp.Identify.request env std codec job,
      { Jobs := [job.ID], ForceDiscard := true,
        Error := some (.blacksmith { StatusCode := 500, Message := err }) }, ?_, ?_⟩
    · simp [Mailchimp.Identify.loadJob, hurl, hc, Run.send, Run.call, ht]
    · simp [HttpOutcome, hc]
  | ok res =>
    by_cases hs : res.StatusCode ≥ 300
    · refine ⟨Mailchimp.Identify.request env std codec job,
        { Jobs := [job.ID],
          ForceDiscard := mapIndex Mailchimp.statusForceDiscards res.StatusCode,
          Error := some (.blacksmith { StatusCode := res.StatusCode, Message := res.Body }) },
        ?_, ?_⟩
      · simp [Mailchimp.Identify.loadJob, hurl, hc, hs, Run.send, Run.call, ht]
      · refine ⟨rfl, rfl, rfl, ?_, ?_, ?_⟩
        · intro e he; rw [hc] at he; cases he
        · intro r hr _; rw [hc] at hr; cases hr; exact ⟨rfl, rfl⟩
        · intro r hr hlt; rw [hc] at hr; cases hr; omega
    · refine ⟨Mailchimp.Identify.request env std codec job,
        { Jobs := [job.ID], Error := none }, ?_, ?_⟩
      · simp [Mailchimp.Identify.loadJob, hurl, hc, hs, Run.send, Run.call, ht]
      · refine ⟨rfl, rfl, rfl, ?_, ?_, ?_⟩
        · intro e he; rw [hc] at he; cases he
        · intro r hr hge; rw [hc] at hr; cases hr; omega
        · intro r hr _; exact ⟨rfl, rfl⟩

theorem Mailchimp.Identify.Load_identify_steps (env : Mailchimp.Options) (std : Std)
    (codec : Mailchimp.Codec) (client : Client) (q : Store.Queue)
    (hurl : ∀ d : Mailchimp.Signup, std.urlParse (Mailchimp.Identify.url env std d) = true) :
    (Mailchimp.Identify.Load env std codec client q).panicked = false
      ∧ Steps (HttpOutcome client (Mailchimp.Identify.request env std codec) true
          (mapIndex Mailchimp.statusForceDiscards)) [] q.pairs
          (Mailchimp.Identify.Load env std codec client q).calls
          (Mailchimp.Identify.Load env std codec client q).thens :=
  forEachJob_steps q
    (fun p _ t ht =>
      Mailchimp.Identify.loadJob_identify_spec env std codec client p.1 p.2 (hurl _) t ht)

theorem Segment.Alias.loadJob_alias_spec (env : Segment.Options) (std : Std)
    (codec : Segment.Codec) (client : Client) (ev : Store.Event) (job : Store.Job)
    (t : Trace) (ht : t.panicked = false) :
    ∃ call th, Segment.Alias.loadJob env std codec client ev job t
        = { thens := t.thens ++ [th], calls := t.calls ++ [call], panicked := false }
      ∧ HttpOutcome client (Segment.Alias.request env std codec) false
          (fun s => decide (s = 400)) ev job t.calls call th := by
  cases hc : client t.calls (Segment.Alias.request env std codec job) with
  | error err =>
    refine ⟨Segment.Alias.request env std codec job,
      { Jobs := [job.ID],
        Error := some (.blacksmith { StatusCode := 500, Message := err }) }, ?_, ?_⟩
    · simp only [Segment.Alias.loadJob, hc, Run.send, Run.call, ht]
    · simp [HttpOutcome, hc]
  | ok res =>
    by_cases hs : res.StatusCode ≥ 300
    · refine ⟨Segment.Alias.request env std codec job,
        { Jobs := [job.ID], ForceDiscard := decide (res.StatusCode = 400),
          Error := some (.blacksmith { StatusCode := res.StatusCode, Message := res.Body }) },
        ?_, ?_⟩
      · simp only [Segment.Alias.loadJob, hc, hs, if_true, Run.send, Run.call, ht]
      · refine ⟨rfl, rfl, rfl, ?_, ?_, ?_⟩
        · intro e he; rw [hc] at he; cases he
        · intro r hr _; rw [hc] at hr; cases hr; exact ⟨rfl, rfl⟩
        · intro r hr hlt; rw [hc] at hr; cases hr; omega
    · refine ⟨Segment.Alias.request env std codec job,
        { Jobs := [job.ID], Error := none }, ?_, ?_⟩
      · simp only [Segment.Alias.loadJob, hc, hs, if_false, Run.send, Run.call, ht]
      · refine ⟨rfl, rfl, rfl, ?_, ?_, ?_⟩
        · intro e he; rw [hc] at he; cases he
        · intro r hr hge; rw [hc] at hr; cases hr; omega
        · intro r hr _; exact ⟨rfl, rfl⟩

theorem Segment.Alias.Load_alias_steps (env : Segment.Options) (std : Std)
    (codec : Segment.Codec) (client : Client) (q : Store.Queue) :
    (Segment.Alias.Load env std codec client q).panicked = false
      ∧ Steps (HttpOutcome client (Segment.Alias.request env std codec) false
          (fun s => decide (s = 400))) [] q.pairs
          (Segment.Alias.Load env std codec client q).calls
          (Segment.Alias.Load env std codec client q).thens :=
  forEachJob_steps q
    (fun p _ t ht => Segment.Alias.loadJob_alias_spec env std codec client p.1 p.2 t ht)

theorem mapIndex_of_not_key (m : List (Int × Bool)) (k : Int)
    (h : k ∉ m.map Prod.fst) : mapIndex m k = false := by
  unfold mapIndex
  have : m.lookup k = none := by
    induction m with
    | nil => rfl
    | cons a m ih =>
      obtain ⟨a1, a2⟩ := a
      simp only [List.map_cons, List.mem_cons, not_or] at h
      rw [List.lookup_cons]
      have hne : (k == a1) = false := by simpa using h.1
      rw [hne]; exact ih h.2
  rw [this]

theorem Steps.calls_eq {R : Store.Event → Store.Job → List HttpCall → HttpCall → Then → Prop}
    {h : List HttpCall} {ps : List (Store.Event × Store.Job)} {cs : List HttpCall}
    {ths : List Then} (hs : Steps R h ps cs ths) (request : Store.Job → HttpCall)
    (hR : ∀ ev job h call th, R ev job h call th → call = request job ∧ th.Jobs = [job.ID]) :
    cs = ps.map (fun p => request p.2) ∧ ths.map (fun th => th.Jobs) = ps.map (fun p => [p.2.ID]) := by
  induction hs with
  | nil h => exact ⟨rfl, rfl⟩
  | cons h1 _ ih =>
    obtain ⟨e1, e2⟩ := hR _ _ _ _ _ h1
    simp [ih.1, ih.2, e1, e2]

/-- C1: in amplitude `Page.Load`, when the client returns a response with status
`s` for the `k`-th job of the batch, the `k`-th outcome names that job and: if
`s < 300` it has no error and `ForceDiscard = false`; if `s ≥ 300` its error
carries `s` and the response body and `ForceDiscard = statusForceDiscards[s]`.
In particular 422 gives `ForceDiscard = true` with status 422, 299 is a
success and 300 is a failure. -/
theorem Amplitude.Page.Load_classifies_response (env : Amplitude.Options)
    (codec : Amplitude.Codec) (client : Client) (q : Store.Queue) (k : Nat)
    (hk : k < q.pairs.length) (res : Response)
    (hres : client ((Amplitude.Page.Load env codec client q).calls.take k)
      (Amplitude.Page.request env codec (q.pairs[k]).2) = .ok res) :
    ∃ th, (Amplitude.Page.Load env codec client q).thens[k]? = some th
      ∧ (Amplitude.Page.Load env codec client q).calls[k]?
          = some (Amplitude.Page.request env codec (q.pairs[k]).2)
      ∧ th.Jobs = [(q.pairs[k]).2.ID]
      ∧ (res.StatusCode < 300 → th.Error = none ∧ th.ForceDiscard = false)
      ∧ (res.StatusCode ≥ 300 →
          th.Error = some (.blacksmith { StatusCode := res.StatusCode, Message := res.Body })
            ∧ th.ForceDiscard = mapIndex Amplitude.statusForceDiscards res.StatusCode)
      ∧ (res.StatusCode = 422 →
          th.Error = some (.blacksmith { StatusCode := 422, Message := res.Body })
            ∧ th.ForceDiscard = true)
      ∧ (res.StatusCode = 299 → th.Error = none)
      ∧ (res.StatusCode = 300 → th.Error ≠ none) := by
  obtain ⟨call, th, hcall, hth, hreq, hjobs, -, -, hge, hlt⟩ :=
    (Amplitude.Page.Load_page_steps env codec client q).2.at k hk
  simp only [List.nil_append] at hge hlt
  subst hreq
  refine ⟨th, hth, hcall, hjobs, hlt res hres, hge res hres, ?_, ?_, ?_⟩
  · intro h
    have := hge res hres (by omega)
    rw [h] at this
    exact ⟨this.1, by rw [this.2]; decide⟩
  · intro h; exact (hlt res hres (by omega)).1
  · intro h
    rw [(hge res hres (by omega)).1]; simp

/-- Instance of C1: a one-job batch answered with status 422. -/
theorem Amplitude.Page.Load_classifies_response_witness :
    ∃ th, (Amplitude.Page.Load {} Amplitude.Codec.blank (Client.always 422 "bad")
          (Store.Queue.single "j1")).thens[0]? = some th
      ∧ (Amplitude.Page.Load {} Amplitude.Codec.blank (Client.always 422 "bad")
          (Store.Queue.single "j1")).calls[0]?
          = some (Amplitude.Page.request {} Amplitude.Codec.blank
              ((Store.Queue.single "j1").pairs[0]).2)
      ∧ th.Jobs = [((Store.Queue.single "j1").pairs[0]).2.ID]
      ∧ ((422 : Int) < 300 → th.Error = none ∧ th.ForceDiscard = false)
      ∧ ((422 : Int) ≥ 300 →
          th.Error = some (.blacksmith { StatusCode := 422, Message := "bad" })
            ∧ th.ForceDiscard = mapIndex Amplitude.statusForceDiscards 422)
      ∧ ((422 : Int) = 422 →
          th.Error = some (.blacksmith { StatusCode := 422, Message := "bad" })
            ∧ th.ForceDiscard = true)
      ∧ ((422 : Int) = 299 → th.Error = none)
      ∧ ((422 : Int) = 300 → th.Error ≠ none) :=
  Amplitude.Page.Load_classifies_response {} Amplitude.Codec.blank (Client.always 422 "bad")
    (Store.Queue.single "j1") 0 (by decide) { StatusCode := 422, Body := "bad" } rfl

/-- C2: the status tables hold the listed values: for amplitude 400, 413, 422
are terminal and 429, 500, 502, 503, 504 retryable; for mailchimp 400, 405,
414, 422 are terminal and 401, 403, 404, 429, 500, 503 retryable. -/
theorem statusForceDiscards_listed_values :
    (mapIndex Amplitude.statusForceDiscards 400 = true
      ∧ mapIndex Amplitude.statusForceDiscards 413 = true
      ∧ mapIndex Amplitude.statusForceDiscards 422 = true
      ∧ mapIndex Amplitude.statusForceDiscards 429 = false
      ∧ mapIndex Amplitude.statusForceDiscards 500 = false
      ∧ mapIndex Amplitude.statusForceDiscards 502 = false
      ∧ mapIndex Amplitude.statusForceDiscards 503 = false
      ∧ mapIndex Amplitude.statusForceDiscards 504 = false)
    ∧ (mapIndex Mailchimp.statusForceDiscards 400 = true
      ∧ mapIndex Mailchimp.statusForceDiscards 405 = true
      ∧ mapIndex Mailchimp.statusForceDiscards 414 = true
      ∧ mapIndex Mailchimp.statusForceDiscards 422 = true
      ∧ mapIndex Mailchimp.statusForceDiscards 401 = false
      ∧ mapIndex Mailchimp.statusForceDiscards 403 = false
      ∧ mapIndex Mailchimp.statusForceDiscards 404 = false
      ∧ mapIndex Mailchimp.statusForceDiscards 429 = false
      ∧ mapIndex Mailchimp.statusForceDiscards 500 = false
      ∧ mapIndex Mailchimp.statusForceDiscards 503 = false)
    ∧ Amplitude.statusForceDiscards.map Prod.fst = [400, 413, 422, 429, 500, 502, 503, 504]
    ∧ Mailchimp.statusForceDiscards.map Prod.fst
        = [400, 401, 403, 404, 405, 414, 422, 429, 500, 503] := by
  decide

/-- C3: a status code that is not a key of a destination's table is classified
retryable, and in amplitude `Page.Load` and mailchimp `Identify.Load` the
outcome for a response with such a status `s ≥ 300` carries `s` and the body
with `ForceDiscard = false`. -/
theorem unlisted_status_is_retryable (s : Int) :
    (s ∉ Amplitude.statusForceDiscards.map Prod.fst →
      mapIndex Amplitude.statusForceDiscards s = false)
    ∧ (s ∉ Mailchimp.statusForceDiscards.map Prod.fst →
      mapIndex Mailchimp.statusForceDiscards s = false)
    ∧ (∀ (env : Amplitude.Options) (codec : Amplitude.Codec) (client : Client)
        (q : Store.Queue) (k : Nat) (hk : k < q.pairs.length) (body : String),
        s ∉ Amplitude.statusForceDiscards.map Prod.fst → s ≥ 300 →
        client ((Amplitude.Page.Load env codec client q).calls.take k)
          (Amplitude.Page.request env codec (q.pairs[k]).2)
          = .ok { StatusCode := s, Body := body } →
        ∃ th, (Amplitude.Page.Load env codec client q).thens[k]? = some th
          ∧ th.Jobs = [(q.pairs[k]).2.ID]
          ∧ th.Error = some (.blacksmith { StatusCode := s, Message := body })
          ∧ th.ForceDiscard = false)
    ∧ (∀ (env : Mailchimp.Options) (std : Std) (codec : Mailchimp.Codec) (client : Client)
        (q : Store.Queue) (k : Nat) (hk : k < q.pairs.length) (body : String),
        (∀ d : Mailchimp.Signup, std.urlParse (Mailchimp.Identify.url env std d) = true) →
        s ∉ Mailchimp.statusForceDiscards.map Prod.fst → s ≥ 300 →
        client ((Mailchimp.Identify.Load env std codec client q).calls.take k)
          (Mailchimp.Identify.request env std codec (q.pairs[k]).2)
          = .ok { StatusCode := s, Body := body } →
        ∃ th, (Mailchimp.Identify.Load env std codec client q).thens[k]? = some th
          ∧ th.Jobs = [(q.pairs[k]).2.ID]
          ∧ th.Error = some (.blacksmith { StatusCode := s, Message := body })
          ∧ th.ForceDiscard = false) := by
  refine ⟨mapIndex_of_not_key _ s, mapIndex_of_not_key _ s, ?_, ?_⟩
  · intro env codec client q k hk body hkey hs hres
    obtain ⟨call, th, -, hth, hreq, hjobs, -, -, hge, -⟩ :=
      (Amplitude.Page.Load_page_steps env codec client q).2.at k hk
    simp only [List.nil_append] at hge
    subst hreq
    have h := hge _ hres hs
    exact ⟨th, hth, hjobs, h.1, by rw [h.2]; exact mapIndex_of_not_key _ s hkey⟩
  · intro env std codec client q k hk body hurl hkey hs hres
    obtain ⟨call, th, -, hth, hreq, hjobs, -, -, hge, -⟩ :=
      (Mailchimp.Identify.Load_identify_steps env std codec client q hurl).2.at k hk
    simp only [List.nil_append] at hge
    subst hreq
    have h := hge _ hres hs
    exact ⟨th, hth, hjobs, h.1, by rw [h.2]; exact mapIndex_of_not_key _ s hkey⟩

/-- Instance of C3: status 418, which neither table lists. -/
theorem unlisted_status_is_retryable_witness :
    mapIndex Amplitude.statusForceDiscards 418 = false
    ∧ mapIndex Mailchimp.statusForceDiscards 418 = false
    ∧ (∃ th, (Amplitude.Page.Load {} Amplitude.Codec.blank (Client.always 418 "teapot")
          (Store.Queue.single "j1")).thens[0]? = some th
        ∧ th.Jobs = [((Store.Queue.single "j1").pairs[0]).2.ID]
        ∧ th.Error = some (.blacksmith { StatusCode := 418, Message := "teapot" })
        ∧ th.ForceDiscard = false)
    ∧ (∃ th, (Mailchimp.Identify.Load {} Std.blank Mailchimp.Codec.blank
          (Client.always 418 "teapot") (Store.Queue.single "j1")).thens[0]? = some th
        ∧ th.Jobs = [((Store.Queue.single "j1").pairs[0]).2.ID]
        ∧ th.Error = some (.blacksmith { StatusCode := 418, Message := "teapot" })
        ∧ th.ForceDiscard = false) :=
  ⟨(unlisted_status_is_retryable 418).1 (by decide),
   (unlisted_status_is_retryable 418).2.1 (by decide),
   (unlisted_status_is_retryable 418).2.2.1 {} Amplitude.Codec.blank
      (Client.always 418 "teapot") (Store.Queue.single "j1") 0 (by decide) "teapot"
      (by decide) (by decide) rfl,
   (unlisted_status_is_retryable 418).2.2.2 {} Std.blank Mailchimp.Codec.blank
      (Client.always 418 "teapot") (Store.Queue.single "j1") 0 (by decide) "teapot"
      (fun _ => rfl) (by decide) (by decide) rfl⟩

/-- C4: in segment `Alias.Load`, the outcome for a response with status
`s ≥ 300` carries `s` and the body, and has `ForceDiscard = true` if and only
if `s = 400`. -/
theorem Segment.Alias.Load_discards_only_400 (env : Segment.Options) (std : Std)
    (codec : Segment.Codec) (client : Client) (q : Store.Queue) (k : Nat)
    (hk : k < q.pairs.length) (res : Response)
    (hres : client ((Segment.Alias.Load env std codec client q).calls.take k)
      (Segment.Alias.request env std codec (q.pairs[k]).2) = .ok res)
    (hs : res.StatusCode ≥ 300) :
    ∃ th, (Segment.Alias.Load env std codec client q).thens[k]? = some th
      ∧ (Segment.Alias.Load env std codec client q).calls[k]?
          = some (Segment.Alias.request env std codec (q.pairs[k]).2)
      ∧ th.Jobs = [(q.pairs[k]).2.ID]
      ∧ th.Error = some (.blacksmith { StatusCode := res.StatusCode, Message := res.Body })
      ∧ (th.ForceDiscard = true ↔ res.StatusCode = 400) := by
  obtain ⟨call, th, hcall, hth, hreq, hjobs, -, -, hge, -⟩ :=
    (Segment.Alias.Load_alias_steps env std codec client q).2.at k hk
  simp only [List.nil_append] at hge
  subst hreq
  have h := hge _ hres hs
  exact ⟨th, hth, hcall, hjobs, h.1, by rw [h.2]; simp⟩

/-- Instance of C4: a one-job batch answered with status 503. -/
theorem Segment.Alias.Load_discards_only_400_witness :
    ∃ th, (Segment.Alias.Load {} Std.blank Segment.Codec.blank (Client.always 503 "busy")
          (Store.Queue.single "j1")).thens[0]? = some th
      ∧ (Segment.Alias.Load {} Std.blank Segment.Codec.blank (Client.always 503 "busy")
          (Store.Queue.single "j1")).calls[0]?
          = some (Segment.Alias.request {} Std.blank Segment.Codec.blank
              ((Store.Queue.single "j1").pairs[0]).2)
      ∧ th.Jobs = [((Store.Queue.single "j1").pairs[0]).2.ID]
      ∧ th.Error = some (.blacksmith { StatusCode := 503, Message := "busy" })
      ∧ (th.ForceDiscard = true ↔ (503 : Int) = 400) :=
  Segment.Alias.Load_discards_only_400 {} Std.blank Segment.Codec.blank
    (Client.always 503 "busy") (Store.Queue.single "j1") 0 (by decide)
    { StatusCode := 503, Body := "busy" } rfl (by decide)

theorem HttpOutcome.call_and_jobs {client : Client} {request : Store.Job → HttpCall}
    {td : Bool} {classify : Int → Bool} (ev : Store.Event) (job : Store.Job)
    (h : List HttpCall) (call : HttpCall) (th : Then)
    (hR : HttpOutcome client request td classify ev job h call th) :
    call = request job ∧ th.Jobs = [job.ID] :=
  ⟨hR.1, hR.2.1⟩

/-- C5: for every batch and every client, amplitude `Page.Load`, mailchimp
`Identify.Load` (with configured identifiers that form a well-formed URL) and
segment `Alias.Load` run to the end, make exactly the one request of each job,
in batch order, and send exactly one outcome per job: the number of outcomes
is the sum of the job counts and the `k`-th outcome names the `k`-th job. -/
theorem Load_one_request_one_outcome_per_job (client : Client) (q : Store.Queue) :
    (∀ (env : Amplitude.Options) (codec : Amplitude.Codec),
      (Amplitude.Page.Load env codec client q).panicked = false
      ∧ (Amplitude.Page.Load env codec client q).calls
          = q.pairs.map (fun p => Amplitude.Page.request env codec p.2)
      ∧ (Amplitude.Page.Load env codec client q).calls.length
          = (q.Events.map (fun ev => ev.Jobs.length)).sum
      ∧ (Amplitude.Page.Load env codec client q).thens.length
          = (q.Events.map (fun ev => ev.Jobs.length)).sum
      ∧ (Amplitude.Page.Load env codec client q).thens.map (fun th => th.Jobs)
          = q.pairs.map (fun p => [p.2.ID]))
    ∧ (∀ (env : Mailchimp.Options) (std : Std) (codec : Mailchimp.Codec),
      (∀ d : Mailchimp.Signup, std.urlParse (Mailchimp.Identify.url env std d) = true) →
      (Mailchimp.Identify.Load env std codec client q).panicked = false
      ∧ (Mailchimp.Identify.Load env std codec client q).calls
          = q.pairs.map (fun p => Mailchimp.Identify.request env std codec p.2)
      ∧ (Mailchimp.Identify.Load env std codec client q).calls.length
          = (q.Events.map (fun ev => ev.Jobs.length)).sum
      ∧ (Mailchimp.Identify.Load env std codec client q).thens.length
          = (q.Events.map (fun ev => ev.Jobs.length)).sum
      ∧ (Mailchimp.Identify.Load env std codec client q).thens.map (fun th => th.Jobs)
          = q.pairs.map (fun p => [p.2.ID]))
    ∧ (∀ (env : Segment.Options) (std : Std) (codec : Segment.Codec),
      (Segment.Alias.Load env std codec client q).panicked = false
      ∧ (Segment.Alias.Load env std codec client q).calls
          = q.pairs.map (fun p => Segment.Alias.request env std codec p.2)
      ∧ (Segment.Alias.Load env std codec client q).calls.length
          = (q.Events.map (fun ev => ev.Jobs.length)).sum
      ∧ (Segment.Alias.Load env std codec client q).thens.length
          = (q.Events.map (fun ev => ev.Jobs.length)).sum
      ∧ (Segment.Alias.Load env std codec client q).thens.map (fun th => th.Jobs)
          = q.pairs.map (fun p => [p.2.ID])) := by
  refine ⟨?_, ?_, ?_⟩
  · intro env codec
    obtain ⟨hp, hs⟩ := Amplitude.Page.Load_page_steps env codec client q
    have hl := hs.lengths
    have he := hs.calls_eq _ HttpOutcome.call_and_jobs
    exact ⟨hp, he.1, by rw [hl.1, Store.Queue.pairs_length],
      by rw [hl.2, Store.Queue.pairs_length], he.2⟩
  · intro env std codec hurl
    obtain ⟨hp, hs⟩ := Mailchimp.Identify.Load_identify_steps env std codec client q hurl
    have hl := hs.lengths
    have he := hs.calls_eq _ HttpOutcome.call_and_jobs
    exact ⟨hp, he.1, by rw [hl.1, Store.Queue.pairs_length],
      by rw [hl.2, Store.Queue.pairs_length], he.2⟩
  · intro env std codec
    obtain ⟨hp, hs⟩ := Segment.Alias.Load_alias_steps env std codec client q
    have hl := hs.lengths
    have he := hs.calls_eq _ HttpOutcome.call_and_jobs
    exact ⟨hp, he.1, by rw [hl.1, Store.Queue.pairs_length],
      by rw [hl.2, Store.Queue.pairs_length], he.2⟩

/-- Instance of C5: mailchimp `Identify.Load` on a batch of three jobs in two
events, every request answered with 429. -/
theorem Load_one_request_one_outcome_per_job_witness :
    (Mailchimp.Identify.Load {} Std.blank Mailchimp.Codec.blank (Client.always 429 "")
        Store.Queue.three).panicked = false
      ∧ (Mailchimp.Identify.Load {} Std.blank Mailchimp.Codec.blank (Client.always 429 "")
          Store.Queue.three).calls
          = Store.Queue.three.pairs.map
              (fun p => Mailchimp.Identify.request {} Std.blank Mailchimp.Codec.blank p.2)
      ∧ (Mailchimp.Identify.Load {} Std.blank Mailchimp.Codec.blank (Client.always 429 "")
          Store.Queue.three).calls.length
          = (Store.Queue.three.Events.map (fun ev => ev.Jobs.length)).sum
      ∧ (Mailchimp.Identify.Load {} Std.blank Mailchimp.Codec.blank (Client.always 429 "")
          Store.Queue.three).thens.length
          = (Store.Queue.three.Events.map (fun ev => ev.Jobs.length)).sum
      ∧ (Mailchimp.Identify.Load {} Std.blank Mailchimp.Codec.blank (Client.always 429 "")
          Store.Queue.three).thens.map (fun th => th.Jobs)
          = Store.Queue.three.pairs.map (fun p => [p.2.ID]) :=
  (Load_one_request_one_outcome_per_job (Client.always 429 "") Store.Queue.three).2.1
    {} Std.blank Mailchimp.Codec.blank (fun _ => rfl)

theorem foldl_panicked {κ : Type} (body : Store.Event → Store.Job → Run κ → Run κ)
    (ps : List (Store.Event × Store.Job)) (t : Run κ) (ht : t.panicked = true) :
    ps.foldl (fun t p => if t.panicked then t else body p.1 p.2 t) t = t := by
  induction ps with
  | nil => rfl
  | cons p ps ih => simp only [List.foldl_cons, ht, if_true]; exact ih

theorem forEachJob_invariant {κ : Type} (P : Run κ → Prop)
    (body : Store.Event → Store.Job → Run κ → Run κ)
    (hstep : ∀ ev job t, P t → P (body ev job t)) (q : Store.Queue) (t : Run κ) (h0 : P t) :
    P (forEachJob body q t) := by
  rw [forEachJob_eq_foldl]
  generalize q.pairs = ps
  induction ps generalizing t with
  | nil => exact h0
  | cons p ps ih =>
    simp only [List.foldl_cons]
    apply ih
    split
    · exact h0
    · exact hstep _ _ _ h0

theorem foldl_steps_until_panic
    {R : Store.Event → Store.Job → List HttpCall → HttpCall → Then → Prop}
    {body : Store.Event → Store.Job → Trace → Trace}
    (ps : List (Store.Event × Store.Job))
    (hbody : ∀ p ∈ ps, ∀ t : Trace, t.panicked = false →
      (∃ call th,
        body p.1 p.2 t = { thens := t.thens ++ [th], calls := t.calls ++ [call], panicked := false }
          ∧ R p.1 p.2 t.calls call th)
      ∨ (∃ extra,
        body p.1 p.2 t = { thens := t.thens, calls := t.calls ++ extra, panicked := true }))
    (t : Trace) (ht : t.panicked = false) :
    ∃ n cs ths extra b, ps.foldl (fun t p => if t.panicked then t else body p.1 p.2 t) t
        = { thens := t.thens ++ ths, calls := t.calls ++ (cs ++ extra), panicked := b }
      ∧ n ≤ ps.length ∧ Steps R t.calls (ps.take n) cs ths
      ∧ (b = false → n = ps.length ∧ extra = []) := by
  induction ps generalizing t with
  | nil =>
    refine ⟨0, [], [], [], false, ?_, le_refl _, Steps.nil _, fun _ => ⟨rfl, rfl⟩⟩
    cases t; simp_all
  | cons p ps ih =>
    rcases hbody p (List.mem_cons_self _ _) t ht with ⟨call, th, hb, hR⟩ | ⟨extra, hb⟩
    · obtain ⟨n, cs, ths, extra, b, hfold, hn, hsteps, hfin⟩ :=
        ih (fun p' hp' => hbody p' (List.mem_cons_of_mem _ hp')) (body p.1 p.2 t) (by rw [hb])
      refine ⟨n + 1, call :: cs, th :: ths, extra, b, ?_, by simpa using hn, ?_, ?_⟩
      · simp only [List.foldl_cons, ht, Bool.false_eq_true, if_false]
        rw [hfold, hb]; simp
      · obtain ⟨ev, job⟩ := p
        rw [hb] at hsteps
        simpa using Steps.cons hR hsteps
      · intro hb'
        obtain ⟨h1, h2⟩ := hfin hb'
        exact ⟨by simp [h1], h2⟩
    · refine ⟨0, [], [], extra, true, ?_, Nat.zero_le _, by simpa using Steps.nil _, by simp⟩
      simp only [List.foldl_cons, ht, Bool.false_eq_true, if_false]
      rw [foldl_panicked _ _ _ (by rw [hb]), hb]; simp

theorem Amplitude.Group.loadJob_group_spec (env : Amplitude.Options) (codec : Amplitude.Codec)
    (client : Client) (ev : Store.Event) (job : Store.Job) (t : Trace)
    (ht : t.panicked = false) :
    (∃ call th, Amplitude.Group.loadJob env codec client ev job t
        = { thens := t.thens ++ [th], calls := t.calls ++ [call], panicked := false }
      ∧ Amplitude.GroupOutcome env codec client ev job t.calls call th)
    ∨ (∃ extra, Amplitude.Group.loadJob env codec client ev job t
        = { thens := t.thens, calls := t.calls ++ extra, panicked := true }) := by
  cases hc : client t.calls (Amplitude.Group.request env codec job) with
  | error err =>
    refine Or.inl ⟨Amplitude.Group.request env codec job,
      { Jobs := [job.ID], ForceDiscard := true,
        Error := some (.blacksmith { StatusCode := 500, Message := err }) }, ?_, ?_⟩
    · simp only [Amplitude.Group.loadJob, hc, Run.send, Run.call, ht]
    · simp [Amplitude.GroupOutcome, hc]
  | ok res =>
    by_cases hs : res.StatusCode ≥ 300
    · refine Or.inl ⟨Amplitude.Group.request env codec job,
        { Jobs := [job.ID],
          ForceDiscard := mapIndex Amplitude.statusForceDiscards res.StatusCode,
          Error := some (.blacksmith { StatusCode := res.StatusCode, Message := res.Body }) },
        ?_, ?_⟩
      · simp only [Amplitude.Group.loadJob, hc, hs, if_true, Run.send, Run.call, ht]
      · refine ⟨rfl, rfl, ?_, ?_, ?_⟩
        · intro e he; rw [hc] at he; cases he
        · intro r hr _; rw [hc] at hr; cases hr; exact ⟨rfl, rfl, rfl⟩
        · intro r hr hlt; rw [hc] at hr; cases hr; omega
    · cases hd : (codec.group.Unmarshal job.Data).1.Identification with
      | nil =>
        refine Or.inr ⟨[Amplitude.Group.request env codec job], ?_⟩
        simp only [Amplitude.Group.loadJob, hc, hs, if_false, hd, Run.panic, Run.call]
      | cons first rest =>
        refine Or.inl ⟨Amplitude.Group.request env codec job,
          { Jobs := [job.ID], Error := none,
            OnSucceeded :=
              [Amplitude.Group.cascade ev (codec.context.Unmarshal job.Context).1 first] },
          ?_, ?_⟩
        · simp only [Amplitude.Group.loadJob, hc, hs, if_false, hd, Run.send, Run.call, ht]
        · refine ⟨rfl, rfl, ?_, ?_, ?_⟩
          · intro e he; rw [hc] at he; cases he
          · intro r hr hge; rw [hc] at hr; cases hr; omega
          · intro r hr _; exact ⟨rfl, rfl, first, rest, hd, rfl⟩

theorem Amplitude.Group.Load_group_steps (env : Amplitude.Options) (codec : Amplitude.Codec)
    (client : Client) (q : Store.Queue) :
    ∃ n cs ths extra, (Amplitude.Group.Load env codec client q).thens = ths
      ∧ (Amplitude.Group.Load env codec client q).calls = cs ++ extra
      ∧ n ≤ q.pairs.length
      ∧ Steps (Amplitude.GroupOutcome env codec client) [] (q.pairs.take n) cs ths
      ∧ ((Amplitude.Group.Load env codec client q).panicked = false →
          n = q.pairs.length ∧ extra = []) := by
  obtain ⟨n, cs, ths, extra, b, hfold, hn, hsteps, hfin⟩ :=
    foldl_steps_until_panic (R := Amplitude.GroupOutcome env codec client) q.pairs
      (fun p _ t ht => Amplitude.Group.loadJob_group_spec env codec client p.1 p.2 t ht) {} rfl
  refine ⟨n, cs, ths, extra, ?_, ?_, hn, by simpa using hsteps, ?_⟩
  · unfold Amplitude.Group.Load; rw [forEachJob_eq_foldl, hfold]; simp
  · unfold Amplitude.Group.Load; rw [forEachJob_eq_foldl, hfold]; simp
  · unfold Amplitude.Group.Load; rw [forEachJob_eq_foldl, hfold]; exact hfin

/-- C6 (refuted on the code): on a batch of three jobs whose payloads decode to
an empty identification list, with every request answered 200, amplitude
`Group.Load` makes the first job's request and then panics on
`d.Identification[0]`: it stops with no outcome sent for any of the three
jobs. -/
theorem Amplitude.Group.Load_panics_on_empty_identification :
    Store.Queue.three.pairs.length = 3
    ∧ (∀ job : Store.Job, (Amplitude.Codec.blank.group.Unmarshal job.Data).1.Identification = [])
    ∧ (Amplitude.Group.Load {} Amplitude.Codec.blank (Client.always 200 "")
        Store.Queue.three).panicked = true
    ∧ (Amplitude.Group.Load {} Amplitude.Codec.blank (Client.always 200 "")
        Store.Queue.three).thens.length = 0
    ∧ (Amplitude.Group.Load {} Amplitude.Codec.blank (Client.always 200 "")
        Store.Queue.three).calls.length = 1 :=
  ⟨rfl, fun _ => rfl, rfl, rfl, rfl⟩

/-- C7: when the `k`-th outcome `th` of amplitude `Group.Load` is for a job
whose request the client answered with a status `< 300`, the job has a first
identification and `th.OnSucceeded` is exactly one `Track` action holding
exactly one event, named `"Group"`, whose `UserId` is that identification's,
whose `Time` is the event's `ReceivedAt` in Unix seconds, and whose device,
carrier, location and IP fields are those of the job's decoded context. -/
theorem Amplitude.Group.Load_success_cascade (env : Amplitude.Options)
    (codec : Amplitude.Codec) (client : Client) (q : Store.Queue) (k : Nat)
    (ev : Store.Event) (job : Store.Job) (th : Then) (res : Response)
    (hp : q.pairs[k]? = some (ev, job))
    (hth : (Amplitude.Group.Load env codec client q).thens[k]? = some th)
    (hres : client ((Amplitude.Group.Load env codec client q).calls.take k)
      (Amplitude.Group.request env codec job) = .ok res)
    (hs : res.StatusCode < 300) :
    th.Jobs = [job.ID] ∧ th.Error = none ∧ th.ForceDiscard = false
    ∧ ∃ first rest e,
        (codec.group.Unmarshal job.Data).1.Identification = first :: rest
        ∧ th.OnSucceeded = [Action.amplitudeTrack { APIKey := "", Events := [e] }]
        ∧ e.Event = "Group"
        ∧ e.UserId = first.UserId
        ∧ e.Time = ev.ReceivedAt.Unix
        ∧ e.DeviceId = (codec.context.Unmarshal job.Context).1.Device.Id
        ∧ e.DeviceBrand = (codec.context.Unmarshal job.Context).1.Device.Name
        ∧ e.DeviceManufacturer = (codec.context.Unmarshal job.Context).1.Device.Manufacturer
        ∧ e.DeviceModel = (codec.context.Unmarshal job.Context).1.Device.Model
        ∧ e.Carrier = (codec.context.Unmarshal job.Context).1.Network.Carrier
        ∧ e.Country = (codec.context.Unmarshal job.Context).1.Location.Country
        ∧ e.Region = (codec.context.Unmarshal job.Context).1.Location.Region
        ∧ e.City = (codec.context.Unmarshal job.Context).1.Location.City
        ∧ e.Latitude = (codec.context.Unmarshal job.Context).1.Location.Latitude
        ∧ e.Longitude = (codec.context.Unmarshal job.Context).1.Location.Longitude
        ∧ e.IP = (codec.context.Unmarshal job.Context).1.IP
        ∧ e.Context = some (codec.context.Unmarshal job.Context).1 := by
  obtain ⟨n, cs, ths, extra, hthens, hcalls, hn, hsteps, -⟩ :=
    Amplitude.Group.Load_group_steps env codec client q
  have hl := hsteps.lengths
  rw [hthens] at hth
  have hkn : k < (q.pairs.take n).length := by
    rw [← hl.2]
    exact (List.getElem?_eq_some_iff.mp hth).1
  obtain ⟨call, th', hcall, hth', hR⟩ := hsteps.at k hkn
  rw [hth] at hth'
  cases hth'
  have hpk : (q.pairs.take n)[k] = (ev, job) := by
    have h1 : (q.pairs.take n)[k]? = some (ev, job) := by
      rw [List.getElem?_take]
      have : k < n := by simpa using (lt_of_lt_of_le hkn (List.length_take_le _ _))
      simp [this, hp]
    exact (List.getElem?_eq_some_iff.mp h1).2
  rw [hpk] at hR
  obtain ⟨hreq, hjobs, -, -, hok⟩ := hR
  subst hreq
  have htake : (Amplitude.Group.Load env codec client q).calls.take k = cs.take k := by
    rw [hcalls, List.take_append_of_le_length]
    rw [hl.1]; exact le_of_lt hkn
  rw [htake] at hres
  simp only [List.nil_append] at hok
  obtain ⟨herr, hfd, first, rest, hid, hon⟩ := hok res hres hs
  refine ⟨hjobs, herr, hfd, first, rest, _, hid, hon, ?_⟩
  simp

/-- Instance of C7: a one-job batch whose payload decodes to one
identification, answered 200. -/
theorem Amplitude.Group.Load_success_cascade_witness :
    ∃ th, (Amplitude.Group.Load {} Amplitude.Codec.member (Client.always 200 "")
        (Store.Queue.single "j1")).thens[0]? = some th
    ∧ th.Jobs = ["j1"] ∧ th.Error = none ∧ th.ForceDiscard = false
    ∧ ∃ first rest e,
        (Amplitude.Codec.member.group.Unmarshal []).1.Identification = first :: rest
        ∧ th.OnSucceeded = [Action.amplitudeTrack { APIKey := "", Events := [e] }]
        ∧ e.Event = "Group"
        ∧ e.UserId = first.UserId
        ∧ e.Time = (0 : Int)
        ∧ e.DeviceId = "d1"
        ∧ e.DeviceBrand = "phone"
        ∧ e.DeviceManufacturer = "acme"
        ∧ e.DeviceModel = "m1"
        ∧ e.Carrier = "telco"
        ∧ e.Country = "FR"
        ∧ e.Region = "IDF"
        ∧ e.City = "Paris"
        ∧ e.Latitude = { bits := 1 }
        ∧ e.Longitude = { bits := 2 }
        ∧ e.IP = [127, 0, 0, 1]
        ∧ e.Context = some (Amplitude.Codec.member.context.Unmarshal []).1 :=
  ⟨_, rfl,
    Amplitude.Group.Load_success_cascade {} Amplitude.Codec.member (Client.always 200 "")
      (Store.Queue.single "j1") 0 { Jobs := [{ ID := "j1" }] } { ID := "j1" } _
      { StatusCode := 200, Body := "" } rfl rfl rfl (by decide)⟩

theorem Run.send_thens {κ : Type} (P : Then → Prop) (t : Run κ) (v : Then)
    (ht : ∀ th ∈ t.thens, P th) (hv : P v) : ∀ th ∈ (t.send v).thens, P th := by
  intro th hth
  simp only [Run.send, List.mem_append, List.mem_singleton] at hth
  rcases hth with h | h
  · exact ht th h
  · rw [h]; exact hv

theorem Amplitude.Page.loadJob_page_no_cascade (env : Amplitude.Options) (codec : Amplitude.Codec)
    (client : Client) (ev : Store.Event) (job : Store.Job) (t : Trace)
    (ht : ∀ th ∈ t.thens, th.OnSucceeded = []) :
    ∀ th ∈ (Amplitude.Page.loadJob env codec client ev job t).thens, th.OnSucceeded = [] := by
  unfold Amplitude.Page.loadJob
  dsimp only
  split
  · exact Run.send_thens _ _ _ ht rfl
  · split
    · exact Run.send_thens _ _ _ ht rfl
    · exact Run.send_thens _ _ _ ht rfl

theorem Mailchimp.Identify.loadJob_identify_no_cascade (env : Mailchimp.Options) (std : Std)
    (codec : Mailchimp.Codec) (client : Client) (ev : Store.Event) (job : Store.Job)
    (t : Trace) (ht : ∀ th ∈ t.thens, th.OnSucceeded = []) :
    ∀ th ∈ (Mailchimp.Identify.loadJob env std codec client ev job t).thens,
      th.OnSucceeded = [] := by
  unfold Mailchimp.Identify.loadJob
  dsimp only
  split
  · exact ht
  · split
    · exact Run.send_thens _ _ _ ht rfl
    · split
      · exact Run.send_thens _ _ _ ht rfl
      · exact Run.send_thens _ _ _ ht rfl

theorem Segment.Alias.loadJob_alias_no_cascade (env : Segment.Options) (std : Std)
    (codec : Segment.Codec) (client : Client) (ev : Store.Event) (job : Store.Job)
    (t : Trace) (ht : ∀ th ∈ t.thens, th.OnSucceeded = []) :
    ∀ th ∈ (Segment.Alias.loadJob env std codec client ev job t).thens,
      th.OnSucceeded = [] := by
  unfold Segment.Alias.loadJob
  dsimp only
  split
  · exact Run.send_thens _ _ _ ht rfl
  · split
    · exact Run.send_thens _ _ _ ht rfl
    · exact Run.send_thens _ _ _ ht rfl

theorem Blob.Write.loadJob_write_no_cascade (json : Json Blob.Write) (bucket : Blob.Bucket)
    (ev : Store.Event) (job : Store.Job) (t : Run Blob.Call)
    (ht : ∀ th ∈ t.thens, th.OnSucceeded = []) :
    ∀ th ∈ (Blob.Write.loadJob json bucket ev job t).thens, th.OnSucceeded = [] := by
  unfold Blob.Write.loadJob
  dsimp only
  split
  · exact Run.send_thens _ _ _ ht rfl
  · split
    · exact Run.send_thens _ _ _ ht rfl
    · exact Run.send_thens _ _ _ ht rfl

theorem Docstore.Put.loadJob_put_no_cascade (json : Json Docstore.Put)
    (collection : Docstore.Collection) (ev : Store.Event) (job : Store.Job)
    (t : Run Docstore.Call) (ht : ∀ th ∈ t.thens, th.OnSucceeded = []) :
    ∀ th ∈ (Docstore.Put.loadJob json collection ev job t).thens, th.OnSucceeded = [] := by
  unfold Docstore.Put.loadJob
  dsimp only
  split
  · exact Run.send_thens _ _ _ ht rfl
  · exact Run.send_thens _ _ _ ht rfl

theorem Topic.Publish.loadJob_publish_no_cascade (json : Json Topic.Publish) (topic : Topic.Broker)
    (ev : Store.Event) (job : Store.Job) (t : Run Topic.Call)
    (ht : ∀ th ∈ t.thens, th.OnSucceeded = []) :
    ∀ th ∈ (Topic.Publish.loadJob json topic ev job t).thens, th.OnSucceeded = [] := by
  unfold Topic.Publish.loadJob
  dsimp only
  split
  · exact Run.send_thens _ _ _ ht rfl
  · exact Run.send_thens _ _ _ ht rfl

theorem Sqlike.RunOperation.loadJob_operation_no_cascade (json : Json Sqlike.RunOperation)
    (wh : Sqlike.Warehouse) (ev : Store.Event) (job : Store.Job) (t : Run Sqlike.WhCall)
    (ht : ∀ th ∈ t.thens, th.OnSucceeded = []) :
    ∀ th ∈ (Sqlike.RunOperation.loadJob json wh ev job t).thens, th.OnSucceeded = [] := by
  unfold Sqlike.RunOperation.loadJob
  dsimp only
  split
  · exact Run.send_thens _ _ _ ht rfl
  · split
    · exact Run.send_thens _ _ _ ht rfl
    · exact Run.send_thens _ _ _ ht rfl

theorem Amplitude.Group.loadJob_cascade_on_success (env : Amplitude.Options)
    (codec : Amplitude.Codec) (client : Client) (ev : Store.Event) (job : Store.Job)
    (t : Trace)
    (ht : ∀ th ∈ t.thens, th.OnSucceeded ≠ [] → th.Error = none ∧ th.ForceDiscard = false) :
    ∀ th ∈ (Amplitude.Group.loadJob env codec client ev job t).thens,
      th.OnSucceeded ≠ [] → th.Error = none ∧ th.ForceDiscard = false := by
  unfold Amplitude.Group.loadJob
  dsimp only
  split
  · exact Run.send_thens _ _ _ ht (fun h => absurd rfl h)
  · split
    · exact Run.send_thens _ _ _ ht (fun h => absurd rfl h)
    · split
      · exact ht
      · exact Run.send_thens _ _ _ ht (fun _ => ⟨rfl, rfl⟩)

theorem Sqlike.RunStatements.Load_thens (json : Json Sqlike.RunStatements) (db : Sqlike.DB)
    (q : Store.Queue) :
    ∃ err discard, (Sqlike.RunStatements.Load json db q).thens
      = [{ Jobs := [], Error := err, ForceDiscard := discard, OnSucceeded := [] }] := by
  unfold Sqlike.RunStatements.Load
  split
  · exact ⟨_, _, rfl⟩
  · exact ⟨_, _, rfl⟩

/-- C8: every outcome with a non-empty `OnSucceeded` list has `Error = nil` and
`ForceDiscard = false`: this holds of every outcome amplitude `Group.Load`
sends, and the outcomes of `Page`, mailchimp `Identify`, segment `Alias`,
`Write`, `Put`, `Publish`, `RunOperation` and `RunStatements` all have an
empty `OnSucceeded` list. -/
theorem cascade_only_on_success (q : Store.Queue) :
    (∀ (env : Amplitude.Options) (codec : Amplitude.Codec) (client : Client),
      ∀ th ∈ (Amplitude.Group.Load env codec client q).thens,
        th.OnSucceeded ≠ [] → th.Error = none ∧ th.ForceDiscard = false)
    ∧ (∀ (env : Amplitude.Options) (codec : Amplitude.Codec) (client : Client),
      ∀ th ∈ (Amplitude.Page.Load env codec client q).thens, th.OnSucceeded = [])
    ∧ (∀ (env : Mailchimp.Options) (std : Std) (codec : Mailchimp.Codec) (client : Client),
      ∀ th ∈ (Mailchimp.Identify.Load env std codec client q).thens, th.OnSucceeded = [])
    ∧ (∀ (env : Segment.Options) (std : Std) (codec : Segment.Codec) (client : Client),
      ∀ th ∈ (Segment.Alias.Load env std codec client q).thens, th.OnSucceeded = [])
    ∧ (∀ (json : Json Blob.Write) (bucket : Blob.Bucket),
      ∀ th ∈ (Blob.Write.Load json bucket q).thens, th.OnSucceeded = [])
    ∧ (∀ (json : Json Docstore.Put) (collection : Docstore.Collection),
      ∀ th ∈ (Docstore.Put.Load json collection q).thens, th.OnSucceeded = [])
    ∧ (∀ (json : Json Topic.Publish) (topic : Topic.Broker),
      ∀ th ∈ (Topic.Publish.Load json topic q).thens, th.OnSucceeded = [])
    ∧ (∀ (json : Json Sqlike.RunOperation) (wh : Sqlike.Warehouse),
      ∀ th ∈ (Sqlike.RunOperation.Load json wh q).thens, th.OnSucceeded = [])
    ∧ (∀ (json : Json Sqlike.RunStatements) (db : Sqlike.DB),
      ∀ th ∈ (Sqlike.RunStatements.Load json db q).thens, th.OnSucceeded = []) := by
  refine ⟨?_, ?_, ?_, ?_, ?_, ?_, ?_, ?_, ?_⟩
  · intro env codec client
    exact forEachJob_invariant
      (fun t => ∀ th ∈ t.thens, th.OnSucceeded ≠ [] → th.Error = none ∧ th.ForceDiscard = false)
      _ (Amplitude.Group.loadJob_cascade_on_success env codec client) q {} (by simp)
  · intro env codec client
    exact forEachJob_invariant (fun t => ∀ th ∈ t.thens, th.OnSucceeded = [])
      _ (Amplitude.Page.loadJob_page_no_cascade env codec client) q {} (by simp)
  · intro env std codec client
    exact forEachJob_invariant (fun t => ∀ th ∈ t.thens, th.OnSucceeded = [])
      _ (Mailchimp.Identify.loadJob_identify_no_cascade env std codec client) q {} (by simp)
  · intro env std codec client
    exact forEachJob_invariant (fun t => ∀ th ∈ t.thens, th.OnSucceeded = [])
      _ (Segment.Alias.loadJob_alias_no_cascade env std codec client) q {} (by simp)
  · intro json bucket
    exact forEachJob_invariant (fun t => ∀ th ∈ t.thens, th.OnSucceeded = [])
      _ (Blob.Write.loadJob_write_no_cascade json bucket) q {} (by simp)
  · intro json collection
    exact forEachJob_invariant (fun t => ∀ th ∈ t.thens, th.OnSucceeded = [])
      _ (Docstore.Put.loadJob_put_no_cascade json collection) q {} (by simp)
  · intro json topic
    exact forEachJob_invariant (fun t => ∀ th ∈ t.thens, th.OnSucceeded = [])
      _ (Topic.Publish.loadJob_publish_no_cascade json topic) q {} (by simp)
  · intro json wh
    exact forEachJob_invariant (fun t => ∀ th ∈ t.thens, th.OnSucceeded = [])
      _ (Sqlike.RunOperation.loadJob_operation_no_cascade json wh) q {} (by simp)
  · intro json db th hth
    obtain ⟨err, discard, h⟩ := Sqlike.RunStatements.Load_thens json db q
    rw [h] at hth
    simp only [List.mem_singleton] at hth
    rw [hth]

theorem Sqlike.runSteps_stop (json : Json Sqlike.RunStatements) (db : Sqlike.DB)
    (steps : List Sqlike.Step) (st : Sqlike.St) (h : st.stop = true) :
    Sqlike.runSteps json db steps st = st := by
  cases steps with
  | nil => rfl
  | cons s rest => simp [Sqlike.runSteps, h]

theorem Sqlike.runSteps_append (json : Json Sqlike.RunStatements) (db : Sqlike.DB)
    (a b : List Sqlike.Step) (st : Sqlike.St) :
    Sqlike.runSteps json db (a ++ b) st
      = Sqlike.runSteps json db b (Sqlike.runSteps json db a st) := by
  induction a generalizing st with
  | nil => rfl
  | cons s a ih =>
    by_cases hstop : st.stop = true
    · rw [Sqlike.runSteps_stop _ _ _ _ hstop, Sqlike.runSteps_stop _ _ _ _ hstop,
        Sqlike.runSteps_stop _ _ _ _ hstop]
    · cases s with
      | decode job =>
        simp only [List.cons_append, Sqlike.runSteps, hstop, if_false, Bool.false_eq_true]
        split
        · rw [Sqlike.runSteps_stop _ _ _ _ rfl]
        · exact ih _
      | prepare query =>
        simp only [List.cons_append, Sqlike.runSteps, hstop, if_false, Bool.false_eq_true]
        split
        · rw [Sqlike.runSteps_stop _ _ _ _ rfl]
        · exact ih _
      | exec query row =>
        simp only [List.cons_append, Sqlike.runSteps, hstop, if_false, Bool.false_eq_true]
        split
        · rw [Sqlike.runSteps_stop _ _ _ _ rfl]
        · exact ih _

theorem Sqlike.RunStatements.execRows_eq (db : Sqlike.DB) (json : Json Sqlike.RunStatements)
    (query : String) (rows : List (List JSON)) (st : Sqlike.St) (h : st.stop = false) :
    Sqlike.RunStatements.execRows db query rows st
      = Sqlike.runSteps json db (rows.map (fun row => Sqlike.Step.exec query row)) st := by
  induction rows generalizing st with
  | nil => rfl
  | cons row rows ih =>
    rw [List.map_cons, Sqlike.runSteps, Sqlike.RunStatements.execRows]
    simp only [h, if_false, Bool.false_eq_true]
    cases hdb : db st.calls (Sqlike.DBCall.Exec query row) with
    | some e => rfl
    | none => exact ih _ (by first | exact h | rfl)

theorem Sqlike.RunStatements.execStatements_eq (db : Sqlike.DB)
    (json : Json Sqlike.RunStatements) (stmts : List Sqlike.Statement) (st : Sqlike.St) :
    Sqlike.RunStatements.execStatements db stmts st
      = Sqlike.runSteps json db (stmts.flatMap Sqlike.Statement.steps) st := by
  induction stmts generalizing st with
  | nil => rfl
  | cons exec rest ih =>
    by_cases hstop : st.stop = true
    · rw [Sqlike.runSteps_stop _ _ _ _ hstop]
      simp [Sqlike.RunStatements.execStatements, hstop]
    · have hf : st.stop = false := by simpa using hstop
      have hl : (exec :: rest).flatMap Sqlike.Statement.steps
          = Sqlike.Step.prepare exec.Query ::
              (exec.Values.map (fun row => Sqlike.Step.exec exec.Query row)
                ++ rest.flatMap Sqlike.Statement.steps) := rfl
      rw [hl, Sqlike.runSteps, Sqlike.RunStatements.execStatements]
      simp only [hf, if_false, Bool.false_eq_true]
      cases hdb : db st.calls (Sqlike.DBCall.Prepare exec.Query) with
      | some e => rfl
      | none =>
        simp only []
        rw [Sqlike.runSteps_append, ih,
          Sqlike.RunStatements.execRows_eq db json exec.Query exec.Values _ (by first | exact hf | rfl)]

theorem Sqlike.RunStatements.runJobs_eq (json : Json Sqlike.RunStatements) (db : Sqlike.DB)
    (jobs : List Store.Job) (st : Sqlike.St) :
    Sqlike.RunStatements.runJobs json db jobs st
      = Sqlike.runSteps json db (jobs.flatMap (Sqlike.jobSteps json)) st := by
  induction jobs generalizing st with
  | nil => rfl
  | cons job rest ih =>
    by_cases hstop : st.stop = true
    · rw [Sqlike.runSteps_stop _ _ _ _ hstop]
      simp [Sqlike.RunStatements.runJobs, hstop]
    · have hf : st.stop = false := by simpa using hstop
      have hl : (job :: rest).flatMap (Sqlike.jobSteps json)
          = Sqlike.Step.decode job ::
              ((match (json.Unmarshal job.Data).2 with
                | some _ => []
                | none => (json.Unmarshal job.Data).1.Statements.flatMap Sqlike.Statement.steps)
                ++ rest.flatMap (Sqlike.jobSteps json)) := rfl
      rw [hl, Sqlike.runSteps, Sqlike.RunStatements.runJobs]
      simp only [hf, if_false, Bool.false_eq_true]
      cases hdec : (json.Unmarshal job.Data).2 with
      | some e => rfl
      | none =>
        simp only []
        rw [Sqlike.runSteps_append, ih, Sqlike.RunStatements.execStatements_eq db json]

theorem Sqlike.RunStatements.runEvents_eq (json : Json Sqlike.RunStatements) (db : Sqlike.DB)
    (events : List Store.Event) (st : Sqlike.St) :
    Sqlike.RunStatements.runEvents json db events st
      = Sqlike.runSteps json db
          (events.flatMap (fun event => event.Jobs.flatMap (Sqlike.jobSteps json))) st := by
  induction events generalizing st with
  | nil => rfl
  | cons event rest ih =>
    by_cases hstop : st.stop = true
    · rw [Sqlike.runSteps_stop _ _ _ _ hstop]
      simp [Sqlike.RunStatements.runEvents, hstop]
    · have hf : st.stop = false := by simpa using hstop
      have hl : (event :: rest).flatMap (fun event => event.Jobs.flatMap (Sqlike.jobSteps json))
          = event.Jobs.flatMap (Sqlike.jobSteps json)
              ++ rest.flatMap (fun event => event.Jobs.flatMap (Sqlike.jobSteps json)) := rfl
      rw [hl, Sqlike.RunStatements.runEvents]
      simp only [hf, if_false, Bool.false_eq_true]
      rw [Sqlike.runSteps_append, ih, Sqlike.RunStatements.runJobs_eq]

theorem Sqlike.dbCalls_append (a b : List Sqlike.Step) :
    Sqlike.dbCalls (a ++ b) = Sqlike.dbCalls a ++ Sqlike.dbCalls b := by
  simp [Sqlike.dbCalls, List.filterMap_append]

theorem Sqlike.preparedQueries_append (a b : List Sqlike.Step) :
    Sqlike.preparedQueries (a ++ b) = Sqlike.preparedQueries a ++ Sqlike.preparedQueries b := by
  simp [Sqlike.preparedQueries, List.filterMap_append]

theorem Sqlike.runSteps_cons_ok (json : Json Sqlike.RunStatements) (db : Sqlike.DB)
    (s : Sqlike.Step) (rest done : List Sqlike.Step) (st : Sqlike.St)
    (hstop : st.stop = false)
    (hcalls : st.calls = Sqlike.DBCall.Begin :: Sqlike.dbCalls done)
    (hdef : st.deferred = Sqlike.preparedQueries done)
    (hres : Sqlike.stepResult json db done s = none) :
    ∃ st1 : Sqlike.St, Sqlike.runSteps json db (s :: rest) st = Sqlike.runSteps json db rest st1
      ∧ st1.stop = false ∧ st1.err = none ∧ st1.discard = st.discard
      ∧ st1.calls = Sqlike.DBCall.Begin :: Sqlike.dbCalls (done ++ [s])
      ∧ st1.deferred = Sqlike.preparedQueries (done ++ [s]) := by
  cases s with
  | decode job =>
    refine ⟨{ st with err := none }, ?_, hstop, rfl, rfl, ?_, ?_⟩
    · simp only [Sqlike.stepResult] at hres
      simp only [Sqlike.runSteps, hstop, if_false, Bool.false_eq_true, hres]
    · simp [Sqlike.dbCalls_append, Sqlike.dbCalls, Sqlike.Step.call, hcalls]
    · simp [Sqlike.preparedQueries_append, Sqlike.preparedQueries, Sqlike.Step.prepared, hdef]
  | prepare query =>
    refine ⟨{ st with err := none, calls := st.calls ++ [.Prepare query],
                      deferred := st.deferred ++ [query] }, ?_, hstop, rfl, rfl, ?_, ?_⟩
    · simp only [Sqlike.stepResult, ← hcalls] at hres
      simp only [Sqlike.runSteps, hstop, if_false, Bool.false_eq_true, hres]
    · simp [Sqlike.dbCalls_append, Sqlike.dbCalls, Sqlike.Step.call, hcalls]
    · simp [Sqlike.preparedQueries_append, Sqlike.preparedQueries, Sqlike.Step.prepared, hdef]
  | exec query row =>
    refine ⟨{ st with err := none, calls := st.calls ++ [.Exec query row] },
      ?_, hstop, rfl, rfl, ?_, ?_⟩
    · simp only [Sqlike.stepResult, ← hcalls] at hres
      simp only [Sqlike.runSteps, hstop, if_false, Bool.false_eq_true, hres]
    · simp [Sqlike.dbCalls_append, Sqlike.dbCalls, Sqlike.Step.call, hcalls]
    · simp [Sqlike.preparedQueries_append, Sqlike.preparedQueries, Sqlike.Step.prepared, hdef]

theorem Sqlike.runSteps_cons_fail (json : Json Sqlike.RunStatements) (db : Sqlike.DB)
    (s : Sqlike.Step) (rest done : List Sqlike.Step) (st : Sqlike.St) (e : GoError)
    (hstop : st.stop = false) (hdisc : st.discard = false)
    (hcalls : st.calls = Sqlike.DBCall.Begin :: Sqlike.dbCalls done)
    (hdef : st.deferred = Sqlike.preparedQueries done)
    (hres : Sqlike.stepResult json db done s = some e) :
    (Sqlike.runSteps json db (s :: rest) st).err = some e
      ∧ (Sqlike.runSteps json db (s :: rest) st).discard = s.isDecode
      ∧ (Sqlike.runSteps json db (s :: rest) st).calls
          = Sqlike.DBCall.Begin :: Sqlike.dbCalls (done ++ [s])
      ∧ (Sqlike.runSteps json db (s :: rest) st).deferred = Sqlike.preparedQueries done := by
  cases s with
  | decode job =>
    simp only [Sqlike.stepResult] at hres
    simp only [Sqlike.runSteps, hstop, if_false, Bool.false_eq_true, hres]
    simp [Sqlike.dbCalls_append, Sqlike.dbCalls, Sqlike.Step.call, hcalls, hdef,
      Sqlike.Step.isDecode]
  | prepare query =>
    simp only [Sqlike.stepResult, ← hcalls] at hres
    simp only [Sqlike.runSteps, hstop, if_false, Bool.false_eq_true, hres]
    simp [Sqlike.dbCalls_append, Sqlike.dbCalls, Sqlike.Step.call, hcalls, hdef,
      Sqlike.Step.isDecode, hdisc]
  | exec query row =>
    simp only [Sqlike.stepResult, ← hcalls] at hres
    simp only [Sqlike.runSteps, hstop, if_false, Bool.false_eq_true, hres]
    simp [Sqlike.dbCalls_append, Sqlike.dbCalls, Sqlike.Step.call, hcalls, hdef,
      Sqlike.Step.isDecode, hdisc]

theorem Sqlike.runSteps_spec (json : Json Sqlike.RunStatements) (db : Sqlike.DB)
    (todo done : List Sqlike.Step) (st : Sqlike.St)
    (hstop : st.stop = false) (herr : st.err = none) (hdisc : st.discard = false)
    (hcalls : st.calls = Sqlike.DBCall.Begin :: Sqlike.dbCalls done)
    (hdef : st.deferred = Sqlike.preparedQueries done) :
    ∃ n, n ≤ todo.length
      ∧ (∀ i s, i < n → todo[i]? = some s →
          Sqlike.stepResult json db (done ++ todo.take i) s = none)
      ∧ ((n = todo.length
            ∧ (Sqlike.runSteps json db todo st).err = none
            ∧ (Sqlike.runSteps json db todo st).discard = false
            ∧ (Sqlike.runSteps json db todo st).calls
                = Sqlike.DBCall.Begin :: Sqlike.dbCalls (done ++ todo)
            ∧ (Sqlike.runSteps json db todo st).deferred
                = Sqlike.preparedQueries (done ++ todo))
        ∨ (∃ s e, todo[n]? = some s
            ∧ Sqlike.stepResult json db (done ++ todo.take n) s = some e
            ∧ (Sqlike.runSteps json db todo st).err = some e
            ∧ (Sqlike.runSteps json db todo st).discard = s.isDecode
            ∧ (Sqlike.runSteps json db todo st).calls
                = Sqlike.DBCall.Begin :: Sqlike.dbCalls (done ++ todo.take (n + 1))
            ∧ (Sqlike.runSteps json db todo st).deferred
                = Sqlike.preparedQueries (done ++ todo.take n))) := by
  induction todo generalizing done st with
  | nil =>
    refine ⟨0, le_refl _, fun i s hi => absurd hi (Nat.not_lt_zero _), Or.inl ?_⟩
    simp [Sqlike.runSteps, herr, hdisc, hcalls, hdef]
  | cons s rest ih =>
    cases hres : Sqlike.stepResult json db done s with
    | some e =>
      obtain ⟨h1, h2, h3, h4⟩ :=
        Sqlike.runSteps_cons_fail json db s rest done st e hstop hdisc hcalls hdef hres
      refine ⟨0, Nat.zero_le _, fun i s hi => absurd hi (Nat.not_lt_zero _), Or.inr ⟨s, e, ?_⟩⟩
      simp [hres, h1, h2, h3, h4]
    | none =>
      obtain ⟨st1, hrun, hs1, he1, hd1, hc1, hf1⟩ :=
        Sqlike.runSteps_cons_ok json db s rest done st hstop hcalls hdef hres
      obtain ⟨n, hn, hall, hcase⟩ := ih (done ++ [s]) st1 hs1 he1 (by rw [hd1, hdisc]) hc1 hf1
      refine ⟨n + 1, by simpa using hn, ?_, ?_⟩
      · intro i s' hi hs'
        cases i with
        | zero =>
          simp only [List.getElem?_cons_zero, Option.some.injEq] at hs'
          subst hs'
          simpa using hres
        | succ j =>
          have := hall j s' (by omega) (by simpa using hs')
          simpa [List.append_assoc] using this
      · rw [hrun]
        rcases hcase with ⟨h0, h1, h2, h3, h4⟩ | ⟨s', e, h0, h1, h2, h3, h4, h5⟩
        · refine Or.inl ⟨by simp [h0], h1, h2, ?_, ?_⟩
          · simpa [List.append_assoc] using h3
          · simpa [List.append_assoc] using h4
        · refine Or.inr ⟨s', e, by simpa using h0, ?_, h2, h3, ?_, ?_⟩
          · simpa [List.append_assoc] using h1
          · simpa [List.append_assoc] using h4
          · simpa [List.append_assoc] using h5

/-- Instance of C8: the outcome amplitude `Group.Load` sends for a one-job
batch answered 200 carries a cascade, no error and `ForceDiscard = false`. -/
theorem cascade_only_on_success_witness :
    ∃ th, th ∈ (Amplitude.Group.Load {} Amplitude.Codec.member (Client.always 200 "")
        (Store.Queue.single "j1")).thens
      ∧ th.OnSucceeded ≠ [] ∧ th.Error = none ∧ th.ForceDiscard = false :=
  ⟨{ Jobs := ["j1"],
     OnSucceeded := [Amplitude.Group.cascade { Jobs := [{ ID := "j1" }] }
       (Amplitude.Codec.member.context.Unmarshal []).1 { UserId := "u1", GroupValue := "g1" }] },
   List.Mem.head _, List.cons_ne_nil _ _,
   (cascade_only_on_success (Store.Queue.single "j1")).1 {} Amplitude.Codec.member
     (Client.always 200 "") _ (List.Mem.head _) (List.cons_ne_nil _ _)⟩

/-- The precondition of the mailchimp part of C5 is needed: when the
configured identifiers do not form a URL, `Identify.Load` panics at the first
job, before any request, and sends nothing. -/
theorem Mailchimp.Identify.Load_panics_on_malformed_url :
    (Mailchimp.Identify.Load {} Std.rejecting Mailchimp.Codec.blank (Client.always 200 "")
        Store.Queue.three).panicked = true
    ∧ (Mailchimp.Identify.Load {} Std.rejecting Mailchimp.Codec.blank (Client.always 200 "")
        Store.Queue.three).thens.length = 0
    ∧ (Mailchimp.Identify.Load {} Std.rejecting Mailchimp.Codec.blank (Client.always 200 "")
        Store.Queue.three).calls.length = 0 :=
  ⟨rfl, rfl, rfl⟩

theorem Sqlike.commit_not_mem_dbCalls (steps : List Sqlike.Step) :
    Sqlike.DBCall.Commit ∉ Sqlike.dbCalls steps := by
  simp only [Sqlike.dbCalls, List.mem_filterMap, not_exists, not_and]
  intro s _
  cases s <;> simp [Sqlike.Step.call]

/-- C9: for every batch, decoder and database, sqlike `RunStatements.Load`
runs to the end and sends exactly one outcome, whose `Jobs` list is empty. -/
theorem Sqlike.RunStatements.Load_single_outcome (json : Json Sqlike.RunStatements)
    (db : Sqlike.DB) (q : Store.Queue) :
    (Sqlike.RunStatements.Load json db q).panicked = false
    ∧ (Sqlike.RunStatements.Load json db q).thens.length = 1
    ∧ ∃ th, (Sqlike.RunStatements.Load json db q).thens = [th]
        ∧ th.Jobs = [] ∧ th.OnSucceeded = [] := by
  obtain ⟨err, discard, h⟩ := Sqlike.RunStatements.Load_thens json db q
  refine ⟨?_, by rw [h]; rfl, _, h, rfl, rfl⟩
  unfold Sqlike.RunStatements.Load
  split <;> rfl

/-- C10: sqlike `RunStatements.Load` runs the steps of the batch (decode each
job, prepare each of its statements, execute each of its rows) in batch order
inside one transaction and stops at the first failure. With `n` the number of
steps that succeeded: if all did, `Commit` is called and the outcome carries
its result; otherwise exactly the first `n + 1` steps are run, `Commit` is not
called, and the outcome carries the error of step `n`, with `ForceDiscard`
true exactly when that step is a decoding. If `Begin` fails nothing else is
called. `Commit` is called if and only if `Begin` and every step succeeded. -/
theorem Sqlike.RunStatements.Load_first_failure (json : Json Sqlike.RunStatements)
    (db : Sqlike.DB) (q : Store.Queue) :
    (∀ e, db [] .Begin = some e →
      (Sqlike.RunStatements.Load json db q).calls = [.Begin]
        ∧ (Sqlike.RunStatements.Load json db q).thens
            = [{ Error := some e, ForceDiscard := false }])
    ∧ (db [] .Begin = none →
      ∃ n, n ≤ (Sqlike.plan json q).length
        ∧ (∀ i s, i < n → (Sqlike.plan json q)[i]? = some s →
            Sqlike.stepResult json db ((Sqlike.plan json q).take i) s = none)
        ∧ ((n = (Sqlike.plan json q).length
              ∧ (Sqlike.RunStatements.Load json db q).calls
                  = .Begin :: Sqlike.dbCalls (Sqlike.plan json q) ++ [.Commit]
                      ++ (Sqlike.preparedQueries (Sqlike.plan json q)).reverse.map .Close
                      ++ [.Rollback]
              ∧ (Sqlike.RunStatements.Load json db q).thens
                  = [{ Error := db (.Begin :: Sqlike.dbCalls (Sqlike.plan json q)) .Commit,
                       ForceDiscard := false }])
          ∨ (∃ s e, (Sqlike.plan json q)[n]? = some s
              ∧ Sqlike.stepResult json db ((Sqlike.plan json q).take n) s = some e
              ∧ (Sqlike.RunStatements.Load json db q).calls
                  = .Begin :: Sqlike.dbCalls ((Sqlike.plan json q).take (n + 1))
                      ++ (Sqlike.preparedQueries ((Sqlike.plan json q).take n)).reverse.map .Close
                      ++ [.Rollback]
              ∧ Sqlike.DBCall.Commit ∉ (Sqlike.RunStatements.Load json db q).calls
              ∧ (Sqlike.RunStatements.Load json db q).thens
                  = [{ Error := some e, ForceDiscard := s.isDecode }])))
    ∧ (Sqlike.DBCall.Commit ∈ (Sqlike.RunStatements.Load json db q).calls ↔
        db [] .Begin = none
          ∧ ∀ i s, (Sqlike.plan json q)[i]? = some s →
              Sqlike.stepResult json db ((Sqlike.plan json q).take i) s = none) := by
  have hbegin : ∀ e, db [] .Begin = some e →
      (Sqlike.RunStatements.Load json db q).calls = [.Begin]
        ∧ (Sqlike.RunStatements.Load json db q).thens
            = [{ Error := some e, ForceDiscard := false }] := by
    intro e he
    simp [Sqlike.RunStatements.Load, he]
  have hrun : db [] .Begin = none →
      ∃ n, n ≤ (Sqlike.plan json q).length
        ∧ (∀ i s, i < n → (Sqlike.plan json q)[i]? = some s →
            Sqlike.stepResult json db ((Sqlike.plan json q).take i) s = none)
        ∧ ((n = (Sqlike.plan json q).length
              ∧ (Sqlike.RunStatements.Load json db q).calls
                  = .Begin :: Sqlike.dbCalls (Sqlike.plan json q) ++ [.Commit]
                      ++ (Sqlike.preparedQueries (Sqlike.plan json q)).reverse.map .Close
                      ++ [.Rollback]
              ∧ (Sqlike.RunStatements.Load json db q).thens
                  = [{ Error := db (.Begin :: Sqlike.dbCalls (Sqlike.plan json q)) .Commit,
                       ForceDiscard := false }])
          ∨ (∃ s e, (Sqlike.plan json q)[n]? = some s
              ∧ Sqlike.stepResult json db ((Sqlike.plan json q).take n) s = some e
              ∧ (Sqlike.RunStatements.Load json db q).calls
                  = .Begin :: Sqlike.dbCalls ((Sqlike.plan json q).take (n + 1))
                      ++ (Sqlike.preparedQueries ((Sqlike.plan json q).take n)).reverse.map .Close
                      ++ [.Rollback]
              ∧ Sqlike.DBCall.Commit ∉ (Sqlike.RunStatements.Load json db q).calls
              ∧ (Sqlike.RunStatements.Load json db q).thens
                  = [{ Error := some e, ForceDiscard := s.isDecode }])) := by
    intro hb
    obtain ⟨n, hn, hall, hcase⟩ :=
      Sqlike.runSteps_spec json db (Sqlike.plan json q) [] { calls := [.Begin] } rfl rfl rfl rfl rfl
    simp only [List.nil_append] at hall hcase
    refine ⟨n, hn, hall, ?_⟩
    have hload : Sqlike.RunStatements.Load json db q =
        (let st := Sqlike.runSteps json db (Sqlike.plan json q) { calls := [.Begin] }
         let st1 : Sqlike.St :=
           match st.err with
           | some _ => st
           | none => { st with err := db st.calls .Commit, calls := st.calls ++ [.Commit] }
         { thens := [{ Error := st1.err, ForceDiscard := st1.discard }],
           calls := st1.calls ++ st1.deferred.reverse.map Sqlike.DBCall.Close ++ [.Rollback] }) := by
      simp only [Sqlike.RunStatements.Load, hb, Sqlike.RunStatements.runEvents_eq, Sqlike.plan]
    rcases hcase with ⟨h0, h1, h2, h3, h4⟩ | ⟨s, e, h0, h1, h2, h3, h4, h5⟩
    · refine Or.inl ⟨h0, ?_, ?_⟩
      · rw [hload]; simp only [h1, h3, h4]
      · rw [hload]; simp only [h1, h2, h3]
    · have hcalls : (Sqlike.RunStatements.Load json db q).calls
          = .Begin :: Sqlike.dbCalls ((Sqlike.plan json q).take (n + 1))
              ++ (Sqlike.preparedQueries ((Sqlike.plan json q).take n)).reverse.map .Close
              ++ [.Rollback] := by
        rw [hload]; simp only [h2, h4, h5]
      refine Or.inr ⟨s, e, h0, h1, hcalls, ?_, ?_⟩
      · rw [hcalls]
        simp only [List.cons_append, List.mem_cons, List.mem_append, List.mem_map,
          List.mem_singleton, not_or]
        refine ⟨by simp, ⟨⟨Sqlike.commit_not_mem_dbCalls _, by simp⟩, by simp⟩⟩
      · rw [hload]; simp only [h2, h3]
  refine ⟨hbegin, hrun, ?_⟩
  constructor
  · intro hmem
    cases hb : db [] .Begin with
    | some e =>
      rw [(hbegin e hb).1] at hmem
      simp at hmem
    | none =>
      refine ⟨rfl, ?_⟩
      obtain ⟨n, hn, hall, hcase⟩ := hrun hb
      rcases hcase with ⟨h0, -, -⟩ | ⟨s, e, -, -, -, hnot, -⟩
      · intro i s hs
        have hi : i < (Sqlike.plan json q).length := (List.getElem?_eq_some_iff.mp hs).1
        exact hall i s (by omega) hs
      · exact absurd hmem hnot
  · rintro ⟨hb, hallok⟩
    obtain ⟨n, hn, hall, hcase⟩ := hrun hb
    rcases hcase with ⟨-, hc, -⟩ | ⟨s, e, h0, h1, -, -, -⟩
    · rw [hc]; simp
    · rw [hallok n s h0] at h1
      cases h1

/-- Instance of C10: one job of three statements with one row each, on a
database where executing the second statement fails. -/
theorem Sqlike.RunStatements.Load_first_failure_witness :
    ∃ n, n ≤ (Sqlike.plan Sqlike.threeStatements (Store.Queue.single "j1")).length
      ∧ (∀ i s, i < n →
          (Sqlike.plan Sqlike.threeStatements (Store.Queue.single "j1"))[i]? = some s →
          Sqlike.stepResult Sqlike.threeStatements (Sqlike.DB.failExec "q2")
            ((Sqlike.plan Sqlike.threeStatements (Store.Queue.single "j1")).take i) s = none)
      ∧ ((n = (Sqlike.plan Sqlike.threeStatements (Store.Queue.single "j1")).length
            ∧ (Sqlike.RunStatements.Load Sqlike.threeStatements (Sqlike.DB.failExec "q2")
                (Store.Queue.single "j1")).calls
                = .Begin :: Sqlike.dbCalls
                    (Sqlike.plan Sqlike.threeStatements (Store.Queue.single "j1")) ++ [.Commit]
                    ++ (Sqlike.preparedQueries
                        (Sqlike.plan Sqlike.threeStatements
                          (Store.Queue.single "j1"))).reverse.map .Close
                    ++ [.Rollback]
            ∧ (Sqlike.RunStatements.Load Sqlike.threeStatements (Sqlike.DB.failExec "q2")
                (Store.Queue.single "j1")).thens
                = [{ Error := Sqlike.DB.failExec "q2"
                       (.Begin :: Sqlike.dbCalls
                         (Sqlike.plan Sqlike.threeStatements (Store.Queue.single "j1"))) .Commit,
                     ForceDiscard := false }])
        ∨ (∃ s e, (Sqlike.plan Sqlike.threeStatements (Store.Queue.single "j1"))[n]? = some s
            ∧ Sqlike.stepResult Sqlike.threeStatements (Sqlike.DB.failExec "q2")
                ((Sqlike.plan Sqlike.threeStatements (Store.Queue.single "j1")).take n) s
                = some e
            ∧ (Sqlike.RunStatements.Load Sqlike.threeStatements (Sqlike.DB.failExec "q2")
                (Store.Queue.single "j1")).calls
                = .Begin :: Sqlike.dbCalls
                    ((Sqlike.plan Sqlike.threeStatements (Store.Queue.single "j1")).take (n + 1))
                    ++ (Sqlike.preparedQueries
                        ((Sqlike.plan Sqlike.threeStatements
                          (Store.Queue.single "j1")).take n)).reverse.map .Close
                    ++ [.Rollback]
            ∧ Sqlike.DBCall.Commit ∉
                (Sqlike.RunStatements.Load Sqlike.threeStatements (Sqlike.DB.failExec "q2")
                  (Store.Queue.single "j1")).calls
            ∧ (Sqlike.RunStatements.Load Sqlike.threeStatements (Sqlike.DB.failExec "q2")
                (Store.Queue.single "j1")).thens
                = [{ Error := some e, ForceDiscard := s.isDecode }])) :=
  (Sqlike.RunStatements.Load_first_failure Sqlike.threeStatements (Sqlike.DB.failExec "q2")
    (Store.Queue.single "j1")).2.1 rfl

/-- The scenario of C10 evaluated: of three statements the second fails on
execution; the third is neither prepared nor executed, `Commit` is not called,
the two prepared statements are closed, the transaction is rolled back, and
the single outcome carries the error of the second statement. -/
theorem Sqlike.RunStatements.Load_second_of_three_fails :
    (Sqlike.RunStatements.Load Sqlike.threeStatements (Sqlike.DB.failExec "q2")
        (Store.Queue.single "j1")).calls
      = [.Begin, .Prepare "q1", .Exec "q1" [], .Prepare "q2", .Exec "q2" [],
         .Close "q2", .Close "q1", .Rollback]
    ∧ (Sqlike.RunStatements.Load Sqlike.threeStatements (Sqlike.DB.failExec "q2")
        (Store.Queue.single "j1")).thens
      = [{ Jobs := [], Error := some (.other "exec q2"), ForceDiscard := false }] := by
  constructor <;> rfl

theorem forEachJob_invariant_mem {κ : Type} (P : Run κ → Prop)
    (body : Store.Event → Store.Job → Run κ → Run κ) (q : Store.Queue)
    (hstep : ∀ p ∈ q.pairs, ∀ t, P t → P (body p.1 p.2 t)) (t : Run κ) (h0 : P t) :
    P (forEachJob body q t) := by
  rw [forEachJob_eq_foldl]
  generalize q.pairs = ps at hstep
  induction ps generalizing t with
  | nil => exact h0
  | cons p ps ih =>
    simp only [List.foldl_cons]
    refine ih _ ?_ (fun p' hp' => hstep p' (List.mem_cons_of_mem _ hp'))
    split
    · exact h0
    · exact hstep p (List.mem_cons_self _ _) _ h0

theorem Amplitude.Group.loadJob_calls (env : Amplitude.Options) (codec : Amplitude.Codec)
    (client : Client) (ev : Store.Event) (job : Store.Job) (t : Trace) :
    (Amplitude.Group.loadJob env codec client ev job t).calls
      = t.calls ++ [Amplitude.Group.request env codec job] := by
  unfold Amplitude.Group.loadJob
  dsimp only
  split
  · rfl
  · split
    · rfl
    · split <;> rfl

/-- C12: in amplitude `Page.Load` the request of every job has as body the
encoding of a value whose `api_key` is the configured `Options.APIKey` (and
whose events are the decoded ones with the decoded context), and in
`Group.Load` every form posted has the `api_key` value `Options.APIKey`,
whatever `api_key` the stored payload decodes to. -/
theorem Amplitude.Load_sends_configured_api_key (env : Amplitude.Options)
    (codec : Amplitude.Codec) (client : Client) (q : Store.Queue) :
    (Amplitude.Page.Load env codec client q).calls
        = q.pairs.map (fun p =>
            HttpCall.Do "POST" "https://api2.amplitude.com/2/httpapi"
              [("Accept", "*/*"), ("Content-Type", "application/json")]
              (codec.page.marshalBytes
                { APIKey := env.APIKey,
                  Events := (codec.page.Unmarshal p.2.Data).1.Events.map
                    (fun e => { e with Context := some (codec.context.Unmarshal p.2.Context).1 }) }))
    ∧ (∀ call ∈ (Amplitude.Group.Load env codec client q).calls,
        ∃ p ∈ q.pairs,
          call = HttpCall.PostForm "https://api.amplitude.com/groupidentify"
            [("api_key", [env.APIKey]),
             ("identification",
               [bytesString (codec.identification.marshalBytes
                 (codec.group.Unmarshal p.2.Data).1.Identification)])]) := by
  constructor
  · exact ((Amplitude.Page.Load_page_steps env codec client q).2.calls_eq _
      HttpOutcome.call_and_jobs).1
  · refine forEachJob_invariant_mem
      (fun t => ∀ call ∈ t.calls, ∃ p ∈ q.pairs, call = Amplitude.Group.request env codec p.2)
      _ q ?_ {} (by simp)
    intro p hp t ht call hcall
    rw [Amplitude.Group.loadJob_calls] at hcall
    simp only [List.mem_append, List.mem_singleton] at hcall
    rcases hcall with h | h
    · exact ht call h
    · exact ⟨p, hp, h⟩

/-- Instance of C12: the stored payload decodes to `api_key = "stored"`, the
destination is configured with `"configured"`. -/
theorem Amplitude.Load_sends_configured_api_key_witness :
    (Amplitude.Codec.storedKey.page.Unmarshal []).1.APIKey = "stored"
    ∧ (Amplitude.Page.Load { APIKey := "configured" } Amplitude.Codec.storedKey
          (Client.always 200 "") (Store.Queue.single "j1")).calls
        = [HttpCall.Do "POST" "https://api2.amplitude.com/2/httpapi"
            [("Accept", "*/*"), ("Content-Type", "application/json")]
            (Amplitude.Codec.storedKey.page.marshalBytes
              { APIKey := "configured",
                Events := [{ Event := "home", Context := some {} }] })]
    ∧ ∃ p ∈ (Store.Queue.single "j1").pairs,
        Amplitude.Group.request { APIKey := "configured" } Amplitude.Codec.storedKey
            { ID := "j1" }
          = HttpCall.PostForm "https://api.amplitude.com/groupidentify"
            [("api_key", ["configured"]),
             ("identification",
               [bytesString (Amplitude.Codec.storedKey.identification.marshalBytes
                 (Amplitude.Codec.storedKey.group.Unmarshal p.2.Data).1.Identification)])] :=
  ⟨rfl,
   (Amplitude.Load_sends_configured_api_key { APIKey := "configured" }
      Amplitude.Codec.storedKey (Client.always 200 "") (Store.Queue.single "j1")).1,
   (Amplitude.Load_sends_configured_api_key { APIKey := "configured" }
      Amplitude.Codec.storedKey (Client.always 200 "") (Store.Queue.single "j1")).2
      (Amplitude.Group.request { APIKey := "configured" } Amplitude.Codec.storedKey
        { ID := "j1" }) (List.Mem.head _)⟩

/-- C13: when the client returns a transport error `err` for the `k`-th job,
the `k`-th outcome names that job and has `Error.StatusCode = 500` and
`Error.Message = err`; its `ForceDiscard` is `true` in amplitude `Page.Load`,
amplitude `Group.Load` and mailchimp `Identify.Load`, and `false` in segment
`Alias.Load`. -/
theorem transport_error_outcome (client : Client) (q : Store.Queue) (k : Nat)
    (ev : Store.Event) (job : Store.Job) (err : String) (hp : q.pairs[k]? = some (ev, job)) :
    (∀ (env : Amplitude.Options) (codec : Amplitude.Codec),
      client ((Amplitude.Page.Load env codec client q).calls.take k)
        (Amplitude.Page.request env codec job) = .error err →
      ∃ th, (Amplitude.Page.Load env codec client q).thens[k]? = some th
        ∧ th.Jobs = [job.ID]
        ∧ th.Error = some (.blacksmith { StatusCode := 500, Message := err })
        ∧ th.ForceDiscard = true)
    ∧ (∀ (env : Amplitude.Options) (codec : Amplitude.Codec) (th : Then),
      (Amplitude.Group.Load env codec client q).thens[k]? = some th →
      client ((Amplitude.Group.Load env codec client q).calls.take k)
        (Amplitude.Group.request env codec job) = .error err →
      th.Jobs = [job.ID]
        ∧ th.Error = some (.blacksmith { StatusCode := 500, Message := err })
        ∧ th.ForceDiscard = true)
    ∧ (∀ (env : Mailchimp.Options) (std : Std) (codec : Mailchimp.Codec),
      (∀ d : Mailchimp.Signup, std.urlParse (Mailchimp.Identify.url env std d) = true) →
      client ((Mailchimp.Identify.Load env std codec client q).calls.take k)
        (Mailchimp.Identify.request env std codec job) = .error err →
      ∃ th, (Mailchimp.Identify.Load env std codec client q).thens[k]? = some th
        ∧ th.Jobs = [job.ID]
        ∧ th.Error = some (.blacksmith { StatusCode := 500, Message := err })
        ∧ th.ForceDiscard = true)
    ∧ (∀ (env : Segment.Options) (std : Std) (codec : Segment.Codec),
      client ((Segment.Alias.Load env std codec client q).calls.take k)
        (Segment.Alias.request env std codec job) = .error err →
      ∃ th, (Segment.Alias.Load env std codec client q).thens[k]? = some th
        ∧ th.Jobs = [job.ID]
        ∧ th.Error = some (.blacksmith { StatusCode := 500, Message := err })
        ∧ th.ForceDiscard = false) := by
  have hk : k < q.pairs.length := (List.getElem?_eq_some_iff.mp hp).1
  have hpk : q.pairs[k] = (ev, job) := (List.getElem?_eq_some_iff.mp hp).2
  refine ⟨?_, ?_, ?_, ?_⟩
  · intro env codec hres
    obtain ⟨call, th, -, hth, hR⟩ := (Amplitude.Page.Load_page_steps env codec client q).2.at k hk
    rw [hpk] at hR
    obtain ⟨hreq, hjobs, -, herr, -, -⟩ := hR
    subst hreq
    simp only [List.nil_append] at herr
    exact ⟨th, hth, hjobs, (herr err hres).1, (herr err hres).2⟩
  · intro env codec th hth hres
    obtain ⟨n, cs, ths, extra, hthens, hcalls, hn, hsteps, -⟩ :=
      Amplitude.Group.Load_group_steps env codec client q
    have hl := hsteps.lengths
    rw [hthens] at hth
    have hkn : k < (q.pairs.take n).length := by
      rw [← hl.2]
      exact (List.getElem?_eq_some_iff.mp hth).1
    obtain ⟨call, th', -, hth', hR⟩ := hsteps.at k hkn
    rw [hth] at hth'
    cases hth'
    have hpk' : (q.pairs.take n)[k] = (ev, job) := by
      have h1 : (q.pairs.take n)[k]? = some (ev, job) := by
        rw [List.getElem?_take]
        have : k < n := by simpa using (lt_of_lt_of_le hkn (List.length_take_le _ _))
        simp [this, hp]
      exact (List.getElem?_eq_some_iff.mp h1).2
    rw [hpk'] at hR
    obtain ⟨hreq, hjobs, herr, -, -⟩ := hR
    subst hreq
    have htake : (Amplitude.Group.Load env codec client q).calls.take k = cs.take k := by
      rw [hcalls, List.take_append_of_le_length]
      rw [hl.1]; exact le_of_lt hkn
    rw [htake] at hres
    simp only [List.nil_append] at herr
    exact ⟨hjobs, (herr err hres).1, (herr err hres).2.1⟩
  · intro env std codec hurl hres
    obtain ⟨call, th, -, hth, hR⟩ :=
      (Mailchimp.Identify.Load_identify_steps env std codec client q hurl).2.at k hk
    rw [hpk] at hR
    obtain ⟨hreq, hjobs, -, herr, -, -⟩ := hR
    subst hreq
    simp only [List.nil_append] at herr
    exact ⟨th, hth, hjobs, (herr err hres).1, (herr err hres).2⟩
  · intro env std codec hres
    obtain ⟨call, th, -, hth, hR⟩ :=
      (Segment.Alias.Load_alias_steps env std codec client q).2.at k hk
    rw [hpk] at hR
    obtain ⟨hreq, hjobs, -, herr, -, -⟩ := hR
    subst hreq
    simp only [List.nil_append] at herr
    exact ⟨th, hth, hjobs, (herr err hres).1, (herr err hres).2⟩

/-- Instance of C13: a one-job batch on a client whose every request fails
with `"connection refused"`. -/
theorem transport_error_outcome_witness :
    (∃ th, (Amplitude.Page.Load {} Amplitude.Codec.blank (Client.failing "connection refused")
          (Store.Queue.single "j1")).thens[0]? = some th
        ∧ th.Jobs = ["j1"]
        ∧ th.Error = some (.blacksmith { StatusCode := 500, Message := "connection refused" })
        ∧ th.ForceDiscard = true)
    ∧ (∃ th, (Amplitude.Group.Load {} Amplitude.Codec.blank (Client.failing "connection refused")
          (Store.Queue.single "j1")).thens[0]? = some th
        ∧ th.Jobs = ["j1"]
        ∧ th.Error = some (.blacksmith { StatusCode := 500, Message := "connection refused" })
        ∧ th.ForceDiscard = true)
    ∧ (∃ th, (Mailchimp.Identify.Load {} Std.blank Mailchimp.Codec.blank
          (Client.failing "connection refused") (Store.Queue.single "j1")).thens[0]? = some th
        ∧ th.Jobs = ["j1"]
        ∧ th.Error = some (.blacksmith { StatusCode := 500, Message := "connection refused" })
        ∧ th.ForceDiscard = true)
    ∧ (∃ th, (Segment.Alias.Load {} Std.blank Segment.Codec.blank
          (Client.failing "connection refused") (Store.Queue.single "j1")).thens[0]? = some th
        ∧ th.Jobs = ["j1"]
        ∧ th.Error = some (.blacksmith { StatusCode := 500, Message := "connection refused" })
        ∧ th.ForceDiscard = false) :=
  ⟨(transport_error_outcome (Client.failing "connection refused") (Store.Queue.single "j1") 0
      { Jobs := [{ ID := "j1" }] } { ID := "j1" } "connection refused" rfl).1
      {} Amplitude.Codec.blank rfl,
   ⟨_, rfl,
    (transport_error_outcome (Client.failing "connection refused") (Store.Queue.single "j1") 0
      { Jobs := [{ ID := "j1" }] } { ID := "j1" } "connection refused" rfl).2.1
      {} Amplitude.Codec.blank _ rfl rfl⟩,
   (transport_error_outcome (Client.failing "connection refused") (Store.Queue.single "j1") 0
      { Jobs := [{ ID := "j1" }] } { ID := "j1" } "connection refused" rfl).2.2.1
      {} Std.blank Mailchimp.Codec.blank (fun _ => rfl) rfl,
   (transport_error_outcome (Client.failing "connection refused") (Store.Queue.single "j1") 0
      { Jobs := [{ ID := "j1" }] } { ID := "j1" } "connection refused" rfl).2.2.2
      {} Std.blank Segment.Codec.blank rfl⟩

theorem foldl_jobSteps {κ : Type}
    {R : Store.Event → Store.Job → List κ → List κ → Then → Prop}
    {body : Store.Event → Store.Job → Run κ → Run κ}
    (ps : List (Store.Event × Store.Job))
    (hbody : ∀ p ∈ ps, ∀ t : Run κ, t.panicked = false → ∃ seg th,
      body p.1 p.2 t = { thens := t.thens ++ [th], calls := t.calls ++ seg, panicked := false }
        ∧ R p.1 p.2 t.calls seg th)
    (t : Run κ) (ht : t.panicked = false) :
    ∃ segs ths, ps.foldl (fun t p => if t.panicked then t else body p.1 p.2 t) t
        = { thens := t.thens ++ ths, calls := t.calls ++ segs.flatten, panicked := false }
      ∧ JobSteps R t.calls ps segs ths := by
  induction ps generalizing t with
  | nil =>
    refine ⟨[], [], ?_, JobSteps.nil _⟩
    cases t; simp_all
  | cons p ps ih =>
    obtain ⟨seg, th, hb, hR⟩ := hbody p (List.mem_cons_self _ _) t ht
    obtain ⟨segs, ths, hfold, hsteps⟩ :=
      ih (fun p' hp' => hbody p' (List.mem_cons_of_mem _ hp')) (body p.1 p.2 t) (by rw [hb])
    refine ⟨seg :: segs, th :: ths, ?_, ?_⟩
    · simp only [List.foldl_cons, ht, Bool.false_eq_true, if_false]
      rw [hfold, hb]; simp
    · obtain ⟨ev, job⟩ := p
      rw [hb] at hsteps
      exact JobSteps.cons hR hsteps

theorem JobSteps.seg_lengths {κ : Type}
    {R : Store.Event → Store.Job → List κ → List κ → Then → Prop}
    {h : List κ} {ps : List (Store.Event × Store.Job)} {segs : List (List κ)}
    {ths : List Then} (hs : JobSteps R h ps segs ths) :
    segs.length = ps.length ∧ ths.length = ps.length := by
  induction hs with
  | nil h => exact ⟨rfl, rfl⟩
  | cons _ _ ih => simp [ih.1, ih.2]

theorem JobSteps.seg_at {κ : Type}
    {R : Store.Event → Store.Job → List κ → List κ → Then → Prop}
    {h : List κ} {ps : List (Store.Event × Store.Job)} {segs : List (List κ)}
    {ths : List Then} (hs : JobSteps R h ps segs ths) (k : Nat) (ev : Store.Event)
    (job : Store.Job) (hp : ps[k]? = some (ev, job)) :
    ∃ seg th, segs[k]? = some seg ∧ ths[k]? = some th
      ∧ R ev job (h ++ (segs.take k).flatten) seg th := by
  induction hs generalizing k with
  | nil h => simp at hp
  | @cons h ev' job' seg th ps segs ths hR _ ih =>
    cases k with
    | zero =>
      simp only [List.getElem?_cons_zero, Option.some.injEq, Prod.mk.injEq] at hp
      obtain ⟨rfl, rfl⟩ := hp
      exact ⟨seg, th, by simp, by simp, by simpa using hR⟩
    | succ k =>
      obtain ⟨seg', th', h1, h2, h3⟩ := ih k (by simpa using hp)
      refine ⟨seg', th', by simpa using h1, by simpa using h2, ?_⟩
      simpa [List.append_assoc] using h3

theorem forEachJob_jobSteps {κ : Type}
    {R : Store.Event → Store.Job → List κ → List κ → Then → Prop}
    {body : Store.Event → Store.Job → Run κ → Run κ} (q : Store.Queue)
    (hbody : ∀ p ∈ q.pairs, ∀ t : Run κ, t.panicked = false → ∃ seg th,
      body p.1 p.2 t = { thens := t.thens ++ [th], calls := t.calls ++ seg, panicked := false }
        ∧ R p.1 p.2 t.calls seg th) :
    ∃ segs, (forEachJob body q {}).panicked = false
      ∧ (forEachJob body q {}).calls = segs.flatten
      ∧ JobSteps R [] q.pairs segs (forEachJob body q {}).thens := by
  obtain ⟨segs, ths, hfold, hsteps⟩ := foldl_jobSteps q.pairs hbody {} rfl
  refine ⟨segs, ?_, ?_, ?_⟩
  · rw [forEachJob_eq_foldl, hfold]
  · rw [forEachJob_eq_foldl, hfold]; simp
  · rw [forEachJob_eq_foldl, hfold]; simpa using hsteps

theorem Blob.Write.loadJob_write_spec (json : Json Blob.Write) (bucket : Blob.Bucket)
    (ev : Store.Event) (job : Store.Job) (t : Run Blob.Call) (ht : t.panicked = false) :
    ∃ seg th, Blob.Write.loadJob json bucket ev job t
        = { thens := t.thens ++ [th], calls := t.calls ++ seg, panicked := false }
      ∧ Blob.WriteOutcome json bucket ev job t.calls seg th := by
  cases hdec : (json.Unmarshal job.Data).2 with
  | some e =>
    refine ⟨[], { Jobs := [job.ID], Error := some e, ForceDiscard := true }, ?_, ?_⟩
    · simp [Blob.Write.loadJob, hdec, Run.send, ht]
    · refine ⟨rfl, rfl, ?_, ?_⟩
      · intro e' he'; rw [hdec] at he'; cases he'; exact ⟨rfl, rfl, rfl⟩
      · intro hn; rw [hdec] at hn; cases hn
  | none =>
    cases hw : bucket t.calls (.NewWriter (json.Unmarshal job.Data).1.Filename) with
    | some e =>
      refine ⟨[.NewWriter (json.Unmarshal job.Data).1.Filename],
        { Jobs := [job.ID], Error := some e }, ?_, ?_⟩
      · simp [Blob.Write.loadJob, hdec, hw, Run.send, Run.call, ht]
      · refine ⟨rfl, rfl, ?_, ?_⟩
        · intro e' he'; rw [hdec] at he'; cases he'
        · intro _
          refine ⟨rfl, ?_, ?_⟩
          · intro e' he'; rw [hw] at he'; cases he'; exact ⟨rfl, rfl⟩
          · intro hn; rw [hw] at hn; cases hn
    | none =>
      refine ⟨[.NewWriter (json.Unmarshal job.Data).1.Filename,
               .Write (json.Unmarshal job.Data).1.Content, .Close],
        { Jobs := [job.ID],
          Error := bucket (t.calls ++ [.NewWriter (json.Unmarshal job.Data).1.Filename,
                                       .Write (json.Unmarshal job.Data).1.Content]) .Close },
        ?_, ?_⟩
      · simp [Blob.Write.loadJob, hdec, hw, Run.send, Run.call, ht]
      · refine ⟨rfl, rfl, ?_, ?_⟩
        · intro e' he'; rw [hdec] at he'; cases he'
        · intro _
          refine ⟨rfl, ?_, ?_⟩
          · intro e' he'; rw [hw] at he'; cases he'
          · intro _; exact ⟨rfl, rfl⟩

theorem Docstore.Put.loadJob_put_spec (json : Json Docstore.Put)
    (collection : Docstore.Collection) (ev : Store.Event) (job : Store.Job)
    (t : Run Docstore.Call) (ht : t.panicked = false) :
    ∃ seg th, Docstore.Put.loadJob json collection ev job t
        = { thens := t.thens ++ [th], calls := t.calls ++ seg, panicked := false }
      ∧ Docstore.PutOutcome json collection ev job t.calls seg th := by
  cases hdec : (json.Unmarshal job.Data).2 with
  | some e =>
    refine ⟨[], { Jobs := [job.ID], Error := some e, ForceDiscard := true }, ?_, ?_⟩
    · simp [Docstore.Put.loadJob, hdec, Run.send, ht]
    · refine ⟨rfl, rfl, ?_, ?_⟩
      · intro e' he'; rw [hdec] at he'; cases he'; exact ⟨rfl, rfl, rfl⟩
      · intro hn; rw [hdec] at hn; cases hn
  | none =>
    refine ⟨[.Put (json.Unmarshal job.Data).1.Document],
      { Jobs := [job.ID],
        Error := collection t.calls (.Put (json.Unmarshal job.Data).1.Document) }, ?_, ?_⟩
    · simp [Docstore.Put.loadJob, hdec, Run.send, Run.call, ht]
    · refine ⟨rfl, rfl, ?_, ?_⟩
      · intro e' he'; rw [hdec] at he'; cases he'
      · intro _; exact ⟨rfl, rfl, rfl⟩

theorem Topic.Publish.loadJob_publish_spec (json : Json Topic.Publish) (topic : Topic.Broker)
    (ev : Store.Event) (job : Store.Job) (t : Run Topic.Call) (ht : t.panicked = false) :
    ∃ seg th, Topic.Publish.loadJob json topic ev job t
        = { thens := t.thens ++ [th], calls := t.calls ++ seg, panicked := false }
      ∧ Topic.PublishOutcome json topic ev job t.calls seg th := by
  cases hdec : (json.Unmarshal job.Data).2 with
  | some e =>
    refine ⟨[], { Jobs := [job.ID], Error := some e, ForceDiscard := true }, ?_, ?_⟩
    · simp [Topic.Publish.loadJob, hdec, Run.send, ht]
    · refine ⟨rfl, rfl, ?_, ?_⟩
      · intro e' he'; rw [hdec] at he'; cases he'; exact ⟨rfl, rfl, rfl⟩
      · intro hn; rw [hdec] at hn; cases hn
  | none =>
    refine ⟨[.Send (json.Unmarshal job.Data).1.Message.Body
              (json.Unmarshal job.Data).1.Message.Metadata],
      { Jobs := [job.ID],
        Error := topic t.calls (.Send (json.Unmarshal job.Data).1.Message.Body
                  (json.Unmarshal job.Data).1.Message.Metadata) }, ?_, ?_⟩
    · simp [Topic.Publish.loadJob, hdec, Run.send, Run.call, ht]
    · refine ⟨rfl, rfl, ?_, ?_⟩
      · intro e' he'; rw [hdec] at he'; cases he'
      · intro _; exact ⟨rfl, rfl, rfl⟩

theorem Sqlike.RunOperation.loadJob_operation_spec (json : Json Sqlike.RunOperation)
    (wh : Sqlike.Warehouse) (ev : Store.Event) (job : Store.Job) (t : Run Sqlike.WhCall)
    (ht : t.panicked = false) :
    ∃ seg th, Sqlike.RunOperation.loadJob json wh ev job t
        = { thens := t.thens ++ [th], calls := t.calls ++ seg, panicked := false }
      ∧ Sqlike.RunOperationOutcome json wh ev job t.calls seg th := by
  cases hdec : (json.Unmarshal job.Data).2 with
  | some e =>
    refine ⟨[], { Jobs := [job.ID], Error := some e, ForceDiscard := true }, ?_, ?_⟩
    · simp [Sqlike.RunOperation.loadJob, hdec, Run.send, ht]
    · refine ⟨rfl, rfl, ?_, ?_⟩
      · intro e' he'; rw [hdec] at he'; cases he'; exact ⟨rfl, rfl, rfl⟩
      · intro hn; rw [hdec] at hn; cases hn
  | none =>
    cases hc : wh.Compile t.calls (json.Unmarshal job.Data).1.Filename
        (json.Unmarshal job.Data).1.Data with
    | error e =>
      refine ⟨[.Compile (json.Unmarshal job.Data).1.Filename (json.Unmarshal job.Data).1.Data],
        { Jobs := [job.ID], Error := some e }, ?_, ?_⟩
      · simp [Sqlike.RunOperation.loadJob, hdec, hc, Run.send, Run.call, ht]
      · refine ⟨rfl, rfl, ?_, ?_⟩
        · intro e' he'; rw [hdec] at he'; cases he'
        · intro _
          refine ⟨rfl, ?_, ?_⟩
          · intro e' he'; rw [hc] at he'; cases he'; exact ⟨rfl, rfl⟩
          · intro op hop; rw [hc] at hop; cases hop
    | ok op =>
      refine ⟨[.Compile (json.Unmarshal job.Data).1.Filename (json.Unmarshal job.Data).1.Data,
               .Exec op],
        { Jobs := [job.ID],
          Error := wh.Exec (t.calls ++ [.Compile (json.Unmarshal job.Data).1.Filename
                    (json.Unmarshal job.Data).1.Data]) op }, ?_, ?_⟩
      · simp [Sqlike.RunOperation.loadJob, hdec, hc, Run.send, Run.call, ht]
      · refine ⟨rfl, rfl, ?_, ?_⟩
        · intro e' he'; rw [hdec] at he'; cases he'
        · intro _
          refine ⟨rfl, ?_, ?_⟩
          · intro e' he'; rw [hc] at he'; cases he'
          · intro op' hop; rw [hc] at hop; cases hop; exact ⟨rfl, rfl⟩

/-- C14: blob `Write.Load`, docstore `Put.Load`, topic `Publish.Load` and
sqlike `RunOperation.Load` run to the end and send exactly one outcome per
job, naming the job. With `segs[k]` the calls made for the `k`-th job: when
its payload does not decode, no call is made and the outcome carries the
decode error with `ForceDiscard = true`; when it decodes, `ForceDiscard` is
`false` and the outcome's error is the result of the external write
(`NewWriter`, else `Close`; `Put`; `Send`; `Compile`, else `Exec`). -/
theorem decode_failure_discards_without_write (q : Store.Queue) :
    (∀ (json : Json Blob.Write) (bucket : Blob.Bucket),
      ∃ segs : List (List Blob.Call),
        (Blob.Write.Load json bucket q).panicked = false
        ∧ (Blob.Write.Load json bucket q).calls = segs.flatten
        ∧ segs.length = q.pairs.length
        ∧ (Blob.Write.Load json bucket q).thens.length = q.pairs.length
        ∧ ∀ k ev job, q.pairs[k]? = some (ev, job) →
          ∃ seg th, segs[k]? = some seg ∧ (Blob.Write.Load json bucket q).thens[k]? = some th
            ∧ th.Jobs = [job.ID] ∧ th.OnSucceeded = []
            ∧ (∀ e, (json.Unmarshal job.Data).2 = some e →
                seg = [] ∧ th.Error = some e ∧ th.ForceDiscard = true)
            ∧ ((json.Unmarshal job.Data).2 = none →
                th.ForceDiscard = false ∧
                (∀ e, bucket (segs.take k).flatten
                    (.NewWriter (json.Unmarshal job.Data).1.Filename) = some e →
                  seg = [.NewWriter (json.Unmarshal job.Data).1.Filename] ∧ th.Error = some e) ∧
                (bucket (segs.take k).flatten
                    (.NewWriter (json.Unmarshal job.Data).1.Filename) = none →
                  seg = [.NewWriter (json.Unmarshal job.Data).1.Filename,
                         .Write (json.Unmarshal job.Data).1.Content, .Close]
                  ∧ th.Error = bucket ((segs.take k).flatten
                      ++ [.NewWriter (json.Unmarshal job.Data).1.Filename,
                          .Write (json.Unmarshal job.Data).1.Content]) .Close)))
    ∧ (∀ (json : Json Docstore.Put) (collection : Docstore.Collection),
      ∃ segs : List (List Docstore.Call),
        (Docstore.Put.Load json collection q).panicked = false
        ∧ (Docstore.Put.Load json collection q).calls = segs.flatten
        ∧ segs.length = q.pairs.length
        ∧ (Docstore.Put.Load json collection q).thens.length = q.pairs.length
        ∧ ∀ k ev job, q.pairs[k]? = some (ev, job) →
          ∃ seg th, segs[k]? = some seg
            ∧ (Docstore.Put.Load json collection q).thens[k]? = some th
            ∧ th.Jobs = [job.ID] ∧ th.OnSucceeded = []
            ∧ (∀ e, (json.Unmarshal job.Data).2 = some e →
                seg = [] ∧ th.Error = some e ∧ th.ForceDiscard = true)
            ∧ ((json.Unmarshal job.Data).2 = none →
                th.ForceDiscard = false
                ∧ seg = [.Put (json.Unmarshal job.Data).1.Document]
                ∧ th.Error = collection (segs.take k).flatten
                    (.Put (json.Unmarshal job.Data).1.Document)))
    ∧ (∀ (json : Json Topic.Publish) (topic : Topic.Broker),
      ∃ segs : List (List Topic.Call),
        (Topic.Publish.Load json topic q).panicked = false
        ∧ (Topic.Publish.Load json topic q).calls = segs.flatten
        ∧ segs.length = q.pairs.length
        ∧ (Topic.Publish.Load json topic q).thens.length = q.pairs.length
        ∧ ∀ k ev job, q.pairs[k]? = some (ev, job) →
          ∃ seg th, segs[k]? = some seg
            ∧ (Topic.Publish.Load json topic q).thens[k]? = some th
            ∧ th.Jobs = [job.ID] ∧ th.OnSucceeded = []
            ∧ (∀ e, (json.Unmarshal job.Data).2 = some e →
                seg = [] ∧ th.Error = some e ∧ th.ForceDiscard = true)
            ∧ ((json.Unmarshal job.Data).2 = none →
                th.ForceDiscard = false
                ∧ seg = [.Send (json.Unmarshal job.Data).1.Message.Body
                           (json.Unmarshal job.Data).1.Message.Metadata]
                ∧ th.Error = topic (segs.take k).flatten
                    (.Send (json.Unmarshal job.Data).1.Message.Body
                      (json.Unmarshal job.Data).1.Message.Metadata)))
    ∧ (∀ (json : Json Sqlike.RunOperation) (wh : Sqlike.Warehouse),
      ∃ segs : List (List Sqlike.WhCall),
        (Sqlike.RunOperation.Load json wh q).panicked = false
        ∧ (Sqlike.RunOperation.Load json wh q).calls = segs.flatten
        ∧ segs.length = q.pairs.length
        ∧ (Sqlike.RunOperation.Load json wh q).thens.length = q.pairs.length
        ∧ ∀ k ev job, q.pairs[k]? = some (ev, job) →
          ∃ seg th, segs[k]? = some seg
            ∧ (Sqlike.RunOperation.Load json wh q).thens[k]? = some th
            ∧ th.Jobs = [job.ID] ∧ th.OnSucceeded = []
            ∧ (∀ e, (json.Unmarshal job.Data).2 = some e →
                seg = [] ∧ th.Error = some e ∧ th.ForceDiscard = true)
            ∧ ((json.Unmarshal job.Data).2 = none →
                th.ForceDiscard = false ∧
                (∀ e, wh.Compile (segs.take k).flatten (json.Unmarshal job.Data).1.Filename
                    (json.Unmarshal job.Data).1.Data = .error e →
                  seg = [.Compile (json.Unmarshal job.Data).1.Filename
                          (json.Unmarshal job.Data).1.Data]
                    ∧ th.Error = some e) ∧
                (∀ op, wh.Compile (segs.take k).flatten (json.Unmarshal job.Data).1.Filename
                    (json.Unmarshal job.Data).1.Data = .ok op →
                  seg = [.Compile (json.Unmarshal job.Data).1.Filename
                          (json.Unmarshal job.Data).1.Data, .Exec op]
                    ∧ th.Error = wh.Exec
                        ((segs.take k).flatten
                          ++ [.Compile (json.Unmarshal job.Data).1.Filename
                                (json.Unmarshal job.Data).1.Data]) op))) := by
  refine ⟨?_, ?_, ?_, ?_⟩
  · intro json bucket
    obtain ⟨segs, hp, hc, hs⟩ := forEachJob_jobSteps (R := Blob.WriteOutcome json bucket) q
      (fun p _ t ht => Blob.Write.loadJob_write_spec json bucket p.1 p.2 t ht)
    refine ⟨segs, hp, hc, hs.seg_lengths.1, hs.seg_lengths.2, ?_⟩
    intro k ev job hk
    obtain ⟨seg, th, h1, h2, h3⟩ := hs.seg_at k ev job hk
    exact ⟨seg, th, h1, h2, h3⟩
  · intro json collection
    obtain ⟨segs, hp, hc, hs⟩ := forEachJob_jobSteps (R := Docstore.PutOutcome json collection) q
      (fun p _ t ht => Docstore.Put.loadJob_put_spec json collection p.1 p.2 t ht)
    refine ⟨segs, hp, hc, hs.seg_lengths.1, hs.seg_lengths.2, ?_⟩
    intro k ev job hk
    obtain ⟨seg, th, h1, h2, h3⟩ := hs.seg_at k ev job hk
    exact ⟨seg, th, h1, h2, h3⟩
  · intro json topic
    obtain ⟨segs, hp, hc, hs⟩ := forEachJob_jobSteps (R := Topic.PublishOutcome json topic) q
      (fun p _ t ht => Topic.Publish.loadJob_publish_spec json topic p.1 p.2 t ht)
    refine ⟨segs, hp, hc, hs.seg_lengths.1, hs.seg_lengths.2, ?_⟩
    intro k ev job hk
    obtain ⟨seg, th, h1, h2, h3⟩ := hs.seg_at k ev job hk
    exact ⟨seg, th, h1, h2, h3⟩
  · intro json wh
    obtain ⟨segs, hp, hc, hs⟩ := forEachJob_jobSteps (R := Sqlike.RunOperationOutcome json wh) q
      (fun p _ t ht => Sqlike.RunOperation.loadJob_operation_spec json wh p.1 p.2 t ht)
    refine ⟨segs, hp, hc, hs.seg_lengths.1, hs.seg_lengths.2, ?_⟩
    intro k ev job hk
    obtain ⟨seg, th, h1, h2, h3⟩ := hs.seg_at k ev job hk
    exact ⟨seg, th, h1, h2, h3⟩

/-- Instance of C14: docstore `Put.Load` on a one-job batch whose payload does
not decode: one outcome, terminal, carrying the decode error, and no call on
the collection. -/
theorem decode_failure_discards_without_write_witness :
    (Docstore.Put.Load (Json.failing {} "unexpected end of JSON input") (fun _ _ => none)
        (Store.Queue.single "j1")).calls.length = 0
    ∧ ∃ th, (Docstore.Put.Load (Json.failing {} "unexpected end of JSON input") (fun _ _ => none)
        (Store.Queue.single "j1")).thens[0]? = some th
      ∧ th.Jobs = ["j1"]
      ∧ th.Error = some (.other "unexpected end of JSON input")
      ∧ th.ForceDiscard = true :=
  ⟨rfl,
   match (decode_failure_discards_without_write (Store.Queue.single "j1")).2.1
      (Json.failing {} "unexpected end of JSON input") (fun _ _ => none) with
   | ⟨_, _, _, _, _, hall⟩ =>
     match hall 0 { Jobs := [{ ID := "j1" }] } { ID := "j1" } rfl with
     | ⟨_, th, _, hth, hjobs, _, hfail, _⟩ =>
       ⟨th, hth, hjobs, (hfail _ rfl).2.1, (hfail _ rfl).2.2⟩⟩

/-- C15 (refuted on the code): the HTTP loads drop the error of
`json.Unmarshal`. For a one-job batch whose payload does not decode, answered
200, `Page.Load`, `Identify.Load` and `Alias.Load` send a success outcome
(`Error = nil`, `ForceDiscard = false`); answered 503, `Page.Load` sends a
retryable outcome; and `Group.Load` answered 200 panics without an outcome. -/
theorem undecodable_job_is_not_reported_terminal :
    (Amplitude.Codec.undecodable.page.Unmarshal []).2 = some (.other "invalid character")
    ∧ (Amplitude.Page.Load {} Amplitude.Codec.undecodable (Client.always 200 "")
        (Store.Queue.single "j1")).thens
        = [{ Jobs := ["j1"], Error := none, ForceDiscard := false }]
    ∧ (Amplitude.Page.Load {} Amplitude.Codec.undecodable (Client.always 503 "busy")
        (Store.Queue.single "j1")).thens
        = [{ Jobs := ["j1"], Error := some (.blacksmith { StatusCode := 503, Message := "busy" }),
             ForceDiscard := false }]
    ∧ (Mailchimp.Identify.Load {} Std.blank Mailchimp.Codec.undecodable (Client.always 200 "")
        (Store.Queue.single "j1")).thens
        = [{ Jobs := ["j1"], Error := none, ForceDiscard := false }]
    ∧ (Segment.Alias.Load {} Std.blank Segment.Codec.undecodable (Client.always 200 "")
        (Store.Queue.single "j1")).thens
        = [{ Jobs := ["j1"], Error := none, ForceDiscard := false }]
    ∧ (Amplitude.Group.Load {} Amplitude.Codec.undecodable (Client.always 200 "")
        (Store.Queue.single "j1")).thens = []
    ∧ (Amplitude.Group.Load {} Amplitude.Codec.undecodable (Client.always 200 "")
        (Store.Queue.single "j1")).panicked = true :=
  ⟨rfl, rfl, rfl, rfl, rfl, rfl, rfl⟩

theorem oracleAfter_nil {κ ρ : Type} (c : List κ → κ → ρ) : oracleAfter c [] = c := by
  funext h x; simp [oracleAfter]

theorem oracleAfter_append {κ ρ : Type} (c : List κ → κ → ρ) (a b : List κ) :
    oracleAfter (oracleAfter c a) b = oracleAfter c (a ++ b) := by
  funext h x; simp [oracleAfter, List.append_assoc]

theorem oracleAfter_of_stateless {κ ρ : Type} (c : List κ → κ → ρ)
    (hc : ∀ h x, c h x = c [] x) (a : List κ) : oracleAfter c a = c := by
  funext h x
  simp only [oracleAfter]
  rw [hc (a ++ h) x, hc h x]

theorem Store.Queue.pairs_append (b1 b2 : Store.Queue) :
    (b1.append b2).pairs = b1.pairs ++ b2.pairs := by
  simp [Store.Queue.append, Store.Queue.pairs, List.flatMap_append]

theorem Run.append_empty {κ : Type} (t : Run κ) (ht : t.panicked = false) :
    t.append {} = t := by
  cases t; simp_all [Run.append]

theorem Run.append_assoc {κ : Type} (a b c : Run κ) :
    (a.append b).append c = a.append (b.append c) := by
  simp [Run.append, List.append_assoc]

theorem foldl_oracleAfter {κ ρ : Type}
    (body : (List κ → κ → ρ) → Store.Event → Store.Job → Run κ → Run κ)
    (htrans : ∀ c ev job (t : Run κ), t.panicked = false →
      body c ev job t = t.append (body (oracleAfter c t.calls) ev job {}))
    (ps : List (Store.Event × Store.Job)) (c : List κ → κ → ρ) (t : Run κ)
    (ht : t.panicked = false) :
    ps.foldl (fun t p => if t.panicked then t else body c p.1 p.2 t) t
      = t.append
          (ps.foldl (fun r p => if r.panicked then r else body (oracleAfter c t.calls) p.1 p.2 r)
            {}) := by
  induction ps generalizing c t with
  | nil => simp [Run.append_empty t ht]
  | cons p ps ih =>
    have hb := htrans c p.1 p.2 t ht
    simp only [List.foldl_cons, ht, Bool.false_eq_true, if_false]
    by_cases hp : (body (oracleAfter c t.calls) p.1 p.2 {}).panicked = true
    · rw [foldl_panicked (body (oracleAfter c t.calls)) ps _ hp, hb]
      exact foldl_panicked (body c) ps _ (by simpa [Run.append] using hp)
    · have hp' : (body (oracleAfter c t.calls) p.1 p.2 {}).panicked = false := by
        simpa using hp
      rw [hb, ih c _ (by simpa [Run.append] using hp'),
        ih (oracleAfter c t.calls) _ hp', oracleAfter_append, Run.append_assoc]
      rfl

theorem forEachJob_append {κ ρ : Type}
    (body : (List κ → κ → ρ) → Store.Event → Store.Job → Run κ → Run κ)
    (htrans : ∀ c ev job (t : Run κ), t.panicked = false →
      body c ev job t = t.append (body (oracleAfter c t.calls) ev job {}))
    (c : List κ → κ → ρ) (b1 b2 : Store.Queue)
    (h1 : (forEachJob (body c) b1 {}).panicked = false) :
    forEachJob (body c) (b1.append b2) {}
      = (forEachJob (body c) b1 {}).append
          (forEachJob (body (oracleAfter c (forEachJob (body c) b1 {}).calls)) b2 {}) := by
  have e1 : forEachJob (body c) (b1.append b2) {}
      = b2.pairs.foldl (fun t p => if t.panicked then t else body c p.1 p.2 t)
          (forEachJob (body c) b1 {}) := by
    rw [forEachJob_eq_foldl, Store.Queue.pairs_append, List.foldl_append,
      forEachJob_eq_foldl (body c) b1]
  rw [e1, foldl_oracleAfter body htrans b2.pairs c _ h1, ← forEachJob_eq_foldl]

theorem Amplitude.Page.loadJob_page_after (env : Amplitude.Options) (codec : Amplitude.Codec)
    (c : Client) (ev : Store.Event) (job : Store.Job) (t : Trace) (ht : t.panicked = false) :
    Amplitude.Page.loadJob env codec c ev job t
      = t.append (Amplitude.Page.loadJob env codec (oracleAfter c t.calls) ev job {}) := by
  simp only [Amplitude.Page.loadJob, oracleAfter, List.append_nil]
  cases c t.calls (Amplitude.Page.request env codec job) with
  | error err => simp [Run.append, Run.send, Run.call, ht]
  | ok res =>
    by_cases hs : res.StatusCode ≥ 300
    · simp [hs, Run.append, Run.send, Run.call, ht]
    · simp [hs, Run.append, Run.send, Run.call, ht]

theorem Mailchimp.Identify.loadJob_identify_after (env : Mailchimp.Options) (std : Std)
    (codec : Mailchimp.Codec) (c : Client) (ev : Store.Event) (job : Store.Job) (t : Trace)
    (ht : t.panicked = false) :
    Mailchimp.Identify.loadJob env std codec c ev job t
      = t.append (Mailchimp.Identify.loadJob env std codec (oracleAfter c t.calls) ev job {}) := by
  simp only [Mailchimp.Identify.loadJob, oracleAfter, List.append_nil]
  by_cases hu : std.urlParse
      (Mailchimp.Identify.url env std (codec.identify.Unmarshal job.Data).1) = false
  · simp [hu, Run.append, Run.panic]
  · simp only [hu, if_false]
    cases c t.calls (Mailchimp.Identify.request env std codec job) with
    | error err => simp [Run.append, Run.send, Run.call, ht]
    | ok res =>
      by_cases hs : res.StatusCode ≥ 300
      · simp [hs, Run.append, Run.send, Run.call, ht]
      · simp [hs, Run.append, Run.send, Run.call, ht]

theorem Segment.Alias.loadJob_alias_after (env : Segment.Options) (std : Std)
    (codec : Segment.Codec) (c : Client) (ev : Store.Event) (job : Store.Job) (t : Trace)
    (ht : t.panicked = false) :
    Segment.Alias.loadJob env std codec c ev job t
      = t.append (Segment.Alias.loadJob env std codec (oracleAfter c t.calls) ev job {}) := by
  simp only [Segment.Alias.loadJob, oracleAfter, List.append_nil]
  cases c t.calls (Segment.Alias.request env std codec job) with
  | error err => simp [Run.append, Run.send, Run.call, ht]
  | ok res =>
    by_cases hs : res.StatusCode ≥ 300
    · simp [hs, Run.append, Run.send, Run.call, ht]
    · simp [hs, Run.append, Run.send, Run.call, ht]

theorem Blob.Write.loadJob_write_after (json : Json Blob.Write) (c : Blob.Bucket)
    (ev : Store.Event) (job : Store.Job) (t : Run Blob.Call) (ht : t.panicked = false) :
    Blob.Write.loadJob json c ev job t
      = t.append (Blob.Write.loadJob json (oracleAfter c t.calls) ev job {}) := by
  simp only [Blob.Write.loadJob, oracleAfter, List.append_nil]
  cases (json.Unmarshal job.Data).2 with
  | some e => simp [Run.append, Run.send, ht]
  | none =>
    simp only []
    cases c t.calls (.NewWriter (json.Unmarshal job.Data).1.Filename) with
    | some e => simp [Run.append, Run.send, Run.call, ht]
    | none => simp [Run.append, Run.send, Run.call, ht]

theorem Docstore.Put.loadJob_put_after (json : Json Docstore.Put) (c : Docstore.Collection)
    (ev : Store.Event) (job : Store.Job) (t : Run Docstore.Call) (ht : t.panicked = false) :
    Docstore.Put.loadJob json c ev job t
      = t.append (Docstore.Put.loadJob json (oracleAfter c t.calls) ev job {}) := by
  simp only [Docstore.Put.loadJob, oracleAfter, List.append_nil]
  cases (json.Unmarshal job.Data).2 with
  | some e => simp [Run.append, Run.send, ht]
  | none => simp [Run.append, Run.send, Run.call, ht]

theorem Topic.Publish.loadJob_publish_after (json : Json Topic.Publish) (c : Topic.Broker)
    (ev : Store.Event) (job : Store.Job) (t : Run Topic.Call) (ht : t.panicked = false) :
    Topic.Publish.loadJob json c ev job t
      = t.append (Topic.Publish.loadJob json (oracleAfter c t.calls) ev job {}) := by
  simp only [Topic.Publish.loadJob, oracleAfter, List.append_nil]
  cases (json.Unmarshal job.Data).2 with
  | some e => simp [Run.append, Run.send, ht]
  | none => simp [Run.append, Run.send, Run.call, ht]

theorem forEachJob_append_thens {κ ρ : Type}
    (body : (List κ → κ → ρ) → Store.Event → Store.Job → Run κ → Run κ)
    (htrans : ∀ c ev job (t : Run κ), t.panicked = false →
      body c ev job t = t.append (body (oracleAfter c t.calls) ev job {}))
    (c : List κ → κ → ρ) (b1 b2 : Store.Queue)
    (h1 : (forEachJob (body c) b1 {}).panicked = false) :
    (forEachJob (body c) (b1.append b2) {}).thens
        = (forEachJob (body c) b1 {}).thens
          ++ (forEachJob (body (oracleAfter c (forEachJob (body c) b1 {}).calls)) b2 {}).thens
    ∧ ((∀ h x, c h x = c [] x) →
        (forEachJob (body c) (b1.append b2) {}).thens
          = (forEachJob (body c) b1 {}).thens ++ (forEachJob (body c) b2 {}).thens) := by
  have h := forEachJob_append body htrans c b1 b2 h1
  refine ⟨by rw [h]; rfl, fun hc => ?_⟩
  rw [h, oracleAfter_of_stateless c hc]; rfl

theorem Blob.Write.Load_write_runs (json : Json Blob.Write) (bucket : Blob.Bucket)
    (q : Store.Queue) : (Blob.Write.Load json bucket q).panicked = false := by
  obtain ⟨_, hp, _, _⟩ := forEachJob_jobSteps (R := Blob.WriteOutcome json bucket) q
    (fun p _ t ht => Blob.Write.loadJob_write_spec json bucket p.1 p.2 t ht)
  exact hp

theorem Docstore.Put.Load_put_runs (json : Json Docstore.Put) (collection : Docstore.Collection)
    (q : Store.Queue) : (Docstore.Put.Load json collection q).panicked = false := by
  obtain ⟨_, hp, _, _⟩ := forEachJob_jobSteps (R := Docstore.PutOutcome json collection) q
    (fun p _ t ht => Docstore.Put.loadJob_put_spec json collection p.1 p.2 t ht)
  exact hp

theorem Topic.Publish.Load_publish_runs (json : Json Topic.Publish) (topic : Topic.Broker)
    (q : Store.Queue) : (Topic.Publish.Load json topic q).panicked = false := by
  obtain ⟨_, hp, _, _⟩ := forEachJob_jobSteps (R := Topic.PublishOutcome json topic) q
    (fun p _ t ht => Topic.Publish.loadJob_publish_spec json topic p.1 p.2 t ht)
  exact hp

/-- C16: the per-job loads keep no state between jobs. For two batches `b1`
and `b2` the outcomes of `Load` on `b1` followed by `b2` are the outcomes of
`Load` on `b1` followed by those of `Load` on `b2` run against the
collaborator as it answers after the calls of `b1`; when the collaborator's
answer to a call does not depend on earlier calls, they are the outcomes of
`Load b1` followed by those of `Load b2`. This holds for amplitude `Page`,
segment `Alias`, blob `Write`, docstore `Put`, topic `Publish`, and for
mailchimp `Identify` when its run on `b1` did not panic. -/
theorem per_job_loads_are_independent (b1 b2 : Store.Queue) :
    (∀ (env : Amplitude.Options) (codec : Amplitude.Codec) (client : Client),
      (Amplitude.Page.Load env codec client (b1.append b2)).thens
          = (Amplitude.Page.Load env codec client b1).thens
            ++ (Amplitude.Page.Load env codec
                (oracleAfter client (Amplitude.Page.Load env codec client b1).calls) b2).thens
      ∧ ((∀ h x, client h x = client [] x) →
          (Amplitude.Page.Load env codec client (b1.append b2)).thens
            = (Amplitude.Page.Load env codec client b1).thens
              ++ (Amplitude.Page.Load env codec client b2).thens))
    ∧ (∀ (env : Mailchimp.Options) (std : Std) (codec : Mailchimp.Codec) (client : Client),
      (Mailchimp.Identify.Load env std codec client b1).panicked = false →
      (Mailchimp.Identify.Load env std codec client (b1.append b2)).thens
          = (Mailchimp.Identify.Load env std codec client b1).thens
            ++ (Mailchimp.Identify.Load env std codec
                (oracleAfter client (Mailchimp.Identify.Load env std codec client b1).calls)
                b2).thens
      ∧ ((∀ h x, client h x = client [] x) →
          (Mailchimp.Identify.Load env std codec client (b1.append b2)).thens
            = (Mailchimp.Identify.Load env std codec client b1).thens
              ++ (Mailchimp.Identify.Load env std codec client b2).thens))
    ∧ (∀ (env : Segment.Options) (std : Std) (codec : Segment.Codec) (client : Client),
      (Segment.Alias.Load env std codec client (b1.append b2)).thens
          = (Segment.Alias.Load env std codec client b1).thens
            ++ (Segment.Alias.Load env std codec
                (oracleAfter client (Segment.Alias.Load env std codec client b1).calls) b2).thens
      ∧ ((∀ h x, client h x = client [] x) →
          (Segment.Alias.Load env std codec client (b1.append b2)).thens
            = (Segment.Alias.Load env std codec client b1).thens
              ++ (Segment.Alias.Load env std codec client b2).thens))
    ∧ (∀ (json : Json Blob.Write) (bucket : Blob.Bucket),
      (Blob.Write.Load json bucket (b1.append b2)).thens
          = (Blob.Write.Load json bucket b1).thens
            ++ (Blob.Write.Load json
                (oracleAfter bucket (Blob.Write.Load json bucket b1).calls) b2).thens
      ∧ ((∀ h x, bucket h x = bucket [] x) →
          (Blob.Write.Load json bucket (b1.append b2)).thens
            = (Blob.Write.Load json bucket b1).thens ++ (Blob.Write.Load json bucket b2).thens))
    ∧ (∀ (json : Json Docstore.Put) (collection : Docstore.Collection),
      (Docstore.Put.Load json collection (b1.append b2)).thens
          = (Docstore.Put.Load json collection b1).thens
            ++ (Docstore.Put.Load json
                (oracleAfter collection (Docstore.Put.Load json collection b1).calls) b2).thens
      ∧ ((∀ h x, collection h x = collection [] x) →
          (Docstore.Put.Load json collection (b1.append b2)).thens
            = (Docstore.Put.Load json collection b1).thens
              ++ (Docstore.Put.Load json collection b2).thens))
    ∧ (∀ (json : Json Topic.Publish) (topic : Topic.Broker),
      (Topic.Publish.Load json topic (b1.append b2)).thens
          = (Topic.Publish.Load json topic b1).thens
            ++ (Topic.Publish.Load json
                (oracleAfter topic (Topic.Publish.Load json topic b1).calls) b2).thens
      ∧ ((∀ h x, topic h x = topic [] x) →
          (Topic.Publish.Load json topic (b1.append b2)).thens
            = (Topic.Publish.Load json topic b1).thens
              ++ (Topic.Publish.Load json topic b2).thens)) := by
  refine ⟨?_, ?_, ?_, ?_, ?_, ?_⟩
  · intro env codec client
    exact forEachJob_append_thens (fun c => Amplitude.Page.loadJob env codec c)
      (fun c ev job t ht => Amplitude.Page.loadJob_page_after env codec c ev job t ht)
      client b1 b2 (Amplitude.Page.Load_page_steps env codec client b1).1
  · intro env std codec client h1
    exact forEachJob_append_thens (fun c => Mailchimp.Identify.loadJob env std codec c)
      (fun c ev job t ht => Mailchimp.Identify.loadJob_identify_after env std codec c ev job t ht)
      client b1 b2 h1
  · intro env std codec client
    exact forEachJob_append_thens (fun c => Segment.Alias.loadJob env std codec c)
      (fun c ev job t ht => Segment.Alias.loadJob_alias_after env std codec c ev job t ht)
      client b1 b2 (Segment.Alias.Load_alias_steps env std codec client b1).1
  · intro json bucket
    exact forEachJob_append_thens (fun c => Blob.Write.loadJob json c)
      (fun c ev job t ht => Blob.Write.loadJob_write_after json c ev job t ht)
      bucket b1 b2 (Blob.Write.Load_write_runs json bucket b1)
  · intro json collection
    exact forEachJob_append_thens (fun c => Docstore.Put.loadJob json c)
      (fun c ev job t ht => Docstore.Put.loadJob_put_after json c ev job t ht)
      collection b1 b2 (Docstore.Put.Load_put_runs json collection b1)
  · intro json topic
    exact forEachJob_append_thens (fun c => Topic.Publish.loadJob json c)
      (fun c ev job t ht => Topic.Publish.loadJob_publish_after json c ev job t ht)
      topic b1 b2 (Topic.Publish.Load_publish_runs json topic b1)

/-- Instance of C16: mailchimp `Identify.Load` on the one-job batch `j0`
followed by the three-job batch, every request answered 400 (a terminal
failure for each job). -/
theorem per_job_loads_are_independent_witness :
    (Mailchimp.Identify.Load {} Std.blank Mailchimp.Codec.blank (Client.always 400 "")
        ((Store.Queue.single "j0").append Store.Queue.three)).thens
      = (Mailchimp.Identify.Load {} Std.blank Mailchimp.Codec.blank (Client.always 400 "")
          (Store.Queue.single "j0")).thens
        ++ (Mailchimp.Identify.Load {} Std.blank Mailchimp.Codec.blank (Client.always 400 "")
            Store.Queue.three).thens :=
  ((per_job_loads_are_independent (Store.Queue.single "j0") Store.Queue.three).2.1
    {} Std.blank Mailchimp.Codec.blank (Client.always 400 "") rfl).2 (fun _ _ => rfl)

theorem Amplitude.assignAt_append (pre suf : List Amplitude.Event) (x : Amplitude.Event)
    (f : Amplitude.Event → Amplitude.Event) :
    Amplitude.assignAt (pre ++ x :: suf) pre.length f = pre ++ f x :: suf := by
  have h : (pre ++ x :: suf)[pre.length]? = some x := by
    rw [List.getElem?_append_right (le_refl _)]; simp
  unfold Amplitude.assignAt
  rw [h]
  simp

theorem Amplitude.Page.rewriteAt_append (insertId : String) (pre suf : List Amplitude.Event)
    (x : Amplitude.Event) :
    Amplitude.Page.rewriteAt insertId (pre ++ x :: suf) pre.length
      = pre ++ { x with InsertId := insertId, Event := "Viewed page '" ++ x.Event ++ "'" }
          :: suf := by
  simp only [Amplitude.Page.rewriteAt, Amplitude.assignAt_append]

theorem Amplitude.Page.rewrite_range' (insertId : String) (suf pre : List Amplitude.Event) :
    (List.range' pre.length suf.length).foldl (Amplitude.Page.rewriteAt insertId) (pre ++ suf)
      = pre ++ suf.map (fun e =>
          { e with InsertId := insertId, Event := "Viewed page '" ++ e.Event ++ "'" }) := by
  induction suf generalizing pre with
  | nil => simp
  | cons x suf ih =>
    simp only [List.length_cons, List.range'_succ, List.foldl_cons,
      Amplitude.Page.rewriteAt_append, List.map_cons]
    have h := ih (pre ++ [{ x with InsertId := insertId,
                                   Event := "Viewed page '" ++ x.Event ++ "'" }])
    simp only [List.length_append, List.length_singleton, List.append_assoc,
      List.singleton_append] at h
    exact h

theorem Amplitude.Page.rewriteEvents_eq_map (insertId : String)
    (events : List Amplitude.Event) :
    Amplitude.Page.rewriteEvents insertId events
      = events.map (fun e =>
          { e with InsertId := insertId, Event := "Viewed page '" ++ e.Event ++ "'" }) := by
  have h := Amplitude.Page.rewrite_range' insertId events []
  simpa [Amplitude.Page.rewriteEvents, List.range_eq_range'] using h

/-- C11 (refuted as stated): `Marshal` does not clear the `APIKey` field. With
a codec that gives back the `api_key` it encoded, marshalling a `Page` or a
`Group` whose `APIKey` is `"secret"` returns a job whose `Data` decodes to
`APIKey = "secret"`. -/
theorem Amplitude.Marshal_persists_api_key :
    Amplitude.Page.Marshal Amplitude.pageKeyCodec "tok" { APIKey := "secret" }
        = .ok { Version := "v2.0", Data := [115, 101, 99, 114, 101, 116] }
    ∧ (Amplitude.pageKeyCodec.Unmarshal [115, 101, 99, 114, 101, 116]).1.APIKey = "secret"
    ∧ Amplitude.Group.Marshal Amplitude.groupKeyCodec { APIKey := "secret" }
        = .ok { Version := "v2.0", Data := [115, 101, 99, 114, 101, 116] }
    ∧ (Amplitude.groupKeyCodec.Unmarshal [115, 101, 99, 114, 101, 116]).1.APIKey = "secret"
    ∧ "secret" ≠ "" := by
  refine ⟨rfl, rfl, rfl, rfl, by decide⟩

/-- C11 (amended): the `Data` of the job `Page.Marshal` or `Group.Marshal`
returns is the encoding of the action with its `APIKey` field as it is when
`Marshal` is called; when decoding gives back the encoded `api_key`, the
`Data` decodes to that same `APIKey`, which is `""` when the action's
`APIKey` is empty. -/
theorem Amplitude.Marshal_keeps_api_key_field :
    (∀ (json : Json Amplitude.Page) (insertId : String) (a : Amplitude.Page)
        (job : Destination.Job),
      Amplitude.Page.Marshal json insertId a = .ok job →
      json.Marshal (Amplitude.Page.payload insertId a) = .ok job.Data
      ∧ (Amplitude.Page.payload insertId a).APIKey = a.APIKey
      ∧ ((json.Unmarshal job.Data).1.APIKey = (Amplitude.Page.payload insertId a).APIKey →
          (json.Unmarshal job.Data).1.APIKey = a.APIKey
          ∧ (a.APIKey = "" → (json.Unmarshal job.Data).1.APIKey = "")))
    ∧ (∀ (json : Json Amplitude.Group) (a : Amplitude.Group) (job : Destination.Job),
      Amplitude.Group.Marshal json a = .ok job →
      json.Marshal a = .ok job.Data
      ∧ ((json.Unmarshal job.Data).1.APIKey = a.APIKey →
          (a.APIKey = "" → (json.Unmarshal job.Data).1.APIKey = ""))) := by
  constructor
  · intro json insertId a job h
    simp only [Amplitude.Page.Marshal, marshalJob] at h
    cases hm : json.Marshal (Amplitude.Page.payload insertId a) with
    | error e => rw [hm] at h; cases h
    | ok data =>
      rw [hm] at h
      cases h
      refine ⟨rfl, rfl, fun hrt => ⟨hrt, fun he => ?_⟩⟩
      rw [hrt]; exact he
  · intro json a job h
    simp only [Amplitude.Group.Marshal, marshalJob] at h
    cases hm : json.Marshal a with
    | error e => rw [hm] at h; cases h
    | ok data =>
      rw [hm] at h
      cases h
      exact ⟨rfl, fun hrt he => by rw [hrt]; exact he⟩

/-- Instance of the amended C11: actions with an empty `APIKey`. -/
theorem Amplitude.Marshal_keeps_api_key_field_witness :
    ((Amplitude.pageKeyCodec.Unmarshal []).1.APIKey = ""
      ∧ ((""  : String) = "" → (Amplitude.pageKeyCodec.Unmarshal []).1.APIKey = ""))
    ∧ ((""  : String) = "" → (Amplitude.groupKeyCodec.Unmarshal []).1.APIKey = "") :=
  ⟨((Amplitude.Marshal_keeps_api_key_field).1 Amplitude.pageKeyCodec "tok"
      { APIKey := "", Events := [{ Event := "home" }] } { Version := "v2.0", Data := [] }
      rfl).2.2 rfl,
   ((Amplitude.Marshal_keeps_api_key_field).2 Amplitude.groupKeyCodec
      { APIKey := "" } { Version := "v2.0", Data := [] } rfl).2 rfl⟩

/-- C17: `Page.Marshal` encodes the action with every event's `InsertId` set
to the one token of the call and every event's name rewritten to
`"Viewed page '" ++ name ++ "'"`, the other fields of the events and of the
action being unchanged; it returns the job `{Version: "v2.0", Data}` of that
encoding, or `400 Bad Request` when encoding fails. -/
theorem Amplitude.Page.Marshal_shares_one_token (json : Json Amplitude.Page)
    (insertId : String) (a : Amplitude.Page) :
    (Amplitude.Page.payload insertId a).APIKey = a.APIKey
    ∧ (Amplitude.Page.payload insertId a).Events
        = a.Events.map (fun e =>
            { e with InsertId := insertId, Event := "Viewed page '" ++ e.Event ++ "'" })
    ∧ (Amplitude.Page.payload insertId a).Events.length = a.Events.length
    ∧ (∀ e ∈ (Amplitude.Page.payload insertId a).Events, e.InsertId = insertId)
    ∧ (∀ data, json.Marshal (Amplitude.Page.payload insertId a) = .ok data →
        Amplitude.Page.Marshal json insertId a = .ok { Version := "v2.0", Data := data })
    ∧ (∀ err, json.Marshal (Amplitude.Page.payload insertId a) = .error err →
        Amplitude.Page.Marshal json insertId a = .error badRequest) := by
  have hmap := Amplitude.Page.rewriteEvents_eq_map insertId a.Events
  refine ⟨rfl, hmap, ?_, ?_, ?_, ?_⟩
  · simp [Amplitude.Page.payload, hmap]
  · intro e he
    simp only [Amplitude.Page.payload, hmap, List.mem_map] at he
    obtain ⟨e0, -, rfl⟩ := he
    rfl
  · intro data h
    simp only [Amplitude.Page.Marshal, marshalJob, h]
  · intro err h
    simp only [Amplitude.Page.Marshal, marshalJob, h]

/-- Instance of C17: an action with the two events `home` and `pricing`. -/
theorem Amplitude.Page.Marshal_shares_one_token_witness :
    (Amplitude.Page.payload "tok" { Events := [{ Event := "home" }, { Event := "pricing" }] }).Events
      = [{ Event := "Viewed page 'home'", InsertId := "tok" },
         { Event := "Viewed page 'pricing'", InsertId := "tok" }]
    ∧ Amplitude.Page.Marshal (Json.blank {}) "tok"
        { Events := [{ Event := "home" }, { Event := "pricing" }] }
      = .ok { Version := "v2.0", Data := [] } :=
  ⟨(Amplitude.Page.Marshal_shares_one_token (Json.blank {}) "tok"
      { Events := [{ Event := "home" }, { Event := "pricing" }] }).2.1,
   (Amplitude.Page.Marshal_shares_one_token (Json.blank {}) "tok"
      { Events := [{ Event := "home" }, { Event := "pricing" }] }).2.2.2.2.1 [] rfl⟩

/-- C18 (refuted as stated): two `Page.Marshal` calls generate two tokens. For
an action with the one event `home`, a first call that generated `tok1` and a
second call that generated `tok2` (on the action as the first call left it, or
on the action as first built) produce payloads whose `insert_id`s differ. -/
theorem Amplitude.Page.Marshal_twice_tokens_differ :
    (Amplitude.Page.payload "tok1" { Events := [{ Event := "home" }] }).Events.map
        (fun e => e.InsertId) = ["tok1"]
    ∧ (Amplitude.Page.payload "tok2"
        (Amplitude.Page.payload "tok1" { Events := [{ Event := "home" }] })).Events.map
        (fun e => e.InsertId) = ["tok2"]
    ∧ (Amplitude.Page.payload "tok2" { Events := [{ Event := "home" }] }).Events.map
        (fun e => e.InsertId) = ["tok2"]
    ∧ (["tok1"] : List String) ≠ ["tok2"] := by
  refine ⟨rfl, rfl, rfl, by decide⟩

/-- C18 (amended): every event of the payload of one `Page.Marshal` call
carries the token generated in that call; for an action with at least one
event, the payloads of two calls (the second on the action as the first call
left it) carry the same `insert_id`s if and only if the two calls generated
the same token. -/
theorem Amplitude.Page.Marshal_token_per_call (t1 t2 : String) (a : Amplitude.Page) :
    (∀ e ∈ (Amplitude.Page.payload t1 a).Events, e.InsertId = t1)
    ∧ (∀ e ∈ (Amplitude.Page.payload t2 (Amplitude.Page.payload t1 a)).Events, e.InsertId = t2)
    ∧ (a.Events ≠ [] →
        ((Amplitude.Page.payload t1 a).Events.map (fun e => e.InsertId)
            = (Amplitude.Page.payload t2 (Amplitude.Page.payload t1 a)).Events.map
                (fun e => e.InsertId)
          ↔ t1 = t2)) := by
  have h1 : (Amplitude.Page.payload t1 a).Events.map (fun e => e.InsertId)
      = a.Events.map (fun _ => t1) := by
    simp [Amplitude.Page.payload, Amplitude.Page.rewriteEvents_eq_map, Function.comp_def]
  have h2 : (Amplitude.Page.payload t2 (Amplitude.Page.payload t1 a)).Events.map
      (fun e => e.InsertId) = a.Events.map (fun _ => t2) := by
    simp [Amplitude.Page.payload, Amplitude.Page.rewriteEvents_eq_map, Function.comp_def]
  have hmem : ∀ (t : String) (b : Amplitude.Page),
      ∀ e ∈ (Amplitude.Page.payload t b).Events, e.InsertId = t := by
    intro t b e he
    simp only [Amplitude.Page.payload, Amplitude.Page.rewriteEvents_eq_map, List.mem_map] at he
    obtain ⟨e0, -, rfl⟩ := he
    rfl
  refine ⟨hmem t1 a, hmem t2 _, fun hne => ?_⟩
  rw [h1, h2]
  constructor
  · intro h
    cases hev : a.Events with
    | nil => exact absurd hev hne
    | cons x xs =>
      rw [hev] at h
      simp only [List.map_cons, List.cons.injEq] at h
      exact h.1
  · intro h; rw [h]

/-- Instance of the amended C18: the action with the one event `home`, the
tokens `tok1` and `tok2`. -/
theorem Amplitude.Page.Marshal_token_per_call_witness :
    (Amplitude.Page.payload "tok1" { Events := [{ Event := "home" }] }).Events.map
          (fun e => e.InsertId)
        = (Amplitude.Page.payload "tok2"
            (Amplitude.Page.payload "tok1" { Events := [{ Event := "home" }] })).Events.map
            (fun e => e.InsertId)
      ↔ "tok1" = "tok2" :=
  (Amplitude.Page.Marshal_token_per_call "tok1" "tok2" { Events := [{ Event := "home" }] }).2.2
    (List.cons_ne_nil _ _)

theorem marshalJob_ok {α : Type} (json : Json α) (a : α) (mk : Bytes → Destination.Job)
    (job : Destination.Job) (h : marshalJob json a mk = .ok job) :
    ∃ data, json.Marshal a = .ok data ∧ job = mk data := by
  unfold marshalJob at h
  cases hm : json.Marshal a with
  | error e => rw [hm] at h; cases h
  | ok data => rw [hm] at h; cases h; exact ⟨data, rfl, rfl⟩

/-- C19: a job returned by `Marshal` has `Version` `"v2.0"` for amplitude
`Page` and `Group`, `"v3.0"` for mailchimp `Identify` and `"v1.0"` for segment
`Alias`; a destination returned by `New` has that string as `DefaultVersion`
and as the one key of `Versions`; a job returned by `Marshal` of blob `Write`,
docstore `Put`, topic `Publish`, sqlike `RunStatements` or `RunOperation` has
an empty `Version`. -/
theorem Marshal_assigns_schema_version (job : Destination.Job) :
    (∀ (json : Json Amplitude.Page) (insertId : String) (a : Amplitude.Page),
      Amplitude.Page.Marshal json insertId a = .ok job → job.Version = "v2.0")
    ∧ (∀ (json : Json Amplitude.Group) (a : Amplitude.Group),
      Amplitude.Group.Marshal json a = .ok job → job.Version = "v2.0")
    ∧ (∀ (json : Json Mailchimp.Signup) (lib : Mailchimp.Strings) (a : Mailchimp.Signup),
      Mailchimp.Identify.Marshal json lib a = .ok job → job.Version = "v3.0")
    ∧ (∀ (json : Json Segment.Alias) (a : Segment.Alias),
      Segment.Alias.Marshal json a = .ok job → job.Version = "v1.0")
    ∧ (∀ (defaults : Destination.Schedule) (env : Option Amplitude.Options)
        (d : Amplitude.Destination),
      (Amplitude.New defaults env).destination = some d →
      d.options.DefaultVersion = "v2.0" ∧ d.options.Versions.map Prod.fst = ["v2.0"])
    ∧ (∀ (defaults : Destination.Schedule) (env : Option Mailchimp.Options)
        (d : Mailchimp.Destination),
      (Mailchimp.New defaults env).destination = some d →
      d.options.DefaultVersion = "v3.0" ∧ d.options.Versions.map Prod.fst = ["v3.0"])
    ∧ (∀ (defaults : Destination.Schedule) (env : Option Segment.Options)
        (d : Segment.Destination),
      (Segment.New defaults env).destination = some d →
      d.options.DefaultVersion = "v1.0" ∧ d.options.Versions.map Prod.fst = ["v1.0"])
    ∧ (∀ (json : Json Blob.Write) (a : Blob.Write),
      Blob.Write.Marshal json a = .ok job → job.Version = "")
    ∧ (∀ (json : Json Docstore.Put) (a : Docstore.Put),
      Docstore.Put.Marshal json a = .ok job → job.Version = "")
    ∧ (∀ (json : Json Topic.Publish) (a : Topic.Publish),
      Topic.Publish.Marshal json a = .ok job → job.Version = "")
    ∧ (∀ (json : Json Sqlike.RunStatements) (a : Sqlike.RunStatements),
      Sqlike.RunStatements.Marshal json a = .ok job → job.Version = "")
    ∧ (∀ (json : Json Sqlike.RunOperation) (a : Sqlike.RunOperation),
      Sqlike.RunOperation.Marshal json a = .ok job → job.Version = "") := by
  refine ⟨?_, ?_, ?_, ?_, ?_, ?_, ?_, ?_, ?_, ?_, ?_, ?_⟩
  · intro json insertId a h
    obtain ⟨data, -, rfl⟩ := marshalJob_ok _ _ _ _ h
    rfl
  · intro json a h
    obtain ⟨data, -, rfl⟩ := marshalJob_ok _ _ _ _ h
    rfl
  · intro json lib a h
    obtain ⟨data, -, rfl⟩ := marshalJob_ok _ _ _ _ h
    rfl
  · intro json a h
    obtain ⟨data, -, rfl⟩ := marshalJob_ok _ _ _ _ h
    rfl
  · intro defaults env d h
    unfold Amplitude.New at h
    split at h
    · cases h
    · cases h
    · simp only [Option.some.injEq] at h
      subst h
      exact ⟨rfl, rfl⟩
  · intro defaults env d h
    unfold Mailchimp.New at h
    split at h
    · cases h
    · cases h
    · simp only [Option.some.injEq] at h
      subst h
      exact ⟨rfl, rfl⟩
  · intro defaults env d h
    unfold Segment.New at h
    split at h
    · cases h
    · cases h
    · simp only [Option.some.injEq] at h
      subst h
      exact ⟨rfl, rfl⟩
  · intro json a h
    obtain ⟨data, -, rfl⟩ := marshalJob_ok _ _ _ _ h
    rfl
  · intro json a h
    obtain ⟨data, -, rfl⟩ := marshalJob_ok _ _ _ _ h
    rfl
  · intro json a h
    obtain ⟨data, -, rfl⟩ := marshalJob_ok _ _ _ _ h
    rfl
  · intro json a h
    obtain ⟨data, -, rfl⟩ := marshalJob_ok _ _ _ _ h
    rfl
  · intro json a h
    obtain ⟨data, -, rfl⟩ := marshalJob_ok _ _ _ _ h
    rfl

/-- Instance of C19: the jobs and destinations of one action and one valid
configuration per versioned destination, and of blob `Write`. -/
theorem Marshal_assigns_schema_version_witness :
    (∃ job, Amplitude.Page.Marshal (Json.blank {}) "tok" { Events := [{ Event := "home" }] }
        = .ok job ∧ job.Version = "v2.0")
    ∧ (∃ job, Mailchimp.Identify.Marshal (Json.blank {})
        { ToLower := fun s => s, FormatParseRFC3339 := fun t => t } { Email := "a@b.c" }
        = .ok job ∧ job.Version = "v3.0")
    ∧ (∃ d, (Segment.New { Interval := "@every 1h", MaxRetries := 72 }
        (some { WriteKey := "k" })).destination = some d
        ∧ d.options.DefaultVersion = "v1.0" ∧ d.options.Versions.map Prod.fst = ["v1.0"])
    ∧ (∃ job, Blob.Write.Marshal (Json.blank {}) { Filename := "f" } = .ok job
        ∧ job.Version = "") :=
  ⟨⟨_, rfl, (Marshal_assigns_schema_version { Version := "v2.0", Data := [] }).1
      (Json.blank {}) "tok" { Events := [{ Event := "home" }] } rfl⟩,
   ⟨_, rfl, (Marshal_assigns_schema_version { Version := "v3.0", Data := [] }).2.2.1
      (Json.blank {}) { ToLower := fun s => s, FormatParseRFC3339 := fun t => t }
      { Email := "a@b.c" } rfl⟩,
   ⟨_, rfl, (Marshal_assigns_schema_version {}).2.2.2.2.2.2.1
      { Interval := "@every 1h", MaxRetries := 72 } (some { WriteKey := "k" }) _ rfl⟩,
   ⟨_, rfl, (Marshal_assigns_schema_version { Data := [] }).2.2.2.2.2.2.2.1
      (Json.blank {}) { Filename := "f" } rfl⟩⟩

theorem Amplitude.Options.validate_amplitude_error (defaults : Destination.Schedule)
    (env : Amplitude.Options) :
    (Amplitude.Options.validate defaults (some env)).2
      = if env.APIKey = "" then
          some { Message := "destination/amplitude: Failed to load",
                 Validations := [{ Message := "Amplitude API key must be set",
                                   Path := ["Options", "Destinations", "amplitude", "APIKey"] }] }
        else none := by
  simp only [Amplitude.Options.validate]
  by_cases h1 : env.Interval = "" <;> by_cases h2 : env.MaxRetries = 0 <;>
    by_cases h3 : env.APIKey = "" <;> simp [h1, h2, h3]

theorem Segment.Options.validate_segment_error (defaults : Destination.Schedule)
    (env : Segment.Options) :
    (Segment.Options.validate defaults (some env)).2
      = if env.WriteKey = "" then
          some { Message := "destination/segment: Failed to load",
                 Validations := [{ Message := "Segment WriteKey must be set",
                                   Path := ["Options", "Destinations", "segment", "WriteKey"] }] }
        else none := by
  simp only [Segment.Options.validate]
  by_cases h1 : env.Interval = "" <;> by_cases h2 : env.MaxRetries = 0 <;>
    by_cases h3 : env.WriteKey = "" <;> simp [h1, h2, h3]

theorem Mailchimp.Options.validate_mailchimp_error (defaults : Destination.Schedule)
    (env : Mailchimp.Options) :
    (Mailchimp.Options.validate defaults (some env)).2
      = if env.APIKey = "" ∨ env.DatacenterID = "" ∨ env.AudienceID = "" then
          some { Message := "destination/mailchimp: Failed to load",
                 Validations :=
                   (if env.APIKey = "" then
                      [{ Message := "Mailchimp API key must be set",
                         Path := ["Options", "Destinations", "mailchimp", "APIKey"] }]
                    else [])
                   ++ (if env.DatacenterID = "" then
                      [{ Message := "Mailchimp datacenter must be set",
                         Path := ["Options", "Destinations", "mailchimp", "DatacenterID"] }]
                    else [])
                   ++ (if env.AudienceID = "" then
                      [{ Message := "Mailchimp audience must be set",
                         Path := ["Options", "Destinations", "mailchimp", "AudienceID"] }]
                    else []) }
        else none := by
  simp only [Mailchimp.Options.validate]
  by_cases h1 : env.Interval = "" <;> by_cases h2 : env.MaxRetries = 0 <;>
    by_cases h3 : env.APIKey = "" <;> by_cases h4 : env.DatacenterID = "" <;>
    by_cases h5 : env.AudienceID = "" <;> simp [h1, h2, h3, h4, h5]

/-- C20: `Options.validate` of amplitude, segment and mailchimp returns an
error on `nil` options, and on non-nil options if and only if a required
field is empty (`APIKey`; `WriteKey`; `APIKey`, `DatacenterID` or
`AudienceID`), whatever `Realtime`, `Interval` and `MaxRetries` hold; the
error then lists exactly one validation per empty required field, in the
order of the fields. -/
theorem validate_error_iff_required_field_empty (defaults : Destination.Schedule) :
    ((Amplitude.Options.validate defaults none).2 ≠ none
      ∧ (Segment.Options.validate defaults none).2 ≠ none
      ∧ (Mailchimp.Options.validate defaults none).2 ≠ none)
    ∧ (∀ env : Amplitude.Options,
        ((Amplitude.Options.validate defaults (some env)).2 ≠ none ↔ env.APIKey = "")
        ∧ (∀ err, (Amplitude.Options.validate defaults (some env)).2 = some err →
            err.Validations.map (fun v => v.Path)
              = [["Options", "Destinations", "amplitude", "APIKey"]]))
    ∧ (∀ env : Segment.Options,
        ((Segment.Options.validate defaults (some env)).2 ≠ none ↔ env.WriteKey = "")
        ∧ (∀ err, (Segment.Options.validate defaults (some env)).2 = some err →
            err.Validations.map (fun v => v.Path)
              = [["Options", "Destinations", "segment", "WriteKey"]]))
    ∧ (∀ env : Mailchimp.Options,
        ((Mailchimp.Options.validate defaults (some env)).2 ≠ none ↔
          env.APIKey = "" ∨ env.DatacenterID = "" ∨ env.AudienceID = "")
        ∧ (∀ err, (Mailchimp.Options.validate defaults (some env)).2 = some err →
            err.Validations.map (fun v => v.Path)
              = (if env.APIKey = "" then
                   [["Options", "Destinations", "mailchimp", "APIKey"]] else [])
                ++ (if env.DatacenterID = "" then
                   [["Options", "Destinations", "mailchimp", "DatacenterID"]] else [])
                ++ (if env.AudienceID = "" then
                   [["Options", "Destinations", "mailchimp", "AudienceID"]] else [])
            ∧ err.Validations.length
              = (if env.APIKey = "" then 1 else 0) + (if env.DatacenterID = "" then 1 else 0)
                + (if env.AudienceID = "" then 1 else 0))) := by
  refine ⟨⟨by simp [Amplitude.Options.validate], by simp [Segment.Options.validate],
    by simp [Mailchimp.Options.validate]⟩, ?_, ?_, ?_⟩
  · intro env
    rw [Amplitude.Options.validate_amplitude_error]
    by_cases h : env.APIKey = ""
    · simp only [h, if_true]
      refine ⟨by simp, fun err he => ?_⟩
      simp only [Option.some.injEq] at he
      subst he; rfl
    · simp [h]
  · intro env
    rw [Segment.Options.validate_segment_error]
    by_cases h : env.WriteKey = ""
    · simp only [h, if_true]
      refine ⟨by simp, fun err he => ?_⟩
      simp only [Option.some.injEq] at he
      subst he; rfl
    · simp [h]
  · intro env
    rw [Mailchimp.Options.validate_mailchimp_error]
    by_cases h : env.APIKey = "" ∨ env.DatacenterID = "" ∨ env.AudienceID = ""
    · simp only [h, if_true]
      refine ⟨by simp, fun err he => ?_⟩
      simp only [Option.some.injEq] at he
      subst he
      by_cases h3 : env.APIKey = "" <;> by_cases h4 : env.DatacenterID = "" <;>
        by_cases h5 : env.AudienceID = "" <;> simp [h3, h4, h5]
    · simp [h]

/-- Instance of C20: mailchimp options with an empty `DatacenterID` and an
empty `AudienceID`. -/
theorem validate_error_iff_required_field_empty_witness :
    (Mailchimp.Options.validate { Interval := "@every 1h", MaxRetries := 72 }
        (some { APIKey := "k" })).2 ≠ none
    ∧ ∃ err, (Mailchimp.Options.validate { Interval := "@every 1h", MaxRetries := 72 }
        (some { APIKey := "k" })).2 = some err
      ∧ err.Validations.map (fun v => v.Path)
          = [["Options", "Destinations", "mailchimp", "DatacenterID"],
             ["Options", "Destinations", "mailchimp", "AudienceID"]]
      ∧ err.Validations.length = 2 :=
  ⟨((validate_error_iff_required_field_empty { Interval := "@every 1h", MaxRetries := 72 }).2.2.2
      { APIKey := "k" }).1.mpr (Or.inr (Or.inl rfl)),
   _, rfl,
   ((validate_error_iff_required_field_empty { Interval := "@every 1h", MaxRetries := 72 }).2.2.2
      { APIKey := "k" }).2 _ rfl⟩

theorem Mailchimp.Identify.loadJob_identify_calls (env : Mailchimp.Options) (std : Std)
    (codec : Mailchimp.Codec) (client : Client) (ev : Store.Event) (job : Store.Job) (t : Trace) :
    (Mailchimp.Identify.loadJob env std codec client ev job t).calls = t.calls
      ∨ (Mailchimp.Identify.loadJob env std codec client ev job t).calls
          = t.calls ++ [Mailchimp.Identify.request env std codec job] := by
  unfold Mailchimp.Identify.loadJob
  dsimp only
  split
  · exact Or.inl rfl
  · split
    · exact Or.inr rfl
    · split <;> exact Or.inr rfl

/-- C26: in mailchimp `Identify.Load`, the request built for a job has as body
the encoding of the decoded `Data` with `status_if_new` replaced by
`"pending"` when `Options.EnableDoubleOptIn` is true and by `"subscribed"`
otherwise, every other field being the decoded one, whatever `status_if_new`
the stored `Data` decodes to; every request `Load` makes is the request of a
job of the batch, and when the configured identifiers form a well-formed URL
the requests made are exactly those of the jobs, in batch order. -/
theorem Mailchimp.Identify.Load_body_status_if_new (env : Mailchimp.Options) (std : Std)
    (codec : Mailchimp.Codec) (client : Client) (q : Store.Queue) :
    (∀ job : Store.Job,
      Mailchimp.Identify.request env std codec job
        = HttpCall.Do "PUT"
            (Mailchimp.Identify.url env std (codec.identify.Unmarshal job.Data).1)
            [("Authorization",
                "Basic " ++ std.base64StdEncodeToString (stringBytes ("anystring:" ++ env.APIKey))),
             ("Content-Type", "application/json")]
            (codec.identify.marshalBytes
              { StatusIfNew := if env.EnableDoubleOptIn = true then "pending" else "subscribed",
                Email := (codec.identify.Unmarshal job.Data).1.Email,
                FirstName := (codec.identify.Unmarshal job.Data).1.FirstName,
                LastName := (codec.identify.Unmarshal job.Data).1.LastName,
                IPSignup := (codec.identify.Unmarshal job.Data).1.IPSignup,
                TimestampSignup := (codec.identify.Unmarshal job.Data).1.TimestampSignup,
                Location := (codec.identify.Unmarshal job.Data).1.Location }))
    ∧ (∀ call ∈ (Mailchimp.Identify.Load env std codec client q).calls,
        ∃ p ∈ q.pairs, call = Mailchimp.Identify.request env std codec p.2)
    ∧ ((∀ d : Mailchimp.Signup, std.urlParse (Mailchimp.Identify.url env std d) = true) →
        (Mailchimp.Identify.Load env std codec client q).calls
          = q.pairs.map (fun p => Mailchimp.Identify.request env std codec p.2)) := by
  refine ⟨fun job => rfl, ?_, ?_⟩
  · refine forEachJob_invariant_mem
      (fun t => ∀ call ∈ t.calls, ∃ p ∈ q.pairs, call = Mailchimp.Identify.request env std codec p.2)
      _ q ?_ {} (by simp)
    intro p hp t ht call hcall
    rcases Mailchimp.Identify.loadJob_identify_calls env std codec client p.1 p.2 t with h | h
    · rw [h] at hcall
      exact ht call hcall
    · rw [h] at hcall
      simp only [List.mem_append, List.mem_singleton] at hcall
      rcases hcall with h' | h'
      · exact ht call h'
      · exact ⟨p, hp, h'⟩
  · intro hurl
    exact ((Mailchimp.Identify.Load_identify_steps env std codec client q hurl).2.calls_eq _
      HttpOutcome.call_and_jobs).1

/-- Instance of C26: the stored payload decodes to `status_if_new =
"unsubscribed"`; with double opt-in the one request of a one-job batch carries
`"pending"`, without it `"subscribed"`. -/
theorem Mailchimp.Identify.Load_body_status_if_new_witness :
    (Mailchimp.Codec.email.identify.Unmarshal []).1.StatusIfNew = "unsubscribed"
    ∧ (Mailchimp.Identify.Load { EnableDoubleOptIn := true } Std.blank Mailchimp.Codec.email
          (Client.always 200 "") (Store.Queue.single "j1")).calls
        = [HttpCall.Do "PUT" "https://.api.mailchimp.com/3.0/lists//members/"
            [("Authorization", "Basic "), ("Content-Type", "application/json")]
            (Mailchimp.Codec.email.identify.marshalBytes
              { StatusIfNew := "pending", Email := "" })]
    ∧ (Mailchimp.Identify.Load { EnableDoubleOptIn := false } Std.blank Mailchimp.Codec.email
          (Client.always 200 "") (Store.Queue.single "j1")).calls
        = [HttpCall.Do "PUT" "https://.api.mailchimp.com/3.0/lists//members/"
            [("Authorization", "Basic "), ("Content-Type", "application/json")]
            (Mailchimp.Codec.email.identify.marshalBytes
              { StatusIfNew := "subscribed", Email := "" })] :=
  ⟨rfl,
   (Mailchimp.Identify.Load_body_status_if_new { EnableDoubleOptIn := true } Std.blank
      Mailchimp.Codec.email (Client.always 200 "") (Store.Queue.single "j1")).2.2 (fun _ => rfl),
   (Mailchimp.Identify.Load_body_status_if_new { EnableDoubleOptIn := false } Std.blank
      Mailchimp.Codec.email (Client.always 200 "") (Store.Queue.single "j1")).2.2 (fun _ => rfl)⟩

/-- C27: mailchimp `Identify.Marshal` encodes the action with its email
replaced by `ToLower` of it (so an address that `ToLower` leaves as it is
is stored unchanged), and for a job it returns, when decoding the job's `Data`
gives back the encoded address, the member URL `Identify.Load` builds for a
stored job with that `Data` ends in the hex MD5 of the lower-cased address. -/
theorem Mailchimp.Identify.Marshal_lowercases_email (env : Mailchimp.Options) (std : Std)
    (codec : Mailchimp.Codec) (lib : Mailchimp.Strings) (a : Mailchimp.Signup) :
    (Mailchimp.Identify.payload lib a).Email = lib.ToLower a.Email
    ∧ (lib.ToLower a.Email = a.Email → (Mailchimp.Identify.payload lib a).Email = a.Email)
    ∧ ∀ job : Destination.Job, Mailchimp.Identify.Marshal codec.identify lib a = .ok job →
        codec.identify.Marshal (Mailchimp.Identify.payload lib a) = .ok job.Data
        ∧ ((codec.identify.Unmarshal job.Data).1.Email = (Mailchimp.Identify.payload lib a).Email →
            ∀ stored : Store.Job, stored.Data = job.Data →
              ∃ header body,
                Mailchimp.Identify.request env std codec stored
                  = HttpCall.Do "PUT"
                      ("https://" ++ env.DatacenterID ++ ".api.mailchimp.com/3.0/lists/"
                        ++ env.AudienceID ++ "/members/"
                        ++ std.hexEncodeToString (std.md5Sum (stringBytes (lib.ToLower a.Email))))
                      header body) := by
  refine ⟨rfl, fun h => h, ?_⟩
  intro job hjob
  unfold Mailchimp.Identify.Marshal marshalJob at hjob
  cases hm : codec.identify.Marshal (Mailchimp.Identify.payload lib a) with
  | error e => rw [hm] at hjob; cases hjob
  | ok data =>
    rw [hm] at hjob
    cases hjob
    refine ⟨rfl, ?_⟩
    intro hrt stored hstored
    dsimp only at hrt hstored
    refine ⟨[("Authorization",
          "Basic " ++ std.base64StdEncodeToString (stringBytes ("anystring:" ++ env.APIKey))),
        ("Content-Type", "application/json")],
      codec.identify.marshalBytes
        { (codec.identify.Unmarshal stored.Data).1 with
          StatusIfNew := if env.EnableDoubleOptIn = true then "pending" else "subscribed" }, ?_⟩
    unfold Mailchimp.Identify.request Mailchimp.Identify.url
    dsimp only
    rw [hstored, hrt]
    rfl

/-- Instance of C27: the address `Ann@Example.COM` is stored as
`ann@example.com`, and the request for the stored job is made at the member
whose hash is computed from `ann@example.com`. -/
theorem Mailchimp.Identify.Marshal_lowercases_email_witness :
    Mailchimp.Identify.Marshal Mailchimp.emailCodec Mailchimp.Strings.ascii
        { Email := "Ann@Example.COM" }
      = .ok { Version := "v3.0",
              Data := [97, 110, 110, 64, 101, 120, 97, 109, 112, 108, 101, 46, 99, 111, 109] }
    ∧ (Mailchimp.emailCodec.Unmarshal
        [97, 110, 110, 64, 101, 120, 97, 109, 112, 108, 101, 46, 99, 111, 109]).1.Email
        = "ann@example.com"
    ∧ ∃ header body,
        Mailchimp.Identify.request { DatacenterID := "us6", AudienceID := "aud" } Std.blank
            Mailchimp.Codec.email
            { ID := "j1",
              Data := [97, 110, 110, 64, 101, 120, 97, 109, 112, 108, 101, 46, 99, 111, 109] }
          = HttpCall.Do "PUT"
              ("https://" ++ "us6" ++ ".api.mailchimp.com/3.0/lists/" ++ "aud" ++ "/members/"
                ++ Std.blank.hexEncodeToString (Std.blank.md5Sum (stringBytes
                    (Mailchimp.Strings.ascii.ToLower "Ann@Example.COM"))))
              header body :=
  ⟨rfl, rfl,
   ((Mailchimp.Identify.Marshal_lowercases_email { DatacenterID := "us6", AudienceID := "aud" }
      Std.blank Mailchimp.Codec.email Mailchimp.Strings.ascii { Email := "Ann@Example.COM" }).2.2
      { Version := "v3.0",
        Data := [97, 110, 110, 64, 101, 120, 97, 109, 112, 108, 101, 46, 99, 111, 109] }
      rfl).2 rfl
      { ID := "j1",
        Data := [97, 110, 110, 64, 101, 120, 97, 109, 112, 108, 101, 46, 99, 111, 109] } rfl⟩

/-- C30 (the code at the failing input): `Page.Marshal` rewrites the events of
the action it is called on. After one call with token `t1` on an action with
the one event `home`, the caller's event is named `Viewed page 'home'` and has
`InsertId = "t1"`; a second call, with token `t2`, encodes an event named
`Viewed page 'Viewed page 'home''`. -/
theorem Amplitude.Page.Marshal_rewrites_caller_events :
    (Amplitude.Page.afterMarshal "t1" { Events := [{ Event := "home" }] }).Events
        = [{ Event := "Viewed page 'home'", InsertId := "t1" }]
    ∧ (Amplitude.Page.payload "t1" { Events := [{ Event := "home" }] }).Events.map (fun e => e.Event)
        = ["Viewed page 'home'"]
    ∧ (Amplitude.Page.payload "t2"
        (Amplitude.Page.afterMarshal "t1" { Events := [{ Event := "home" }] })).Events
        = [{ Event := "Viewed page 'Viewed page 'home''", InsertId := "t2" }]
    ∧ "Viewed page 'Viewed page 'home''" ≠ "Viewed page 'home'"
    ∧ "Viewed page 'home'" ≠ "home" := by
  refine ⟨rfl, rfl, rfl, by decide, by decide⟩

/-- C25 (the code at the failing input): for the driver `aws/sqs` and a
connection string of the documented form `sqs.<region>.amazonaws.com/<id>/<queue>`
(here without parameters), the URL `Topic.Init` splits on `:` has no colon, so
the split has one element and the index expression `splitted[2]` is out of
range: `Init` panics before any topic is opened. The connection string the
code computes the documented URL from is the ARN-like
`arn:aws:sqs:<region>:<id>:<queue>`. -/
theorem Topic.Init_sqs_documented_connection_panics :
    stringsSplit ("sqs.us-east-2.amazonaws.com/123456789012/myqueue" ++ "?"
        ++ Values.Encode (fun s => s) []) ':'
      = ["sqs.us-east-2.amazonaws.com/123456789012/myqueue?"]
    ∧ Topic.Init (fun s => s) (fun _ => none)
        { Name := "jobs", Driver := "aws/sqs",
          Connection := "sqs.us-east-2.amazonaws.com/123456789012/myqueue" }
      = { opened := [], result := none, panicked := true }
    ∧ Topic.Init (fun s => s) (fun _ => none)
        { Name := "jobs", Driver := "aws/sqs",
          Connection := "arn:aws:sqs:us-east-2:123456789012:myqueue" }
      = { opened := ["awssqs://sqs.us-east-2.amazonaws.com/123456789012/myqueue?"],
          result := none, panicked := false } := by
  refine ⟨by decide, by decide, by decide⟩

/-- C29 (the code at the failing input): on a directory holding the one file
`a.b.up.sql`, whose name has four dot-separated parts and 10 bytes,
`LoadMigrations` records the validation "Version number must be formatted like
YYYYMMDDHHMISS" and goes on to the slice expression `file.Name()[0:14]`, which
is out of range: the call panics and returns neither migrations nor an error.
A name of at least 14 bytes with a short version part, `2020.create.up.sql`,
does give the validation error. -/
theorem Sqlike.LoadMigrations_panics_on_short_file_name :
    stringsSplit "a.b.up.sql" '.' = ["a", "b", "up", "sql"]
    ∧ Sqlike.LoadMigrations (Sqlike.Files.listing ["a.b.up.sql"]) "migrations" = .panic
    ∧ Sqlike.LoadMigrations (Sqlike.Files.listing ["2020.create.up.sql"]) "migrations"
      = .error
          { Message := "sqlike: Failed to load migration files",
            Validations :=
              [{ Message := "Version number must be formatted like YYYYMMDDHHMISS",
                 Path := ["migrations", "2020.create.up.sql"] },
               { Message := "Failed to parse version name",
                 Path := ["migrations", "2020.create.up.sql"] }] }
    ∧ Sqlike.LoadMigrations (Sqlike.Files.listing ["README.md", "20200102030405.users.up.sql"])
          "migrations"
      = .migrations [{ ID := "k", Version := { sec := 0 }, Name := "users" }] := by
  refine ⟨by decide, rfl, rfl, rfl⟩

theorem Values.Get_eq_empty_iff (v : Values) (key : String) :
    v.Get key = "" ↔
      v.lookup key = none ∨ v.lookup key = some [] ∨ ∃ rest, v.lookup key = some ("" :: rest) := by
  unfold Values.Get
  cases h : List.lookup key v with
  | none => simp
  | some xs =>
    cases xs with
    | nil => simp
    | cons x rest => simp

theorem appendIf_length_pos (c : Prop) [Decidable c] (vs : List Validation) (v : Validation) :
    0 < (appendIf c vs v).length ↔ c ∨ 0 < vs.length := by
  unfold appendIf
  split
  · simp [*]
  · simp [*]

theorem mem_appendIf (c : Prop) [Decidable c] (vs : List Validation) (v : Validation) (h : c) :
    v ∈ appendIf c vs v := by
  unfold appendIf
  rw [if_pos h]
  simp

theorem snd_ite_ne_none {α β : Type} (c : Prop) [Decidable c] (a : α) (e : β) :
    ((if c then (a, some e) else (a, none)).2 ≠ none) ↔ c := by
  split <;> simp [*]

theorem snd_ite_of_mem {α : Type} (a : α) (msg : String) (vs : List Validation) (v : Validation)
    (h : v ∈ vs) :
    ∃ err, (if vs.length > 0 then (a, some ({ Message := msg, Validations := vs } : Error))
        else (a, none)).2 = some err ∧ v ∈ err.Validations := by
  have hpos : vs.length > 0 := List.length_pos_of_mem h
  rw [if_pos hpos]
  exact ⟨_, rfl, h⟩

theorem Blob.validate_error_of_missing_blob (defaults : Destination.Schedule)
    (getenv : String → String) (env : Blob.Options)
    (h : env.Name = "" ∨ env.Driver = "" ∨ env.Connection = "") :
    (Blob.Options.validate defaults getenv (some env)).2 ≠ none := by
  cases env with
  | mk Realtime Interval MaxRetries Name Driver Connection Params =>
  simp only at h
  have hbase : ∀ v1 v2 v3 : Validation, 0 < (appendIf (Connection = "")
      (appendIf (Driver = "") (appendIf (Name = "") [] v1) v2) v3).length := by
    intro v1 v2 v3
    simp only [appendIf_length_pos]
    tauto
  by_cases hI : Interval = "" <;> by_cases hM : MaxRetries = 0 <;>
    (simp only [Blob.Options.validate, hI, hM, ↓reduceIte]
     rw [snd_ite_ne_none]
     split_ifs <;> simp only [List.length_append, gt_iff_lt] <;>
       first
       | exact hbase _ _ _
       | exact Nat.add_pos_left (hbase _ _ _) _)

theorem Docstore.validate_error_of_missing_docstore (defaults : Destination.Schedule)
    (getenv : String → String) (env : Docstore.Options)
    (h : env.Name = "" ∨ env.Driver = "" ∨ env.Connection = "") :
    (Docstore.Options.validate defaults getenv (some env)).2 ≠ none := by
  cases env with
  | mk Realtime Interval MaxRetries Name Driver Connection Params =>
  simp only at h
  have hbase : ∀ v1 v2 v3 : Validation, 0 < (appendIf (Connection = "")
      (appendIf (Driver = "") (appendIf (Name = "") [] v1) v2) v3).length := by
    intro v1 v2 v3
    simp only [appendIf_length_pos]
    tauto
  by_cases hI : Interval = "" <;> by_cases hM : MaxRetries = 0 <;>
    (simp only [Docstore.Options.validate, hI, hM, ↓reduceIte]
     rw [snd_ite_ne_none]
     split_ifs <;> simp only [List.length_append, gt_iff_lt] <;>
       first
       | exact hbase _ _ _
       | exact Nat.add_pos_left (hbase _ _ _) _)

theorem Topic.validate_error_of_missing_topic (defaults : Destination.Schedule)
    (getenv : String → String) (env : Topic.Options)
    (h : env.Name = "" ∨ env.Driver = "" ∨ env.Connection = "") :
    (Topic.Options.validate defaults getenv (some env)).2 ≠ none := by
  cases env with
  | mk Realtime Interval MaxRetries Name Driver Connection Params =>
  simp only at h
  have hbase : ∀ v1 v2 v3 : Validation, 0 < (appendIf (Connection = "")
      (appendIf (Driver = "") (appendIf (Name = "") [] v1) v2) v3).length := by
    intro v1 v2 v3
    simp only [appendIf_length_pos]
    tauto
  by_cases hI : Interval = "" <;> by_cases hM : MaxRetries = 0 <;>
    (simp only [Topic.Options.validate, hI, hM, ↓reduceIte]
     rw [snd_ite_ne_none]
     split_ifs <;> simp only [List.length_append, gt_iff_lt] <;>
       first
       | exact hbase _ _ _
       | exact Nat.add_pos_left (hbase _ _ _) _)

theorem Sqlike.validate_error_of_missing_sqlike (defaults : Destination.Schedule)
    (env : Sqlike.Options) (h : env.Name = "" ∨ env.DB = none) :
    (Sqlike.Options.validate defaults (some env)).2 ≠ none := by
  cases env with
  | mk Realtime Interval MaxRetries Name DB Migrations =>
  simp only at h
  by_cases hI : Interval = "" <;> by_cases hM : MaxRetries = 0 <;>
    (simp only [Sqlike.Options.validate, hI, hM, ↓reduceIte]
     rw [snd_ite_ne_none]
     simp only [gt_iff_lt, appendIf_length_pos]
     tauto)

/-- C22: for blob and docstore, `validate` on non-nil options whose `Driver` is
none of the recognised drivers returns an error if and only if `Name`,
`Driver` or `Connection` is empty, and the error (or its absence) is the same
whatever `Params` holds, `nil` included. -/
theorem validate_unrecognised_driver (defaults : Destination.Schedule)
    (getenv : String → String) :
    (∀ env : Blob.Options,
      env.Driver ≠ "aws/s3" → env.Driver ≠ "azure/blob" → env.Driver ≠ "google/storage" →
      (((Blob.Options.validate defaults getenv (some env)).2 ≠ none ↔
          env.Name = "" ∨ env.Driver = "" ∨ env.Connection = "")
        ∧ ∀ params : Values,
            (Blob.Options.validate defaults getenv (some { env with Params := params })).2
              = (Blob.Options.validate defaults getenv (some { env with Params := [] })).2))
    ∧ (∀ env : Docstore.Options,
      env.Driver ≠ "aws/dynamodb" → env.Driver ≠ "azure/cosmosdb" →
      env.Driver ≠ "google/firestore" → env.Driver ≠ "mongodb" →
      (((Docstore.Options.validate defaults getenv (some env)).2 ≠ none ↔
          env.Name = "" ∨ env.Driver = "" ∨ env.Connection = "")
        ∧ ∀ params : Values,
            (Docstore.Options.validate defaults getenv (some { env with Params := params })).2
              = (Docstore.Options.validate defaults getenv (some { env with Params := [] })).2)) := by
  constructor
  · intro env h1 h2 h3
    cases env with
    | mk Realtime Interval MaxRetries Name Driver Connection Params =>
    simp only at h1 h2 h3
    constructor
    · simp only [Blob.Options.validate, Blob.DriverAWSS3, Blob.DriverAzureBlob,
        Blob.DriverGoogleStorage]
      rw [snd_ite_ne_none]
      by_cases hI : Interval = "" <;> by_cases hM : MaxRetries = 0 <;>
        simp only [hI, hM, h1, h2, h3, ↓reduceIte, gt_iff_lt, appendIf_length_pos,
          List.length_nil, Nat.lt_irrefl, or_false] <;> tauto
    · intro params
      by_cases hI : Interval = "" <;> by_cases hM : MaxRetries = 0 <;>
        simp only [Blob.Options.validate, Blob.DriverAWSS3, Blob.DriverAzureBlob,
          Blob.DriverGoogleStorage, hI, hM, h1, h2, h3, ↓reduceIte, apply_ite Prod.snd]
  · intro env h1 h2 h3 h4
    cases env with
    | mk Realtime Interval MaxRetries Name Driver Connection Params =>
    simp only at h1 h2 h3 h4
    constructor
    · simp only [Docstore.Options.validate, Docstore.DriverAWSDynamoDB,
        Docstore.DriverAzureCosmosDB, Docstore.DriverGoogleFirestore, Docstore.DriverMongoDB]
      rw [snd_ite_ne_none]
      by_cases hI : Interval = "" <;> by_cases hM : MaxRetries = 0 <;>
        simp only [hI, hM, h1, h2, h3, h4, ↓reduceIte, gt_iff_lt, appendIf_length_pos,
          List.length_nil, Nat.lt_irrefl, or_false] <;> tauto
    · intro params
      by_cases hI : Interval = "" <;> by_cases hM : MaxRetries = 0 <;>
        simp only [Docstore.Options.validate, Docstore.DriverAWSDynamoDB,
          Docstore.DriverAzureCosmosDB, Docstore.DriverGoogleFirestore, Docstore.DriverMongoDB,
          hI, hM, h1, h2, h3, h4, ↓reduceIte, apply_ite Prod.snd]

/-- Instance of C22, the cases of `TestOptions_validate`: with the driver
`fake`, options with a name and a connection are accepted with `nil` params,
and options without a connection are rejected. -/
theorem validate_unrecognised_driver_witness :
    (Blob.Options.validate Destination.Defaults (fun _ => "")
        (some { Name := "fakename", Driver := "fake", Connection := "fakeconn" })).2 = none
    ∧ (Docstore.Options.validate Destination.Defaults (fun _ => "")
        (some { Name := "fakename", Driver := "fake", Connection := "" })).2 ≠ none
    ∧ (Blob.Options.validate Destination.Defaults (fun _ => "")
        (some { Name := "fakename", Driver := "fake", Connection := "fakeconn",
                Params := [("region", ["eu"])] })).2
      = (Blob.Options.validate Destination.Defaults (fun _ => "")
        (some { Name := "fakename", Driver := "fake", Connection := "fakeconn",
                Params := [] })).2 :=
  ⟨not_not.mp (fun hne =>
      absurd (((validate_unrecognised_driver Destination.Defaults (fun _ => "")).1
        { Name := "fakename", Driver := "fake", Connection := "fakeconn" }
        (by decide) (by decide) (by decide)).1.mp hne) (by decide)),
   ((validate_unrecognised_driver Destination.Defaults (fun _ => "")).2
      { Name := "fakename", Driver := "fake", Connection := "" }
      (by decide) (by decide) (by decide) (by decide)).1.mpr (Or.inr (Or.inr rfl)),
   ((validate_unrecognised_driver Destination.Defaults (fun _ => "")).1
      { Name := "fakename", Driver := "fake", Connection := "fakeconn" }
      (by decide) (by decide) (by decide)).2 [("region", ["eu"])]⟩

/-- C23: docstore `validate` returns an error, whatever the environment and
the other fields hold, on options with `Driver` `aws/dynamodb` for which
`Params.Get("partition_key")` is empty (the key is absent, or its list of
values is empty or starts with `""`), and on options with `Driver`
`google/firestore` for which `Params.Get("name_field")` is empty; the error
lists the validation naming the missing parameter. -/
theorem Docstore.validate_requires_key_param (defaults : Destination.Schedule)
    (getenv : String → String) (env : Docstore.Options) :
    (env.Driver = "aws/dynamodb" → env.Params.Get "partition_key" = "" →
      ∃ err, (Docstore.Options.validate defaults getenv (some env)).2 = some err
        ∧ { Message := "'partition_key' must be set",
            Path := ["Options", "Destinations", "docstore(" ++ env.Name ++ ")", "Params"] }
          ∈ err.Validations)
    ∧ (env.Driver = "google/firestore" → env.Params.Get "name_field" = "" →
      ∃ err, (Docstore.Options.validate defaults getenv (some env)).2 = some err
        ∧ { Message := "'name_field' must be set",
            Path := ["Options", "Destinations", "docstore(" ++ env.Name ++ ")", "Params"] }
          ∈ err.Validations) := by
  cases env with
  | mk Realtime Interval MaxRetries Name Driver Connection Params =>
  constructor
  · intro hD hpk
    simp only at hD hpk
    subst hD
    by_cases hI : Interval = "" <;> by_cases hM : MaxRetries = 0 <;>
      simp only [Docstore.Options.validate, Docstore.DriverAWSDynamoDB, hI, hM, ↓reduceIte,
        Docstore.Options.validateDriverAWSDynamoDB] <;>
      exact snd_ite_of_mem _ _ _ _ (List.mem_append_right _ (mem_appendIf _ _ _ hpk))
  · intro hD hpk
    simp only at hD hpk
    subst hD
    by_cases hI : Interval = "" <;> by_cases hM : MaxRetries = 0 <;>
      simp only [Docstore.Options.validate, Docstore.DriverAWSDynamoDB,
        Docstore.DriverAzureCosmosDB, Docstore.DriverGoogleFirestore, hI, hM, ↓reduceIte,
        (by decide : ("google/firestore" : String) ≠ "aws/dynamodb"),
        (by decide : ("google/firestore" : String) ≠ "azure/cosmosdb"),
        Docstore.Options.validateDriverGoogleFirestore] <;>
      exact snd_ite_of_mem _ _ _ _ (List.mem_append_right _ (mem_appendIf _ _ _ hpk))

/-- Instance of C23, the last two cases of `TestOptions_validate`: an empty
list of values under `partition_key` (resp. `name_field`), every environment
variable being set. -/
theorem Docstore.validate_requires_key_param_witness :
    Values.Get [("partition_key", [])] "partition_key" = ""
    ∧ (∃ err, (Docstore.Options.validate Destination.Defaults (fun _ => "set")
          (some { Name := "fakename", Driver := "aws/dynamodb", Connection := "fakeconn",
                  Params := [("partition_key", [])] })).2 = some err
        ∧ { Message := "'partition_key' must be set",
            Path := ["Options", "Destinations", "docstore(" ++ "fakename" ++ ")", "Params"] }
          ∈ err.Validations)
    ∧ (∃ err, (Docstore.Options.validate Destination.Defaults (fun _ => "set")
          (some { Name := "fakename", Driver := "google/firestore", Connection := "fakeconn",
                  Params := [("name_field", [])] })).2 = some err
        ∧ { Message := "'name_field' must be set",
            Path := ["Options", "Destinations", "docstore(" ++ "fakename" ++ ")", "Params"] }
          ∈ err.Validations) :=
  ⟨by decide,
   (Docstore.validate_requires_key_param Destination.Defaults (fun _ => "set")
      { Name := "fakename", Driver := "aws/dynamodb", Connection := "fakeconn",
        Params := [("partition_key", [])] }).1 rfl (by decide),
   (Docstore.validate_requires_key_param Destination.Defaults (fun _ => "set")
      { Name := "fakename", Driver := "google/firestore", Connection := "fakeconn",
        Params := [("name_field", [])] }).2 rfl (by decide)⟩

/-- C24 (the code at the failing input): with `AWS_ACCESS_KEY_ID` and
`AWS_SECRET_ACCESS_KEY` set, `AWS_REGION` unset and the parameter `region` set
to `us-east-1`, docstore `validate` rejects options for `aws/dynamodb` with
"Environment variable 'AWS_REGION' not set", whatever the parameters hold,
while blob `validate` for `aws/s3` and topic `validate` for `aws/sqs` accept
the same configuration. -/
theorem Docstore.validate_dynamodb_ignores_region_param :
    (Docstore.Options.validate Destination.Defaults awsKeysOnly
        (some { Name := "users", Driver := "aws/dynamodb", Connection := "users-table",
                Params := [("region", ["us-east-1"]), ("partition_key", ["id"])] })).2
      = some { Message := "docstore: Failed to load",
               Validations := [{ Message := "Environment variable 'AWS_REGION' not set",
                                 Path := ["Options", "Destinations", "docstore(users)"] }] }
    ∧ (∀ params : Values,
        { Message := "Environment variable 'AWS_REGION' not set",
          Path := ["Options", "Destinations", "docstore(users)"] }
        ∈ ((Docstore.Options.validate Destination.Defaults awsKeysOnly
            (some { Name := "users", Driver := "aws/dynamodb", Connection := "users-table",
                    Params := params })).2.getD {}).Validations)
    ∧ (Blob.Options.validate Destination.Defaults awsKeysOnly
        (some { Name := "users", Driver := "aws/s3", Connection := "users-bucket",
                Params := [("region", ["us-east-1"])] })).2 = none
    ∧ (Topic.Options.validate Destination.Defaults awsKeysOnly
        (some { Name := "users", Driver := "aws/sqs",
                Connection := "arn:aws:sqs:us-east-1:123456789012:users",
                Params := [("region", ["us-east-1"])] })).2 = none := by
  refine ⟨by decide, ?_, by decide, by decide⟩
  intro params
  by_cases hpk : Values.Get params "partition_key" = "" <;>
    simp [Docstore.Options.validate, Docstore.DriverAWSDynamoDB,
      Docstore.Options.validateDriverAWSDynamoDB, appendIf, awsKeysOnly, hpk]

theorem Amplitude.validate_then_New_amplitude (defaults : Destination.Schedule)
    (env env' : Amplitude.Options)
    (hd : env' = { env with
      Interval := if env.Interval = "" then defaults.Interval else env.Interval,
      MaxRetries := if env.MaxRetries = 0 then defaults.MaxRetries else env.MaxRetries }) :
    (Amplitude.Options.validate defaults (some env)).1 = some env'
    ∧ ((Amplitude.Options.validate defaults (some env)).2 = none →
        Amplitude.New defaults (some env)
          = { fatal := none,
              destination := some
                { options :=
                    { DefaultSchedule :=
                        { Realtime := env'.Realtime, Interval := env'.Interval,
                          MaxRetries := env'.MaxRetries },
                      DefaultVersion := "v2.0", Versions := [("v2.0", Time.zero)] },
                  env := env' } })
    ∧ (∀ err, (Amplitude.Options.validate defaults (some env)).2 = some err →
        Amplitude.New defaults (some env) = { fatal := some err, destination := none }) := by
  have h1 : (Amplitude.Options.validate defaults (some env)).1 = some env' := by
    subst hd
    cases env
    simp only [Amplitude.Options.validate, apply_ite Prod.fst, ite_self]
    split <;> split <;> simp_all
  refine ⟨h1, ?_, ?_⟩
  · intro h2
    unfold Amplitude.New
    rcases hv : Amplitude.Options.validate defaults (some env) with ⟨o, e⟩
    rw [hv] at h1 h2
    simp only at h1 h2
    subst h1 h2
    rfl
  · intro err h2
    unfold Amplitude.New
    rcases hv : Amplitude.Options.validate defaults (some env) with ⟨o, e⟩
    rw [hv] at h2
    simp only at h2
    subst h2
    cases o <;> rfl

theorem Mailchimp.validate_then_New_mailchimp (defaults : Destination.Schedule)
    (env env' : Mailchimp.Options)
    (hd : env' = { env with
      Interval := if env.Interval = "" then defaults.Interval else env.Interval,
      MaxRetries := if env.MaxRetries = 0 then defaults.MaxRetries else env.MaxRetries }) :
    (Mailchimp.Options.validate defaults (some env)).1 = some env'
    ∧ ((Mailchimp.Options.validate defaults (some env)).2 = none →
        Mailchimp.New defaults (some env)
          = { fatal := none,
              destination := some
                { options :=
                    { DefaultSchedule :=
                        { Realtime := env'.Realtime, Interval := env'.Interval,
                          MaxRetries := env'.MaxRetries },
                      DefaultVersion := "v3.0", Versions := [("v3.0", Time.zero)] },
                  env := env' } })
    ∧ (∀ err, (Mailchimp.Options.validate defaults (some env)).2 = some err →
        Mailchimp.New defaults (some env) = { fatal := some err, destination := none }) := by
  have h1 : (Mailchimp.Options.validate defaults (some env)).1 = some env' := by
    subst hd
    cases env
    simp only [Mailchimp.Options.validate, apply_ite Prod.fst, ite_self]
    split <;> split <;> simp_all
  refine ⟨h1, ?_, ?_⟩
  · intro h2
    unfold Mailchimp.New
    rcases hv : Mailchimp.Options.validate defaults (some env) with ⟨o, e⟩
    rw [hv] at h1 h2
    simp only at h1 h2
    subst h1 h2
    rfl
  · intro err h2
    unfold Mailchimp.New
    rcases hv : Mailchimp.Options.validate defaults (some env) with ⟨o, e⟩
    rw [hv] at h2
    simp only at h2
    subst h2
    cases o <;> rfl

theorem Segment.validate_then_New_segment (defaults : Destination.Schedule)
    (env env' : Segment.Options)
    (hd : env' = { env with
      Interval := if env.Interval = "" then defaults.Interval else env.Interval,
      MaxRetries := if env.MaxRetries = 0 then defaults.MaxRetries else env.MaxRetries }) :
    (Segment.Options.validate defaults (some env)).1 = some env'
    ∧ ((Segment.Options.validate defaults (some env)).2 = none →
        Segment.New defaults (some env)
          = { fatal := none,
              destination := some
                { options :=
                    { DefaultSchedule :=
                        { Realtime := env'.Realtime, Interval := env'.Interval,
                          MaxRetries := env'.MaxRetries },
                      DefaultVersion := "v1.0", Versions := [("v1.0", Time.zero)] },
                  env := env' } })
    ∧ (∀ err, (Segment.Options.validate defaults (some env)).2 = some err →
        Segment.New defaults (some env) = { fatal := some err, destination := none }) := by
  have h1 : (Segment.Options.validate defaults (some env)).1 = some env' := by
    subst hd
    cases env
    simp only [Segment.Options.validate, apply_ite Prod.fst, ite_self]
    split <;> split <;> simp_all
  refine ⟨h1, ?_, ?_⟩
  · intro h2
    unfold Segment.New
    rcases hv : Segment.Options.validate defaults (some env) with ⟨o, e⟩
    rw [hv] at h1 h2
    simp only at h1 h2
    subst h1 h2
    rfl
  · intro err h2
    unfold Segment.New
    rcases hv : Segment.Options.validate defaults (some env) with ⟨o, e⟩
    rw [hv] at h2
    simp only at h2
    subst h2
    cases o <;> rfl

theorem Blob.validate_then_New_blob (defaults : Destination.Schedule) (getenv : String → String)
    (env env' : Blob.Options)
    (hd : env' = { env with
      Interval := if env.Interval = "" then defaults.Interval else env.Interval,
      MaxRetries := if env.MaxRetries = 0 then defaults.MaxRetries else env.MaxRetries }) :
    (Blob.Options.validate defaults getenv (some env)).1 = some env'
    ∧ ((Blob.Options.validate defaults getenv (some env)).2 = none →
        Blob.New defaults getenv (some env)
          = { fatal := none,
              destination := some
                { options :=
                    { DefaultSchedule :=
                        { Realtime := env'.Realtime, Interval := env'.Interval,
                          MaxRetries := env'.MaxRetries } },
                  env := env' } })
    ∧ (∀ err, (Blob.Options.validate defaults getenv (some env)).2 = some err →
        Blob.New defaults getenv (some env) = { fatal := some err, destination := none }) := by
  have h1 : (Blob.Options.validate defaults getenv (some env)).1 = some env' := by
    subst hd
    cases env
    simp only [Blob.Options.validate, apply_ite Prod.fst, ite_self]
    split <;> split <;> simp_all
  refine ⟨h1, ?_, ?_⟩
  · intro h2
    unfold Blob.New
    rcases hv : Blob.Options.validate defaults getenv (some env) with ⟨o, e⟩
    rw [hv] at h1 h2
    simp only at h1 h2
    subst h1 h2
    rfl
  · intro err h2
    unfold Blob.New
    rcases hv : Blob.Options.validate defaults getenv (some env) with ⟨o, e⟩
    rw [hv] at h2
    simp only at h2
    subst h2
    cases o <;> rfl

theorem Docstore.validate_then_New_docstore (defaults : Destination.Schedule) (getenv : String → String)
    (env env' : Docstore.Options)
    (hd : env' = { env with
      Interval := if env.Interval = "" then defaults.Interval else env.Interval,
      MaxRetries := if env.MaxRetries = 0 then defaults.MaxRetries else env.MaxRetries }) :
    (Docstore.Options.validate defaults getenv (some env)).1 = some env'
    ∧ ((Docstore.Options.validate defaults getenv (some env)).2 = none →
        Docstore.New defaults getenv (some env)
          = { fatal := none,
              destination := some
                { options :=
                    { DefaultSchedule :=
                        { Realtime := env'.Realtime, Interval := env'.Interval,
                          MaxRetries := env'.MaxRetries } },
                  env := env' } })
    ∧ (∀ err, (Docstore.Options.validate defaults getenv (some env)).2 = some err →
        Docstore.New defaults getenv (some env) = { fatal := some err, destination := none }) := by
  have h1 : (Docstore.Options.validate defaults getenv (some env)).1 = some env' := by
    subst hd
    cases env
    simp only [Docstore.Options.validate, apply_ite Prod.fst, ite_self]
    split <;> split <;> simp_all
  refine ⟨h1, ?_, ?_⟩
  · intro h2
    unfold Docstore.New
    rcases hv : Docstore.Options.validate defaults getenv (some env) with ⟨o, e⟩
    rw [hv] at h1 h2
    simp only at h1 h2
    subst h1 h2
    rfl
  · intro err h2
    unfold Docstore.New
    rcases hv : Docstore.Options.validate defaults getenv (some env) with ⟨o, e⟩
    rw [hv] at h2
    simp only at h2
    subst h2
    cases o <;> rfl

theorem Topic.validate_then_New_topic (defaults : Destination.Schedule) (getenv : String → String)
    (env env' : Topic.Options)
    (hd : env' = { env with
      Interval := if env.Interval = "" then defaults.Interval else env.Interval,
      MaxRetries := if env.MaxRetries = 0 then defaults.MaxRetries else env.MaxRetries }) :
    (Topic.Options.validate defaults getenv (some env)).1 = some env'
    ∧ ((Topic.Options.validate defaults getenv (some env)).2 = none →
        Topic.New defaults getenv (some env)
          = { fatal := none,
              destination := some
                { options :=
                    { DefaultSchedule :=
                        { Realtime := env'.Realtime, Interval := env'.Interval,
                          MaxRetries := env'.MaxRetries } },
                  env := env' } })
    ∧ (∀ err, (Topic.Options.validate defaults getenv (some env)).2 = some err →
        Topic.New defaults getenv (some env) = { fatal := some err, destination := none }) := by
  have h1 : (Topic.Options.validate defaults getenv (some env)).1 = some env' := by
    subst hd
    cases env
    simp only [Topic.Options.validate, apply_ite Prod.fst, ite_self]
    split <;> split <;> simp_all
  refine ⟨h1, ?_, ?_⟩
  · intro h2
    unfold Topic.New
    rcases hv : Topic.Options.validate defaults getenv (some env) with ⟨o, e⟩
    rw [hv] at h1 h2
    simp only at h1 h2
    subst h1 h2
    rfl
  · intro err h2
    unfold Topic.New
    rcases hv : Topic.Options.validate defaults getenv (some env) with ⟨o, e⟩
    rw [hv] at h2
    simp only at h2
    subst h2
    cases o <;> rfl

theorem Sqlike.validate_then_New_sqlike (defaults : Destination.Schedule)
    (env env' : Sqlike.Options)
    (hd : env' = { env with
      Interval := if env.Interval = "" then defaults.Interval else env.Interval,
      MaxRetries := if env.MaxRetries = 0 then defaults.MaxRetries else env.MaxRetries }) :
    (Sqlike.Options.validate defaults (some env)).1 = some env'
    ∧ ((Sqlike.Options.validate defaults (some env)).2 = none →
        Sqlike.New defaults (some env)
          = { fatal := none,
              destination := some
                { options :=
                    { DefaultSchedule :=
                        { Realtime := env'.Realtime, Interval := env'.Interval,
                          MaxRetries := env'.MaxRetries } },
                  env := env' } })
    ∧ (∀ err, (Sqlike.Options.validate defaults (some env)).2 = some err →
        Sqlike.New defaults (some env) = { fatal := some err, destination := none }) := by
  have h1 : (Sqlike.Options.validate defaults (some env)).1 = some env' := by
    subst hd
    cases env
    simp only [Sqlike.Options.validate, apply_ite Prod.fst, ite_self]
    split <;> split <;> simp_all
  refine ⟨h1, ?_, ?_⟩
  · intro h2
    unfold Sqlike.New
    rcases hv : Sqlike.Options.validate defaults (some env) with ⟨o, e⟩
    rw [hv] at h1 h2
    simp only at h1 h2
    subst h1 h2
    rfl
  · intro err h2
    unfold Sqlike.New
    rcases hv : Sqlike.Options.validate defaults (some env) with ⟨o, e⟩
    rw [hv] at h2
    simp only at h2
    subst h2
    cases o <;> rfl

/-- C21: for every destination (amplitude, mailchimp, segment, blob, docstore,
topic, sqlike), every default schedule of the framework (`"@every 1h"` and `72`
by the doc comments of the options) and every non-nil options value,
`validate` leaves the options with an empty `Interval` replaced by the default
interval, a zero `MaxRetries` replaced by the default count, and every other
field, a non-empty `Interval` and a non-zero `MaxRetries` included, as given;
when `validate` returns no error, `New` logs nothing fatal and returns the
destination whose `DefaultSchedule` is the `Realtime`, `Interval` and
`MaxRetries` of those defaulted options, which it keeps as its options; when
`validate` returns an error, which it does on an empty required field and on
`nil` options, `New` hands that error to the fatal log and returns `nil`. -/
theorem validate_defaults_then_New (defaults : Destination.Schedule) (getenv : String → String) :
    (Destination.Defaults.Interval = "@every 1h" ∧ Destination.Defaults.MaxRetries = 72)
    ∧ ((∀ env env' : Amplitude.Options,
        env' = { env with
          Interval := if env.Interval = "" then defaults.Interval else env.Interval,
          MaxRetries := if env.MaxRetries = 0 then defaults.MaxRetries else env.MaxRetries } →
        (Amplitude.Options.validate defaults (some env)).1 = some env'
        ∧ ((Amplitude.Options.validate defaults (some env)).2 = none →
            Amplitude.New defaults (some env)
              = { fatal := none,
                  destination := some
                    { options :=
                        { DefaultSchedule :=
                            { Realtime := env'.Realtime, Interval := env'.Interval,
                              MaxRetries := env'.MaxRetries },
                          DefaultVersion := "v2.0", Versions := [("v2.0", Time.zero)] },
                      env := env' } })
        ∧ (∀ err, (Amplitude.Options.validate defaults (some env)).2 = some err →
            Amplitude.New defaults (some env) = { fatal := some err, destination := none })
        ∧ (env.APIKey = "" →
            (Amplitude.Options.validate defaults (some env)).2 ≠ none))
      ∧ (Amplitude.New defaults none).destination = none
      ∧ (Amplitude.New defaults none).fatal ≠ none)
    ∧ ((∀ env env' : Mailchimp.Options,
        env' = { env with
          Interval := if env.Interval = "" then defaults.Interval else env.Interval,
          MaxRetries := if env.MaxRetries = 0 then defaults.MaxRetries else env.MaxRetries } →
        (Mailchimp.Options.validate defaults (some env)).1 = some env'
        ∧ ((Mailchimp.Options.validate defaults (some env)).2 = none →
            Mailchimp.New defaults (some env)
              = { fatal := none,
                  destination := some
                    { options :=
                        { DefaultSchedule :=
                            { Realtime := env'.Realtime, Interval := env'.Interval,
                              MaxRetries := env'.MaxRetries },
                          DefaultVersion := "v3.0", Versions := [("v3.0", Time.zero)] },
                      env := env' } })
        ∧ (∀ err, (Mailchimp.Options.validate defaults (some env)).2 = some err →
            Mailchimp.New defaults (some env) = { fatal := some err, destination := none })
        ∧ (env.APIKey = "" ∨ env.DatacenterID = "" ∨ env.AudienceID = "" →
            (Mailchimp.Options.validate defaults (some env)).2 ≠ none))
      ∧ (Mailchimp.New defaults none).destination = none
      ∧ (Mailchimp.New defaults none).fatal ≠ none)
    ∧ ((∀ env env' : Segment.Options,
        env' = { env with
          Interval := if env.Interval = "" then defaults.Interval else env.Interval,
          MaxRetries := if env.MaxRetries = 0 then defaults.MaxRetries else env.MaxRetries } →
        (Segment.Options.validate defaults (some env)).1 = some env'
        ∧ ((Segment.Options.validate defaults (some env)).2 = none →
            Segment.New defaults (some env)
              = { fatal := none,
                  destination := some
                    { options :=
                        { DefaultSchedule :=
                            { Realtime := env'.Realtime, Interval := env'.Interval,
                              MaxRetries := env'.MaxRetries },
                          DefaultVersion := "v1.0", Versions := [("v1.0", Time.zero)] },
                      env := env' } })
        ∧ (∀ err, (Segment.Options.validate defaults (some env)).2 = some err →
            Segment.New defaults (some env) = { fatal := some err, destination := none })
        ∧ (env.WriteKey = "" →
            (Segment.Options.validate defaults (some env)).2 ≠ none))
      ∧ (Segment.New defaults none).destination = none
      ∧ (Segment.New defaults none).fatal ≠ none)
    ∧ ((∀ env env' : Blob.Options,
        env' = { env with
          Interval := if env.Interval = "" then defaults.Interval else env.Interval,
          MaxRetries := if env.MaxRetries = 0 then defaults.MaxRetries else env.MaxRetries } →
        (Blob.Options.validate defaults getenv (some env)).1 = some env'
        ∧ ((Blob.Options.validate defaults getenv (some env)).2 = none →
            Blob.New defaults getenv (some env)
              = { fatal := none,
                  destination := some
                    { options :=
                        { DefaultSchedule :=
                            { Realtime := env'.Realtime, Interval := env'.Interval,
                              MaxRetries := env'.MaxRetries } },
                      env := env' } })
        ∧ (∀ err, (Blob.Options.validate defaults getenv (some env)).2 = some err →
            Blob.New defaults getenv (some env) = { fatal := some err, destination := none })
        ∧ (env.Name = "" ∨ env.Driver = "" ∨ env.Connection = "" →
            (Blob.Options.validate defaults getenv (some env)).2 ≠ none))
      ∧ (Blob.New defaults getenv none).destination = none
      ∧ (Blob.New defaults getenv none).fatal ≠ none)
    ∧ ((∀ env env' : Docstore.Options,
        env' = { env with
          Interval := if env.Interval = "" then defaults.Interval else env.Interval,
          MaxRetries := if env.MaxRetries = 0 then defaults.MaxRetries else env.MaxRetries } →
        (Docstore.Options.validate defaults getenv (some env)).1 = some env'
        ∧ ((Docstore.Options.validate defaults getenv (some env)).2 = none →
            Docstore.New defaults getenv (some env)
              = { fatal := none,
                  destination := some
                    { options :=
                        { DefaultSchedule :=
                            { Realtime := env'.Realtime, Interval := env'.Interval,
                              MaxRetries := env'.MaxRetries } },
                      env := env' } })
        ∧ (∀ err, (Docstore.Options.validate defaults getenv (some env)).2 = some err →
            Docstore.New defaults getenv (some env) = { fatal := some err, destination := none })
        ∧ (env.Name = "" ∨ env.Driver = "" ∨ env.Connection = "" →
            (Docstore.Options.validate defaults getenv (some env)).2 ≠ none))
      ∧ (Docstore.New defaults getenv none).destination = none
      ∧ (Docstore.New defaults getenv none).fatal ≠ none)
    ∧ ((∀ env env' : Topic.Options,
        env' = { env with
          Interval := if env.Interval = "" then defaults.Interval else env.Interval,
          MaxRetries := if env.MaxRetries = 0 then defaults.MaxRetries else env.MaxRetries } →
        (Topic.Options.validate defaults getenv (some env)).1 = some env'
        ∧ ((Topic.Options.validate defaults getenv (some env)).2 = none →
            Topic.New defaults getenv (some env)
              = { fatal := none,
                  destination := some
                    { options :=
                        { DefaultSchedule :=
                            { Realtime := env'.Realtime, Interval := env'.Interval,
                              MaxRetries := env'.MaxRetries } },
                      env := env' } })
        ∧ (∀ err, (Topic.Options.validate defaults getenv (some env)).2 = some err →
            Topic.New defaults getenv (some env) = { fatal := some err, destination := none })
        ∧ (env.Name = "" ∨ env.Driver = "" ∨ env.Connection = "" →
            (Topic.Options.validate defaults getenv (some env)).2 ≠ none))
      ∧ (Topic.New defaults getenv none).destination = none
      ∧ (Topic.New defaults getenv none).fatal ≠ none)
    ∧ ((∀ env env' : Sqlike.Options,
        env' = { env with
          Interval := if env.Interval = "" then defaults.Interval else env.Interval,
          MaxRetries := if env.MaxRetries = 0 then defaults.MaxRetries else env.MaxRetries } →
        (Sqlike.Options.validate defaults (some env)).1 = some env'
        ∧ ((Sqlike.Options.validate defaults (some env)).2 = none →
            Sqlike.New defaults (some env)
              = { fatal := none,
                  destination := some
                    { options :=
                        { DefaultSchedule :=
                            { Realtime := env'.Realtime, Interval := env'.Interval,
                              MaxRetries := env'.MaxRetries } },
                      env := env' } })
        ∧ (∀ err, (Sqlike.Options.validate defaults (some env)).2 = some err →
            Sqlike.New defaults (some env) = { fatal := some err, destination := none })
        ∧ (env.Name = "" ∨ env.DB = none →
            (Sqlike.Options.validate defaults (some env)).2 ≠ none))
      ∧ (Sqlike.New defaults none).destination = none
      ∧ (Sqlike.New defaults none).fatal ≠ none) := by
  refine ⟨⟨rfl, rfl⟩, ?_, ?_, ?_, ?_, ?_, ?_, ?_⟩
  · refine ⟨fun env env' hd => ?_, rfl, by simp [Amplitude.New, Amplitude.Options.validate]⟩
    exact ⟨(Amplitude.validate_then_New_amplitude defaults env env' hd).1,
      (Amplitude.validate_then_New_amplitude defaults env env' hd).2.1,
      (Amplitude.validate_then_New_amplitude defaults env env' hd).2.2,
      fun h => by
        rw [Amplitude.Options.validate_amplitude_error]
        simp [h]⟩
  · refine ⟨fun env env' hd => ?_, rfl, by simp [Mailchimp.New, Mailchimp.Options.validate]⟩
    exact ⟨(Mailchimp.validate_then_New_mailchimp defaults env env' hd).1,
      (Mailchimp.validate_then_New_mailchimp defaults env env' hd).2.1,
      (Mailchimp.validate_then_New_mailchimp defaults env env' hd).2.2,
      fun h => by
        rw [Mailchimp.Options.validate_mailchimp_error]
        simp [h]⟩
  · refine ⟨fun env env' hd => ?_, rfl, by simp [Segment.New, Segment.Options.validate]⟩
    exact ⟨(Segment.validate_then_New_segment defaults env env' hd).1,
      (Segment.validate_then_New_segment defaults env env' hd).2.1,
      (Segment.validate_then_New_segment defaults env env' hd).2.2,
      fun h => by
        rw [Segment.Options.validate_segment_error]
        simp [h]⟩
  · refine ⟨fun env env' hd => ?_, rfl, by simp [Blob.New, Blob.Options.validate]⟩
    exact ⟨(Blob.validate_then_New_blob defaults getenv env env' hd).1,
      (Blob.validate_then_New_blob defaults getenv env env' hd).2.1,
      (Blob.validate_then_New_blob defaults getenv env env' hd).2.2,
      fun h => Blob.validate_error_of_missing_blob defaults getenv env h⟩
  · refine ⟨fun env env' hd => ?_, rfl, by simp [Docstore.New, Docstore.Options.validate]⟩
    exact ⟨(Docstore.validate_then_New_docstore defaults getenv env env' hd).1,
      (Docstore.validate_then_New_docstore defaults getenv env env' hd).2.1,
      (Docstore.validate_then_New_docstore defaults getenv env env' hd).2.2,
      fun h => Docstore.validate_error_of_missing_docstore defaults getenv env h⟩
  · refine ⟨fun env env' hd => ?_, rfl, by simp [Topic.New, Topic.Options.validate]⟩
    exact ⟨(Topic.validate_then_New_topic defaults getenv env env' hd).1,
      (Topic.validate_then_New_topic defaults getenv env env' hd).2.1,
      (Topic.validate_then_New_topic defaults getenv env env' hd).2.2,
      fun h => Topic.validate_error_of_missing_topic defaults getenv env h⟩
  · refine ⟨fun env env' hd => ?_, rfl, by simp [Sqlike.New, Sqlike.Options.validate]⟩
    exact ⟨(Sqlike.validate_then_New_sqlike defaults env env' hd).1,
      (Sqlike.validate_then_New_sqlike defaults env env' hd).2.1,
      (Sqlike.validate_then_New_sqlike defaults env env' hd).2.2,
      fun h => Sqlike.validate_error_of_missing_sqlike defaults env h⟩

/-- Instance of C21, the cases `WithNoInterval` and `WithNoName` of the blob
`TestNew`: the interval is defaulted and `MaxRetries = 10` is kept; without a
name `New` returns `nil` after a fatal log. -/
theorem validate_defaults_then_New_witness :
    Blob.New Destination.Defaults (fun _ => "")
        (some { Realtime := false, Interval := "", MaxRetries := 10, Name := "fakename",
                Driver := "fake", Connection := "fakeconn" })
      = { fatal := none,
          destination := some
            { options :=
                { DefaultSchedule :=
                    { Realtime := false, Interval := "@every 1h", MaxRetries := 10 } },
              env := { Realtime := false, Interval := "@every 1h", MaxRetries := 10,
                       Name := "fakename", Driver := "fake", Connection := "fakeconn" } } }
    ∧ (Blob.Options.validate Destination.Defaults (fun _ => "")
        (some { Realtime := false, Interval := "@every 1h", MaxRetries := 10, Name := "",
                Driver := "fake", Connection := "fakeconn" })).2 ≠ none :=
  ⟨(((validate_defaults_then_New Destination.Defaults (fun _ => "")).2.2.2.2.1).1
      { Realtime := false, Interval := "", MaxRetries := 10, Name := "fakename",
        Driver := "fake", Connection := "fakeconn" }
      { Realtime := false, Interval := "@every 1h", MaxRetries := 10, Name := "fakename",
        Driver := "fake", Connection := "fakeconn" } rfl).2.1 (by decide),
   (((validate_defaults_then_New Destination.Defaults (fun _ => "")).2.2.2.2.1).1
      { Realtime := false, Interval := "@every 1h", MaxRetries := 10, Name := "",
        Driver := "fake", Connection := "fakeconn" }
      { Realtime := false, Interval := "@every 1h", MaxRetries := 10, Name := "",
        Driver := "fake", Connection := "fakeconn" } rfl).2.2.2 (Or.inl rfl)⟩

/-- C28: every segmentflow `Transform` (Identify, Track, Group, Alias, Page,
Screen) returns, for every message, a `nil` context and a `nil` integrations
map included, the entries `amplitude`, (for Identify) `mailchimp` and
`segment`, in this order, each one present if and only if the integrations
map of the message has no entry under `Amplitude`, `Mailchimp`, `Segment`
respectively or has the boolean `true` there; no other key is produced, and
every entry holds exactly one action. -/
theorem Segmentflow.Transform_entries (float64Of : String → Float64) :
    (∀ (m : Segmentflow.Integrations) (name : String),
      m.enabled name = true ↔ (m.lookup name = none ∨ m.lookup name = some (JSON.bool true)))
    ∧ (∀ name : String, Segmentflow.Integrations.enabled [] name = true)
    ∧ (∀ f : Segmentflow.Identify,
        (Segmentflow.Identify.Transform f).map Prod.fst
          = (if Segmentflow.Integrations.enabled f.Integrations "Amplitude" = true then ["amplitude"] else [])
            ++ (if Segmentflow.Integrations.enabled f.Integrations "Mailchimp" = true then ["mailchimp"] else [])
            ++ (if Segmentflow.Integrations.enabled f.Integrations "Segment" = true then ["segment"] else [])
        ∧ ∀ kv ∈ Segmentflow.Identify.Transform f, kv.2.length = 1)
    ∧ (∀ f : Segmentflow.Track,
        (Segmentflow.Track.Transform float64Of f).map Prod.fst
          = (if Segmentflow.Integrations.enabled f.Integrations "Amplitude" = true then ["amplitude"] else [])
            ++ (if Segmentflow.Integrations.enabled f.Integrations "Segment" = true then ["segment"] else [])
        ∧ ∀ kv ∈ Segmentflow.Track.Transform float64Of f, kv.2.length = 1)
    ∧ (∀ f : Segmentflow.Group,
        (Segmentflow.Group.Transform f).map Prod.fst
          = (if Segmentflow.Integrations.enabled f.Integrations "Amplitude" = true then ["amplitude"] else [])
            ++ (if Segmentflow.Integrations.enabled f.Integrations "Segment" = true then ["segment"] else [])
        ∧ ∀ kv ∈ Segmentflow.Group.Transform f, kv.2.length = 1)
    ∧ (∀ f : Segment.Alias,
        (Segmentflow.Alias.Transform f).map Prod.fst
          = (if Segmentflow.Integrations.enabled f.Integrations "Amplitude" = true then ["amplitude"] else [])
            ++ (if Segmentflow.Integrations.enabled f.Integrations "Segment" = true then ["segment"] else [])
        ∧ ∀ kv ∈ Segmentflow.Alias.Transform f, kv.2.length = 1)
    ∧ (∀ f : Segmentflow.Page,
        (Segmentflow.Page.Transform f).map Prod.fst
          = (if Segmentflow.Integrations.enabled f.Integrations "Amplitude" = true then ["amplitude"] else [])
            ++ (if Segmentflow.Integrations.enabled f.Integrations "Segment" = true then ["segment"] else [])
        ∧ ∀ kv ∈ Segmentflow.Page.Transform f, kv.2.length = 1)
    ∧ (∀ f : Segmentflow.Screen,
        (Segmentflow.Screen.Transform f).map Prod.fst
          = (if Segmentflow.Integrations.enabled f.Integrations "Amplitude" = true then ["amplitude"] else [])
            ++ (if Segmentflow.Integrations.enabled f.Integrations "Segment" = true then ["segment"] else [])
        ∧ ∀ kv ∈ Segmentflow.Screen.Transform f, kv.2.length = 1) := by
  refine ⟨?_, ?_, ?_, ?_, ?_, ?_, ?_, ?_⟩
  · intro m name
    unfold Segmentflow.Integrations.enabled
    cases h : List.lookup name m with
    | none => simp
    | some v =>
      cases v with
      | bool b => cases b <;> simp [JSON.isTrue]
      | null => simp [JSON.isTrue]
      | num t => simp [JSON.isTrue]
      | str s => simp [JSON.isTrue]
      | arr xs => simp [JSON.isTrue]
      | obj fs => simp [JSON.isTrue]
  · intro name
    rfl
  · intro f
    by_cases hA : Segmentflow.Integrations.enabled f.Integrations "Amplitude" = true <;>
      by_cases hM : Segmentflow.Integrations.enabled f.Integrations "Mailchimp" = true <;>
      by_cases hS : Segmentflow.Integrations.enabled f.Integrations "Segment" = true <;>
      simp [Segmentflow.Identify.Transform, Segmentflow.assignIf, hA, hM, hS]
  · intro f
    by_cases hA : Segmentflow.Integrations.enabled f.Integrations "Amplitude" = true <;>
      by_cases hS : Segmentflow.Integrations.enabled f.Integrations "Segment" = true <;>
      simp [Segmentflow.Track.Transform, Segmentflow.assignIf, hA, hS]
  · intro f
    by_cases hA : Segmentflow.Integrations.enabled f.Integrations "Amplitude" = true <;>
      by_cases hS : Segmentflow.Integrations.enabled f.Integrations "Segment" = true <;>
      simp [Segmentflow.Group.Transform, Segmentflow.assignIf, hA, hS]
  · intro f
    by_cases hA : Segmentflow.Integrations.enabled f.Integrations "Amplitude" = true <;>
      by_cases hS : Segmentflow.Integrations.enabled f.Integrations "Segment" = true <;>
      simp [Segmentflow.Alias.Transform, Segmentflow.assignIf, hA, hS]
  · intro f
    by_cases hA : Segmentflow.Integrations.enabled f.Integrations "Amplitude" = true <;>
      by_cases hS : Segmentflow.Integrations.enabled f.Integrations "Segment" = true <;>
      simp [Segmentflow.Page.Transform, Segmentflow.assignIf, hA, hS]
  · intro f
    by_cases hA : Segmentflow.Integrations.enabled f.Integrations "Amplitude" = true <;>
      by_cases hS : Segmentflow.Integrations.enabled f.Integrations "Segment" = true <;>
      simp [Segmentflow.Screen.Transform, Segmentflow.assignIf, hA, hS]

end Blacksmith
